import Mathlib

/-!
# Verification of the 6relayd core packet engines

A shallow embedding of the 6relayd IPv6 relay daemon (sources:
`src/unnamed/part_001` = main/event loop/io helpers, `src/unnamed/part_002` =
DHCPv6 engine, `src/src/router.c` = router discovery engine).  Packets are
byte lists (`List Nat`, one entry per octet); fallible paths return `Option`.
The project headers (`6relayd.h`, `dhcpv6.h`, `router.h`) are not part of the
provided sources; the constants, packed record layouts and the two option
iteration macros they define are modelled from the specification, each marked
`Modelled from the spec:` in its doc comment.
-/

namespace Relayd

/-! ## Protocol constants

Modelled from the spec: message type and option code constants from the
missing `dhcpv6.h`, with the values of RFC 3315 / RFC 3646 that the spec's
wire-format section references. -/

def DHCPV6_MSG_SOLICIT : Nat := 1
def DHCPV6_MSG_ADVERTISE : Nat := 2
def DHCPV6_MSG_REQUEST : Nat := 3
def DHCPV6_MSG_REBIND : Nat := 6
def DHCPV6_MSG_REPLY : Nat := 7
def DHCPV6_MSG_RECONFIGURE : Nat := 10
def DHCPV6_MSG_INFORMATION_REQUEST : Nat := 11
def DHCPV6_MSG_RELAY_FORW : Nat := 12
def DHCPV6_MSG_RELAY_REPL : Nat := 13

def DHCPV6_OPT_CLIENTID : Nat := 1
def DHCPV6_OPT_SERVERID : Nat := 2
def DHCPV6_OPT_IA_NA : Nat := 3
def DHCPV6_OPT_RELAY_MSG : Nat := 9
def DHCPV6_OPT_AUTH : Nat := 11
def DHCPV6_OPT_STATUS : Nat := 13
def DHCPV6_OPT_INTERFACE_ID : Nat := 18
def DHCPV6_OPT_DNS_SERVERS : Nat := 23

def DHCPV6_STATUS_NOADDRSAVAIL : Nat := 2

/-- Modelled from the spec: `DHCPV6_HOP_COUNT_LIMIT` from the missing
`dhcpv6.h`; the spec fixes the relay hop limit at 32 (the RFC limit). -/
def DHCPV6_HOP_COUNT_LIMIT : Nat := 32

/-- Modelled from the spec: `RELAYD_BUFFER_SIZE` from the missing `6relayd.h`;
the spec states all buffers are fixed size, about 1500 bytes. -/
def RELAYD_BUFFER_SIZE : Nat := 1500

/-- Modelled from the spec: DUID-EN (vendor/enterprise) DUID type code. -/
def DHCPV6_DUID_VENDOR : Nat := 2
/-- Modelled from the spec: the enterprise number used in the broken-DHCPv6
DUID tag (value from the missing `dhcpv6.h`; its exact value is immaterial,
only that both directions of the rewrite use the same constant). -/
def DHCPV6_ENT_NO : Nat := 30462
/-- Modelled from the spec: the subtype tag of the broken-DHCPv6 DUID. -/
def DHCPV6_ENT_TYPE : Nat := 1

/-! ## Byte-buffer primitives -/

/-- Byte at index `i` of a buffer (0 when out of range, mirroring that the C
code never reads out of the underlying fixed-size array). -/
def byteAt (buf : List Nat) (i : Nat) : Nat := buf.getD i 0

/-- `len` bytes of `buf` starting at offset `off`. -/
def sub (buf : List Nat) (off len : Nat) : List Nat := (buf.drop off).take len

/-- Big-endian 16-bit read at offset `i`. -/
def readBE16 (buf : List Nat) (i : Nat) : Nat :=
  256 * byteAt buf i + byteAt buf (i + 1)

/-- Big-endian 16-bit encoding (low 16 bits of `n`). -/
def be16 (n : Nat) : List Nat := [n / 256 % 256, n % 256]

/-- Big-endian 32-bit encoding (low 32 bits of `n`). -/
def be32 (n : Nat) : List Nat :=
  [n / 16777216 % 256, n / 65536 % 256, n / 256 % 256, n % 256]

/-- Little-endian 32-bit encoding: the daemon stores raw `ifindex` words in
native byte order, and the build target (`src/unnamed/part_000`) is mipsel,
i.e. little-endian. -/
def le32 (n : Nat) : List Nat :=
  [n % 256, n / 256 % 256, n / 65536 % 256, n / 16777216 % 256]

/-- Little-endian 32-bit read at offset `i`. -/
def readLE32 (buf : List Nat) (i : Nat) : Nat :=
  byteAt buf i + 256 * byteAt buf (i + 1) + 65536 * byteAt buf (i + 2) +
    16777216 * byteAt buf (i + 3)

/-- Overwrite the bytes of `buf` from offset `pos` on with `xs` (the part of
`xs` that would fall beyond the end of `buf` is dropped, as a C `memcpy`
inside a fixed buffer never grows it). -/
def setBytes (buf : List Nat) (pos : Nat) (xs : List Nat) : List Nat :=
  buf.take pos ++ (xs.take (buf.length - pos)) ++ buf.drop (pos + xs.length)

/-- `IN6_IS_ADDR_LINKLOCAL`: first byte `0xfe`, top two bits of the second
byte `10`. -/
def isLinkLocal (a : List Nat) : Bool :=
  byteAt a 0 == 0xfe && byteAt a 1 / 64 % 4 == 2

/-! ## The DHCPv6 option walker

Modelled from the spec: `dhcpv6_for_each_option` lives in the missing
`dhcpv6.h`.  The spec describes it precisely: each option is
`(type:u16, length:u16, value:length bytes)` big-endian; iteration runs while
the 4-byte header fits before the declared end and `start+4+length` does not
exceed the declared end (nor wrap — impossible here because offsets are
natural numbers and lengths are 16-bit); a truncated option ends iteration
without being emitted.  The C macro re-reads the length bytes from the buffer
when advancing the cursor, which matters because two call sites mutate the
length field mid-iteration; the model does the same.

`dhcpv6_opts_aux buf endI fuel pos` returns the `(offset, type, length)`
triples of the visited options; `fuel` only forces structural recursion and
is irrelevant once it exceeds `endI - pos` (proved below). -/

def dhcpv6_opts_aux (buf : List Nat) (endI : Nat) : Nat → Nat → List (Nat × Nat × Nat)
  | 0, _ => []
  | fuel + 1, pos =>
    if pos + 4 ≤ endI then
      let t := readBE16 buf pos
      let l := readBE16 buf (pos + 2)
      if pos + 4 + l ≤ endI then
        (pos, t, l) :: dhcpv6_opts_aux buf endI fuel (pos + 4 + l)
      else []
    else []

/-- The options between offset `pos` and the declared end `endI`, as
`(offset, type, length)` triples. -/
def dhcpv6_option_offsets (buf : List Nat) (endI pos : Nat) : List (Nat × Nat × Nat) :=
  dhcpv6_opts_aux buf endI (endI + 1) pos

/-- The options between offset `pos` and the declared end `endI`, as
`(type, value)` pairs. -/
def dhcpv6_opts (buf : List Nat) (endI pos : Nat) : List (Nat × List Nat) :=
  (dhcpv6_option_offsets buf endI pos).map (fun e => (e.2.1, sub buf (e.1 + 4) e.2.2))

/-! fuel irrelevance -/

theorem dhcpv6_opts_aux_fuel (buf : List Nat) (endI : Nat) :
    ∀ f₁ f₂ pos, endI - pos < f₁ → endI - pos < f₂ →
      dhcpv6_opts_aux buf endI f₁ pos = dhcpv6_opts_aux buf endI f₂ pos := by
  intro f₁
  induction f₁ with
  | zero => intro f₂ pos h₁ _; omega
  | succ f ih =>
    intro f₂ pos h₁ h₂
    match f₂, h₂ with
    | f₂ + 1, h₂ =>
      simp only [dhcpv6_opts_aux]
      by_cases hp : pos + 4 ≤ endI
      · simp only [hp, if_true]
        by_cases hl : pos + 4 + readBE16 buf (pos + 2) ≤ endI
        · simp only [hl, if_true]
          rw [ih f₂ (pos + 4 + readBE16 buf (pos + 2)) (by omega) (by omega)]
        · simp only [hl, if_false]
      · simp only [hp, if_false]

theorem dhcpv6_option_offsets_step (buf : List Nat) (endI pos : Nat)
    (hp : pos + 4 ≤ endI) (hl : pos + 4 + readBE16 buf (pos + 2) ≤ endI) :
    dhcpv6_option_offsets buf endI pos =
      (pos, readBE16 buf pos, readBE16 buf (pos + 2)) ::
        dhcpv6_option_offsets buf endI (pos + 4 + readBE16 buf (pos + 2)) := by
  unfold dhcpv6_option_offsets
  have h0 : dhcpv6_opts_aux buf endI (endI + 1) pos =
      (pos, readBE16 buf pos, readBE16 buf (pos + 2)) ::
        dhcpv6_opts_aux buf endI endI (pos + 4 + readBE16 buf (pos + 2)) := by
    simp only [dhcpv6_opts_aux, hp, if_true, hl, if_true]
  rw [h0, dhcpv6_opts_aux_fuel buf endI endI (endI + 1) _ (by omega) (by omega)]

theorem dhcpv6_option_offsets_stop (buf : List Nat) (endI pos : Nat)
    (h : ¬ (pos + 4 ≤ endI ∧ pos + 4 + readBE16 buf (pos + 2) ≤ endI)) :
    dhcpv6_option_offsets buf endI pos = [] := by
  unfold dhcpv6_option_offsets
  simp only [dhcpv6_opts_aux]
  by_cases hp : pos + 4 ≤ endI
  · by_cases hl : pos + 4 + readBE16 buf (pos + 2) ≤ endI
    · exact absurd ⟨hp, hl⟩ h
    · simp [hp, hl]
  · simp [hp]

/-- Every option the walker emits lies, header and value, between the walk
start and the declared end. -/
theorem dhcpv6_opts_aux_bounds (buf : List Nat) (endI : Nat) :
    ∀ fuel pos, ∀ e ∈ dhcpv6_opts_aux buf endI fuel pos,
      pos ≤ e.1 ∧ e.1 + 4 + e.2.2 ≤ endI := by
  intro fuel
  induction fuel with
  | zero => intro pos e he; simp [dhcpv6_opts_aux] at he
  | succ f ih =>
    intro pos e he
    simp only [dhcpv6_opts_aux] at he
    by_cases hp : pos + 4 ≤ endI
    · simp only [hp, if_true] at he
      by_cases hl : pos + 4 + readBE16 buf (pos + 2) ≤ endI
      · simp only [hl, if_true, List.mem_cons] at he
        rcases he with rfl | he
        · exact ⟨Nat.le_refl _, hl⟩
        · rcases ih _ e he with ⟨h₁, h₂⟩
          exact ⟨by omega, h₂⟩
      · simp [hl] at he
    · simp [hp] at he

/-! ## Byte-access helper lemmas -/

theorem byteAt_append_right (A B : List Nat) (k : Nat) :
    byteAt (A ++ B) (A.length + k) = byteAt B k := by
  unfold byteAt
  rw [List.getD_append_right A B 0 (A.length + k) (by omega)]
  congr 1
  omega

theorem readBE16_append_right (A B : List Nat) (k : Nat) :
    readBE16 (A ++ B) (A.length + k) = readBE16 B k := by
  unfold readBE16
  rw [show A.length + k + 1 = A.length + (k + 1) by omega,
    byteAt_append_right, byteAt_append_right]

theorem sub_append_right (A B : List Nat) (k n : Nat) :
    sub (A ++ B) (A.length + k) n = sub B k n := by
  unfold sub
  rw [List.drop_append_eq_append_drop, List.drop_eq_nil_of_le (by omega)]
  simp

theorem be16_readBE16 (n : Nat) (hn : n < 65536) (rest : List Nat) :
    readBE16 (be16 n ++ rest) 0 = n := by
  simp only [be16, readBE16, byteAt, List.cons_append]
  simp only [List.getD_cons_zero, List.getD_cons_succ]
  omega

/-! ## TLV encoding (used to state structural hypotheses about packets) -/

/-- One DHCPv6 option `(type, value)`, serialized. -/
def encodeOpt (o : Nat × List Nat) : List Nat :=
  be16 o.1 ++ be16 o.2.length ++ o.2

/-- A sequence of DHCPv6 options, serialized back-to-back. -/
def encodeOpts : List (Nat × List Nat) → List Nat
  | [] => []
  | o :: rest => encodeOpt o ++ encodeOpts rest

/-- Well-formed option list: 16-bit type, 16-bit length. -/
def optsWF (T : List (Nat × List Nat)) : Prop :=
  ∀ o ∈ T, o.1 < 65536 ∧ o.2.length < 65536

instance (T : List (Nat × List Nat)) : Decidable (optsWF T) := by
  unfold optsWF; infer_instance

theorem encodeOpt_length (o : Nat × List Nat) :
    (encodeOpt o).length = 4 + o.2.length := by
  simp [encodeOpt, be16]; omega

/-- Walking a buffer that is `A` followed by well-formed encoded options,
starting right after `A` with the declared end at the true end, yields exactly
those options. -/
theorem dhcpv6_opts_encode :
    ∀ (T : List (Nat × List Nat)) (A : List Nat), optsWF T →
      dhcpv6_opts (A ++ encodeOpts T) (A ++ encodeOpts T).length A.length = T := by
  intro T
  induction T with
  | nil =>
    intro A _
    simp only [encodeOpts, List.append_nil, dhcpv6_opts]
    rw [dhcpv6_option_offsets_stop _ _ _ (by omega)]
    rfl
  | cons o rest ih =>
    intro A hwf
    obtain ⟨hty, hlen⟩ := hwf o (List.mem_cons_self o rest)
    have hrest : optsWF rest := fun x hx => hwf x (List.mem_cons_of_mem o hx)
    have hbuf : A ++ encodeOpts (o :: rest) =
        (A ++ encodeOpt o) ++ encodeOpts rest := by
      simp [encodeOpts]
    have hty' : readBE16 (A ++ encodeOpts (o :: rest)) A.length = o.1 := by
      show readBE16 (A ++ encodeOpts (o :: rest)) (A.length + 0) = o.1
      rw [readBE16_append_right]
      simp only [encodeOpts, encodeOpt, List.append_assoc]
      exact be16_readBE16 o.1 hty _
    have hln' : readBE16 (A ++ encodeOpts (o :: rest)) (A.length + 2) = o.2.length := by
      rw [show A.length + 2 = (A ++ be16 o.1).length + 0 by simp [be16]]
      rw [show A ++ encodeOpts (o :: rest) =
        (A ++ be16 o.1) ++ (be16 o.2.length ++ (o.2 ++ encodeOpts rest)) by
          simp [encodeOpts, encodeOpt]]
      rw [readBE16_append_right]
      exact be16_readBE16 o.2.length hlen _
    have hlena : (A ++ encodeOpts (o :: rest)).length =
        A.length + 4 + o.2.length + (encodeOpts rest).length := by
      simp [encodeOpts, encodeOpt, be16]; omega
    have hval : sub (A ++ encodeOpts (o :: rest)) (A.length + 4) o.2.length = o.2 := by
      rw [show A.length + 4 = (A ++ be16 o.1 ++ be16 o.2.length).length + 0 by
        simp [be16]]
      rw [show A ++ encodeOpts (o :: rest) =
        (A ++ be16 o.1 ++ be16 o.2.length) ++ (o.2 ++ encodeOpts rest) by
          simp [encodeOpts, encodeOpt]]
      rw [sub_append_right]
      unfold sub
      simp
    unfold dhcpv6_opts
    rw [dhcpv6_option_offsets_step _ _ _ (by omega) (by rw [hln']; omega)]
    simp only [List.map_cons, hty', hln', hval]
    congr 1
    have := ih (A ++ encodeOpt o) hrest
    unfold dhcpv6_opts at this
    rw [← hbuf] at this
    have hlen2 : (A ++ encodeOpt o).length = A.length + 4 + o.2.length := by
      simp [encodeOpt, be16]; omega
    rw [hlen2] at this
    exact this

/-! ## Claim C1: option-walker safety -/

/-- **C1.** For every input buffer of length at most 64 KB and every sequence
of DHCPv6 option TLVs it contains, the option walker visits only bytes
between the buffer start and its declared end: every emitted option,
header and value, lies within `[0, endI)`; an option whose declared length
field is zero is emitted as one empty option and advances the cursor by
exactly 4 bytes; and an option whose 4-byte header plus declared length
would extend past the declared end terminates iteration without emitting
that option (length arithmetic cannot wrap: offsets are naturals and the
declared length is a 16-bit field). -/
theorem dhcpv6_walker_safety (buf : List Nat) (endI : Nat)
    (hbuf : buf.length ≤ 65536) (hend : endI ≤ buf.length) :
    (∀ e ∈ dhcpv6_option_offsets buf endI 0, e.1 + 4 + e.2.2 ≤ endI) ∧
    (∀ pos, pos + 4 ≤ endI → readBE16 buf (pos + 2) = 0 →
      dhcpv6_opts buf endI pos =
        (readBE16 buf pos, []) :: dhcpv6_opts buf endI (pos + 4)) ∧
    (∀ pos, pos + 4 ≤ endI → endI < pos + 4 + readBE16 buf (pos + 2) →
      dhcpv6_option_offsets buf endI pos = []) := by
  refine ⟨fun e he => (dhcpv6_opts_aux_bounds buf endI _ 0 e he).2, ?_, ?_⟩
  · intro pos hp hz
    unfold dhcpv6_opts
    rw [dhcpv6_option_offsets_step buf endI pos hp (by omega)]
    simp [hz, sub]
  · intro pos hp hover
    exact dhcpv6_option_offsets_stop buf endI pos (by omega)

/-- Witness for C1 at the concrete buffer
`[0,1, 0,0, 0,2, 0,200]` (a zero-length option of type 1 followed by a
truncated option of type 2 claiming 200 value bytes) with declared end 8. -/
theorem dhcpv6_walker_safety_witness :
    ([0, 1, 0, 0, 0, 2, 0, 200] : List Nat).length ≤ 65536 ∧
    (8 : Nat) ≤ ([0, 1, 0, 0, 0, 2, 0, 200] : List Nat).length ∧
    ((∀ e ∈ dhcpv6_option_offsets [0, 1, 0, 0, 0, 2, 0, 200] 8 0,
        e.1 + 4 + e.2.2 ≤ 8) ∧
     (∀ pos, pos + 4 ≤ 8 → readBE16 [0, 1, 0, 0, 0, 2, 0, 200] (pos + 2) = 0 →
        dhcpv6_opts [0, 1, 0, 0, 0, 2, 0, 200] 8 pos =
          (readBE16 [0, 1, 0, 0, 0, 2, 0, 200] pos, []) ::
            dhcpv6_opts [0, 1, 0, 0, 0, 2, 0, 200] 8 (pos + 4)) ∧
     (∀ pos, pos + 4 ≤ 8 →
        8 < pos + 4 + readBE16 [0, 1, 0, 0, 0, 2, 0, 200] (pos + 2) →
        dhcpv6_option_offsets [0, 1, 0, 0, 0, 2, 0, 200] 8 pos = [])) :=
  ⟨by decide, by decide,
    dhcpv6_walker_safety [0, 1, 0, 0, 0, 2, 0, 200] 8 (by decide) (by decide)⟩

/-! ## Interface registry and configuration (from `6relayd.h` usage in
`src/unnamed/part_001` and the spec's data model) -/

/-- An interface record: kernel index, name, MAC (6 bytes).  (MTU and the
`external` flag play no role in the claims below.) -/
structure relayd_interface where
  ifindex : Nat
  ifname : String
  mac : List Nat
deriving DecidableEq, Repr

/-- The configuration snapshot.  Field set follows the feature flags read by
the three engines; `dnsaddr`, `always_announce_default_router` and
`deprecate_ula_if_public_avail` are declared in the missing header and
never written by `main` in `src/unnamed/part_001`, but the engines read
them, so they are kept as fields. -/
structure relayd_config where
  master : relayd_interface
  slaves : List relayd_interface
  enable_router_discovery_relay : Bool := false
  enable_router_discovery_server : Bool := false
  enable_dhcpv6_relay : Bool := false
  enable_dhcpv6_server : Bool := false
  compat_broken_dhcpv6 : Bool := false
  enable_ndp_relay : Bool := false
  enable_route_learning : Bool := false
  enable_forwarding : Bool := false
  send_router_solicitation : Bool := false
  force_address_assignment : Bool := false
  always_rewrite_dns : Bool := false
  always_announce_default_router : Bool := false
  deprecate_ula_if_public_avail : Bool := false
  dnsaddr : List Nat := List.replicate 16 0
deriving Repr

/-- The system's current IPv6 address assignment, as `getifaddrs` exposes it:
the `AF_INET6` entries in enumeration order, each an interface name paired
with a 16-byte address. -/
def AddrEnv := List (String × List Nat)

/-- `relayd_get_interface_address` from `src/unnamed/part_001`: scan the
`getifaddrs` list in order, skip entries of other interfaces, skip
link-local addresses unless `allow_linklocal`, and return the first match. -/
def relayd_get_interface_address (env : AddrEnv) (ifname : String)
    (allow_linklocal : Bool) : Option (List Nat) :=
  (List.find? (fun e : String × List Nat =>
    e.1 == ifname && (allow_linklocal || !isLinkLocal e.2)) env).map (·.2)

/-! ## `relay_client_request` (standard client-to-server relay,
`src/unnamed/part_002` lines 402-454) -/

/-- The RELAY-FORW envelope `relay_client_request` fills in
(`struct dhcpv6_relay_forward_envelope`; layout modelled from the spec and
from the field writes in the source; `msg_type` is always `RELAY_FORW`,
`interface_id` carries the raw 4-byte ifindex, `relay_message` the original
payload). -/
structure dhcpv6_relay_forward_envelope where
  hop_count : Nat
  link_address : List Nat
  peer_address : List Nat
  interface_id_data : List Nat
  relay_message : List Nat
deriving DecidableEq, Repr

/-- `relay_client_request`: reject server-originated message types, build a
RELAY-FORW envelope (hop 0, or hop+1 for a RELAY-FORW below the hop limit),
peer = client source, link-address = a non-link-local address of the slave,
falling back to one of the master, and forward envelope + payload.
`source` is the 16-byte client source address, `data` the received bytes. -/
def relay_client_request (cfg : relayd_config) (env : AddrEnv)
    (source : List Nat) (data : List Nat) (iface : relayd_interface) :
    Option dhcpv6_relay_forward_envelope :=
  let msg_type := byteAt data 0
  if msg_type == DHCPV6_MSG_RELAY_REPL || msg_type == DHCPV6_MSG_RECONFIGURE ||
      msg_type == DHCPV6_MSG_REPLY || msg_type == DHCPV6_MSG_ADVERTISE then
    none
  else
    let hop? : Option Nat :=
      if msg_type == DHCPV6_MSG_RELAY_FORW then
        if byteAt data 1 ≥ DHCPV6_HOP_COUNT_LIMIT then none
        else some (byteAt data 1 + 1)
      else some 0
    match hop? with
    | none => none
    | some hop =>
      match relayd_get_interface_address env iface.ifname false with
      | some la => some ⟨hop, la, source, le32 iface.ifindex, data⟩
      | none =>
        match relayd_get_interface_address env cfg.master.ifname false with
        | some la => some ⟨hop, la, source, le32 iface.ifindex, data⟩
        | none => none

/-! ## Claim C2: hop-count discipline of the standard relay -/

/-- **C2.** For every message handled by `relay_client_request`: a non
RELAY-FORW message is wrapped with hop count 0; a RELAY-FORW with hop count
at least 32 is dropped; a RELAY-FORW with hop count `h < 32` is wrapped with
hop count `h + 1`; hence every emitted envelope has hop count at most 32,
and for RELAY-FORW inputs exactly `h + 1 ≤ 32`. -/
theorem relay_client_request_hop_limit (cfg : relayd_config) (env : AddrEnv)
    (source data : List Nat) (iface : relayd_interface)
    (hnotserver : byteAt data 0 ≠ DHCPV6_MSG_RELAY_REPL ∧
      byteAt data 0 ≠ DHCPV6_MSG_RECONFIGURE ∧
      byteAt data 0 ≠ DHCPV6_MSG_REPLY ∧
      byteAt data 0 ≠ DHCPV6_MSG_ADVERTISE) :
    (byteAt data 0 ≠ DHCPV6_MSG_RELAY_FORW →
      ∀ e, relay_client_request cfg env source data iface = some e →
        e.hop_count = 0) ∧
    (byteAt data 0 = DHCPV6_MSG_RELAY_FORW → byteAt data 1 ≥ 32 →
      relay_client_request cfg env source data iface = none) ∧
    (byteAt data 0 = DHCPV6_MSG_RELAY_FORW → byteAt data 1 < 32 →
      ∀ e, relay_client_request cfg env source data iface = some e →
        e.hop_count = byteAt data 1 + 1 ∧ byteAt data 1 + 1 ≤ 32) ∧
    (∀ e, relay_client_request cfg env source data iface = some e →
      e.hop_count ≤ 32) := by
  obtain ⟨h1, h2, h3, h4⟩ := hnotserver
  unfold relay_client_request
  simp only [DHCPV6_MSG_RELAY_REPL, DHCPV6_MSG_RECONFIGURE, DHCPV6_MSG_REPLY,
    DHCPV6_MSG_ADVERTISE, DHCPV6_MSG_RELAY_FORW, DHCPV6_HOP_COUNT_LIMIT] at *
  rw [if_neg (by simp [h1, h2, h3, h4])]
  by_cases hforw : byteAt data 0 = 12
  · simp only [hforw, beq_self_eq_true, if_true]
    by_cases hhop : byteAt data 1 ≥ 32
    · refine ⟨fun hne => absurd rfl hne, fun _ _ => ?_, ?_, ?_⟩
      · rw [if_pos hhop]
      · intro _ hlt; omega
      · intro e he
        rw [if_pos hhop] at he
        exact absurd he (by simp)
    · refine ⟨fun hne => absurd rfl hne, fun _ hge => absurd hge hhop, ?_, ?_⟩
      · intro _ hlt e he
        rw [if_neg hhop] at he
        refine ⟨?_, by omega⟩
        rcases hla : relayd_get_interface_address env iface.ifname false with
          _ | la
        · rcases hma : relayd_get_interface_address env cfg.master.ifname false
            with _ | la'
          · rw [hla, hma] at he; exact absurd he (by simp)
          · rw [hla, hma] at he
            simp only [Option.some.injEq] at he
            rw [← he]
        · rw [hla] at he
          simp only [Option.some.injEq] at he
          rw [← he]
      · intro e he
        rw [if_neg hhop] at he
        have hle : byteAt data 1 + 1 ≤ 32 := by omega
        rcases hla : relayd_get_interface_address env iface.ifname false with
          _ | la
        · rcases hma : relayd_get_interface_address env cfg.master.ifname false
            with _ | la'
          · rw [hla, hma] at he; exact absurd he (by simp)
          · rw [hla, hma] at he
            simp only [Option.some.injEq] at he
            rw [← he]; exact hle
        · rw [hla] at he
          simp only [Option.some.injEq] at he
          rw [← he]; exact hle
  · have hne : (byteAt data 0 == 12) = false := by simp [hforw]
    simp only [hne, Bool.false_eq_true, if_false]
    refine ⟨?_, fun hf => absurd hf hforw, fun hf => absurd hf hforw, ?_⟩
    · intro _ e he
      rcases hla : relayd_get_interface_address env iface.ifname false with
        _ | la
      · rcases hma : relayd_get_interface_address env cfg.master.ifname false
          with _ | la'
        · rw [hla, hma] at he; exact absurd he (by simp)
        · rw [hla, hma] at he
          simp only [Option.some.injEq] at he
          rw [← he]
      · rw [hla] at he
        simp only [Option.some.injEq] at he
        rw [← he]
    · intro e he
      rcases hla : relayd_get_interface_address env iface.ifname false with
        _ | la
      · rcases hma : relayd_get_interface_address env cfg.master.ifname false
          with _ | la'
        · rw [hla, hma] at he; exact absurd he (by simp)
        · rw [hla, hma] at he
          simp only [Option.some.injEq] at he
          rw [← he]; exact Nat.zero_le _
      · rw [hla] at he
        simp only [Option.some.injEq] at he
        rw [← he]; exact Nat.zero_le _

/-! ## Concrete fixtures used by witnesses and counterexamples -/

/-- A master interface fixture. -/
def ifWan : relayd_interface := ⟨1, "wan", [0xaa, 0xbb, 0xcc, 0xdd, 0xee, 0xff]⟩
/-- A slave interface fixture. -/
def ifLan : relayd_interface := ⟨2, "lan", [0x11, 0x22, 0x33, 0x44, 0x55, 0x66]⟩
/-- A global address fixture (`2001::` prefixed). -/
def addrGlobal : List Nat := 32 :: 1 :: List.replicate 14 0
/-- A second global address fixture. -/
def addrGlobal2 : List Nat := 32 :: 2 :: List.replicate 14 0
/-- A link-local address fixture (`fe80::` prefixed). -/
def addrLL : List Nat := 254 :: 128 :: List.replicate 14 1
/-- An address environment where both interfaces have a global address. -/
def env0 : AddrEnv := [("wan", addrGlobal), ("lan", addrGlobal2)]
/-- A minimal relay configuration fixture. -/
def cfg0 : relayd_config :=
  { master := ifWan
    slaves := [ifLan]
    enable_dhcpv6_relay := true }

/-- Witness for C2 at a concrete RELAY-FORW with hop count 31 (wrapped with
hop count 32). -/
theorem relay_client_request_hop_limit_witness :
    (byteAt [12, 31] 0 ≠ DHCPV6_MSG_RELAY_REPL ∧
      byteAt [12, 31] 0 ≠ DHCPV6_MSG_RECONFIGURE ∧
      byteAt [12, 31] 0 ≠ DHCPV6_MSG_REPLY ∧
      byteAt [12, 31] 0 ≠ DHCPV6_MSG_ADVERTISE) ∧
    ((byteAt [12, 31] 0 ≠ DHCPV6_MSG_RELAY_FORW →
      ∀ e, relay_client_request cfg0 env0 addrLL [12, 31] ifLan =
          some e → e.hop_count = 0) ∧
    (byteAt [12, 31] 0 = DHCPV6_MSG_RELAY_FORW → byteAt [12, 31] 1 ≥ 32 →
      relay_client_request cfg0 env0 addrLL [12, 31] ifLan = none) ∧
    (byteAt [12, 31] 0 = DHCPV6_MSG_RELAY_FORW → byteAt [12, 31] 1 < 32 →
      ∀ e, relay_client_request cfg0 env0 addrLL [12, 31] ifLan =
          some e →
        e.hop_count = byteAt [12, 31] 1 + 1 ∧ byteAt [12, 31] 1 + 1 ≤ 32) ∧
    (∀ e, relay_client_request cfg0 env0 addrLL [12, 31] ifLan =
        some e → e.hop_count ≤ 32)) :=
  ⟨by decide, relay_client_request_hop_limit cfg0 env0 addrLL
    [12, 31] ifLan (by decide)⟩

/-! ## Broken-DHCPv6 (transparent) mode
(`relay_client_request_broken`, `src/unnamed/part_002` lines 458-513, and the
broken branch of `relay_server_response`, lines 307-341) -/

/-- Pad or truncate an address to 16 bytes (a `struct in6_addr` field). -/
def fix16 (a : List Nat) : List Nat :=
  a.take 16 ++ List.replicate (16 - a.length) 0

/-- `sizeof(struct dhcpv6_broken_duid)`.  Modelled from the spec: the packed
structure holds a 16-bit DUID type, 32-bit enterprise number, 16-bit subtype
tag, 32-bit interface index and a 16-byte link-local address: 28 bytes. -/
def broken_duid_size : Nat := 28

/-- The serialized `struct dhcpv6_broken_duid` the forward path prepends to
the Client-ID value: DUID-EN type and enterprise number and subtype tag in
network order, the raw interface index in native (little-endian, see `le32`)
order, and the client's source address. -/
def dhcpv6_broken_duid (ifindex : Nat) (link_addr : List Nat) : List Nat :=
  be16 DHCPV6_DUID_VENDOR ++ be32 DHCPV6_ENT_NO ++ be16 DHCPV6_ENT_TYPE ++
    le32 ifindex ++ fix16 link_addr

/-- The option loop of `relay_client_request_broken`: walk the options with
the end pointer frozen at the original packet end (`endI`); abort on an
Authentication option; at each Client-ID, shift the tail right by 28 bytes,
write the broken DUID after the option header, and patch the low byte of the
option length (the C code assigns `olen + sizeof(du)` to the single byte
`odata[-1]`); the cursor advance re-reads the patched length bytes.  Returns
the final buffer and whether any rewrite happened; `none` means drop. -/
def broken_rewrite_loop (du : List Nat) :
    Nat → List Nat → Nat → Nat → Bool → Option (List Nat × Bool)
  | 0, buf, _, _, done => some (buf, done)
  | fuel + 1, buf, endI, pos, done =>
    if pos + 4 ≤ endI then
      let t := readBE16 buf pos
      let l := readBE16 buf (pos + 2)
      if pos + 4 + l ≤ endI then
        if t == DHCPV6_OPT_AUTH then none
        else if t == DHCPV6_OPT_CLIENTID then
          let buf1 := buf.take (pos + 4) ++ du ++ buf.drop (pos + 4)
          let buf2 := setBytes buf1 (pos + 3) [(l + broken_duid_size) % 256]
          broken_rewrite_loop du fuel buf2 endI
            (pos + 4 + readBE16 buf2 (pos + 2)) true
        else
          broken_rewrite_loop du fuel buf endI (pos + 4 + readBE16 buf (pos + 2)) done
      else some (buf, done)
    else some (buf, done)

/-- `relay_client_request_broken`: reject server-originated message types and
messages that would overflow the relay buffer once the DUID grows, then run
the Client-ID rewrite loop; if no Client-ID was rewritten the packet is
dropped, otherwise the grown packet is forwarded unrelayed. -/
def relay_client_request_broken (source data : List Nat)
    (iface : relayd_interface) : Option (List Nat) :=
  let msg_type := byteAt data 0
  if msg_type == DHCPV6_MSG_RELAY_REPL || msg_type == DHCPV6_MSG_RECONFIGURE ||
      msg_type == DHCPV6_MSG_REPLY || msg_type == DHCPV6_MSG_ADVERTISE then
    none
  else if data.length + broken_duid_size > RELAYD_BUFFER_SIZE then none
  else
    match broken_rewrite_loop (dhcpv6_broken_duid iface.ifindex source)
        (data.length + 1) data data.length 4 false with
    | none => none
    | some (buf, done) => if done then some buf else none

/-- The option loop of the broken branch of `relay_server_response`
(`src/unnamed/part_002` lines 307-341): walk with the end frozen at the
received length; abort on Authentication; at each Client-ID longer than the
broken DUID and at most 130 bytes whose value starts with the DUID tag,
recover the interface index and client address, patch the low length byte
down by 28 and shift the remainder of the (shrunk) packet left over the
DUID; bytes between the new length and the frozen end keep their old
values.  State: current buffer, current length, recovered index, recovered
address, and whether a strip happened. -/
def broken_scan_loop :
    Nat → List Nat → Nat → Nat → Nat → Nat → List Nat → Bool →
      Option (List Nat × Nat × Nat × List Nat × Bool)
  | 0, buf, _, _, curLen, idx, target, found => some (buf, curLen, idx, target, found)
  | fuel + 1, buf, endI, pos, curLen, idx, target, found =>
    if pos + 4 ≤ endI then
      let t := readBE16 buf pos
      let l := readBE16 buf (pos + 2)
      if pos + 4 + l ≤ endI then
        if t == DHCPV6_OPT_AUTH then none
        else if t ≠ DHCPV6_OPT_CLIENTID ∨ l ≤ broken_duid_size ∨ l > 130 then
          broken_scan_loop fuel buf endI (pos + 4 + readBE16 buf (pos + 2))
            curLen idx target found
        else if sub buf (pos + 4) 2 = be16 DHCPV6_DUID_VENDOR ∧
            sub buf (pos + 6) 4 = be32 DHCPV6_ENT_NO ∧
            sub buf (pos + 10) 2 = be16 DHCPV6_ENT_TYPE then
          let idx' := readLE32 buf (pos + 12)
          let target' := sub buf (pos + 16) 16
          let buf1 := setBytes buf (pos + 3) [(l - broken_duid_size) % 256]
          let curLen' := curLen - broken_duid_size
          let buf2 := buf1.take (pos + 4) ++
            sub buf1 (pos + 4 + broken_duid_size) (curLen' - (pos + 4)) ++
            buf1.drop curLen'
          broken_scan_loop fuel buf2 endI (pos + 4 + readBE16 buf2 (pos + 2))
            curLen' idx' target' true
        else
          broken_scan_loop fuel buf endI (pos + 4 + readBE16 buf (pos + 2))
            curLen idx target found
      else some (buf, curLen, idx, target, found)
    else some (buf, curLen, idx, target, found)

/-- The return-path unrewrite (the part of `relay_server_response` the
broken mode adds, `src/unnamed/part_002` lines 307-341 plus the shared
payload check): scan the reply for a tagged Client-ID; on success return the
recovered interface index, the recovered client address and the stripped
payload; otherwise drop (`payload_data` stays `NULL` in the C code). -/
def relay_server_response_broken (data : List Nat) :
    Option (Nat × List Nat × List Nat) :=
  match broken_scan_loop (data.length + 1) data data.length 4 data.length 0
      (List.replicate 16 0) false with
  | none => none
  | some (buf, curLen, idx, target, found) =>
    if found && decide (4 ≤ curLen) then some (idx, target, buf.take curLen)
    else none

/-! ## List-shape helper lemmas -/

theorem take_at (A B : List Nat) (k : Nat) :
    (A ++ B).take (A.length + k) = A ++ B.take k := by
  rw [List.take_append_eq_append_take, List.take_of_length_le (by omega)]
  congr 2
  omega

theorem drop_at (A B : List Nat) (k : Nat) :
    (A ++ B).drop (A.length + k) = B.drop k := by
  rw [List.drop_append_eq_append_drop, List.drop_eq_nil_of_le (by omega)]
  simp

theorem setBytes_one (buf : List Nat) (p c : Nat) (hp : p < buf.length) :
    setBytes buf p [c] = buf.take p ++ c :: buf.drop (p + 1) := by
  unfold setBytes
  have : ([c] : List Nat).take (buf.length - p) = [c] := by
    rw [List.take_of_length_le]
    simp
    omega
  rw [this]
  simp

theorem be16_small (n : Nat) (h : n < 256) : be16 n = [0, n] := by
  unfold be16
  rw [Nat.div_eq_of_lt h, Nat.mod_eq_of_lt h]

theorem encodeOpts_append (a b : List (Nat × List Nat)) :
    encodeOpts (a ++ b) = encodeOpts a ++ encodeOpts b := by
  induction a with
  | nil => rfl
  | cons o rest ih => simp [encodeOpts, ih]

theorem encodeOpts_length (a : List (Nat × List Nat)) (o : Nat × List Nat)
    (h : o ∈ a) : 4 + o.2.length ≤ (encodeOpts a).length := by
  induction a with
  | nil => simp at h
  | cons x rest ih =>
    have hx : (encodeOpts (x :: rest)).length =
        (encodeOpt x).length + (encodeOpts rest).length := by
      simp [encodeOpts]
    have hx2 : (encodeOpt x).length = 4 + x.2.length := encodeOpt_length x
    rcases List.mem_cons.mp h with h | h
    · subst h; omega
    · have := ih h; omega

/-- Read the type field of an encoded option that sits at offset `B.length`. -/
theorem readBE16_encodeOpt_type (B R : List Nat) (o : Nat × List Nat)
    (h : o.1 < 65536) : readBE16 (B ++ (encodeOpt o ++ R)) B.length = o.1 := by
  rw [show B.length = B.length + 0 by omega, readBE16_append_right]
  unfold encodeOpt
  rw [List.append_assoc, List.append_assoc]
  exact be16_readBE16 o.1 h _

/-- Read the length field of an encoded option that sits at offset
`B.length`. -/
theorem readBE16_encodeOpt_len (B R : List Nat) (o : Nat × List Nat)
    (h : o.2.length < 65536) :
    readBE16 (B ++ (encodeOpt o ++ R)) (B.length + 2) = o.2.length := by
  rw [show B ++ (encodeOpt o ++ R) =
    (B ++ be16 o.1) ++ (be16 o.2.length ++ (o.2 ++ R)) by
      simp [encodeOpt]]
  rw [show B.length + 2 = (B ++ be16 o.1).length + 0 by simp [be16]]
  rw [readBE16_append_right]
  exact be16_readBE16 o.2.length h _

/-! ## Claim C10: server-originated message types are dropped on slaves -/

/-- **C10.** A datagram arriving on a slave whose top-level message type is
ADVERTISE, REPLY, RECONFIGURE or RELAY-REPL is dropped by both the standard
relay (`relay_client_request`) and the broken-mode relay
(`relay_client_request_broken`): nothing is emitted and, both functions
being modelled as pure, no state changes. -/
theorem slave_drops_server_message_types (cfg : relayd_config) (env : AddrEnv)
    (source data : List Nat) (iface : relayd_interface)
    (htype : byteAt data 0 = DHCPV6_MSG_ADVERTISE ∨
      byteAt data 0 = DHCPV6_MSG_REPLY ∨
      byteAt data 0 = DHCPV6_MSG_RECONFIGURE ∨
      byteAt data 0 = DHCPV6_MSG_RELAY_REPL) :
    relay_client_request cfg env source data iface = none ∧
    relay_client_request_broken source data iface = none := by
  have hcond : (byteAt data 0 == DHCPV6_MSG_RELAY_REPL ||
      byteAt data 0 == DHCPV6_MSG_RECONFIGURE ||
      byteAt data 0 == DHCPV6_MSG_REPLY ||
      byteAt data 0 == DHCPV6_MSG_ADVERTISE) = true := by
    rcases htype with h | h | h | h <;> simp [h]
  constructor
  · unfold relay_client_request
    rw [if_pos hcond]
  · unfold relay_client_request_broken
    rw [if_pos hcond]

/-- Witness for C10 at a concrete ADVERTISE message. -/
theorem slave_drops_server_message_types_witness :
    (byteAt [2, 0, 0, 0] 0 = DHCPV6_MSG_ADVERTISE ∨
      byteAt [2, 0, 0, 0] 0 = DHCPV6_MSG_REPLY ∨
      byteAt [2, 0, 0, 0] 0 = DHCPV6_MSG_RECONFIGURE ∨
      byteAt [2, 0, 0, 0] 0 = DHCPV6_MSG_RELAY_REPL) ∧
    (relay_client_request cfg0 env0 addrLL [2, 0, 0, 0] ifLan = none ∧
     relay_client_request_broken addrLL [2, 0, 0, 0] ifLan = none) :=
  ⟨Or.inl (by decide),
    slave_drops_server_message_types cfg0 env0 addrLL [2, 0, 0, 0] ifLan
      (Or.inl (by decide))⟩

/-! ## Lemmas about the broken-mode loops -/

theorem broken_rewrite_loop_fuel (du : List Nat) :
    ∀ f₁ f₂ buf endI pos done, endI - pos < f₁ → endI - pos < f₂ →
      broken_rewrite_loop du f₁ buf endI pos done =
        broken_rewrite_loop du f₂ buf endI pos done := by
  intro f₁
  induction f₁ with
  | zero => intro f₂ buf endI pos done h₁ _; omega
  | succ f ih =>
    intro f₂ buf endI pos done h₁ h₂
    match f₂, h₂ with
    | f₂ + 1, h₂ =>
      simp only [broken_rewrite_loop]
      by_cases hp : pos + 4 ≤ endI
      · rw [if_pos hp, if_pos hp]
        by_cases hl : pos + 4 + readBE16 buf (pos + 2) ≤ endI
        · rw [if_pos hl, if_pos hl]
          by_cases hauth : (readBE16 buf pos == DHCPV6_OPT_AUTH) = true
          · rw [if_pos hauth, if_pos hauth]
          · rw [if_neg hauth, if_neg hauth]
            by_cases hcid : (readBE16 buf pos == DHCPV6_OPT_CLIENTID) = true
            · rw [if_pos hcid, if_pos hcid]
              exact ih f₂ _ endI _ true (by omega) (by omega)
            · rw [if_neg hcid, if_neg hcid]
              exact ih f₂ _ endI _ done (by omega) (by omega)
        · rw [if_neg hl, if_neg hl]
      · rw [if_neg hp, if_neg hp]

theorem broken_scan_loop_fuel :
    ∀ f₁ f₂ buf endI pos curLen idx target found,
      endI - pos < f₁ → endI - pos < f₂ →
      broken_scan_loop f₁ buf endI pos curLen idx target found =
        broken_scan_loop f₂ buf endI pos curLen idx target found := by
  intro f₁
  induction f₁ with
  | zero => intro f₂ buf endI pos curLen idx target found h₁ _; omega
  | succ f ih =>
    intro f₂ buf endI pos curLen idx target found h₁ h₂
    match f₂, h₂ with
    | f₂ + 1, h₂ =>
      simp only [broken_scan_loop]
      by_cases hp : pos + 4 ≤ endI
      · rw [if_pos hp, if_pos hp]
        by_cases hl : pos + 4 + readBE16 buf (pos + 2) ≤ endI
        · rw [if_pos hl, if_pos hl]
          by_cases hauth : (readBE16 buf pos == DHCPV6_OPT_AUTH) = true
          · rw [if_pos hauth, if_pos hauth]
          · rw [if_neg hauth, if_neg hauth]
            by_cases hskip : readBE16 buf pos ≠ DHCPV6_OPT_CLIENTID ∨
              readBE16 buf (pos + 2) ≤ broken_duid_size ∨
              readBE16 buf (pos + 2) > 130
            · rw [if_pos hskip, if_pos hskip]
              exact ih f₂ _ endI _ curLen idx target found (by omega) (by omega)
            · rw [if_neg hskip, if_neg hskip]
              by_cases htag : sub buf (pos + 4) 2 = be16 DHCPV6_DUID_VENDOR ∧
                sub buf (pos + 6) 4 = be32 DHCPV6_ENT_NO ∧
                sub buf (pos + 10) 2 = be16 DHCPV6_ENT_TYPE
              · rw [if_pos htag, if_pos htag]
                exact ih f₂ _ endI _ _ _ _ true (by omega) (by omega)
              · rw [if_neg htag, if_neg htag]
                exact ih f₂ _ endI _ curLen idx target found (by omega) (by omega)
        · rw [if_neg hl, if_neg hl]
      · rw [if_neg hp, if_neg hp]

/-- A condition bundle on the options a loop may step over without acting:
not Authentication, not Client-ID, and well-formed 16-bit fields. -/
def skippable (T : List (Nat × List Nat)) : Prop :=
  ∀ o ∈ T, o.1 ≠ DHCPV6_OPT_AUTH ∧ o.1 ≠ DHCPV6_OPT_CLIENTID ∧
    o.1 < 65536 ∧ o.2.length < 65536

instance (T : List (Nat × List Nat)) : Decidable (skippable T) := by
  unfold skippable; infer_instance

/-- The forward rewrite loop steps over a run of skippable encoded options
that lie entirely before the frozen end. -/
theorem broken_rewrite_loop_skip (du : List Nat) :
    ∀ (pre : List (Nat × List Nat)) (B R : List Nat) (endI : Nat) (done : Bool)
      (fuel : Nat), skippable pre →
      B.length + (encodeOpts pre).length ≤ endI →
      endI - B.length < fuel →
      broken_rewrite_loop du fuel (B ++ (encodeOpts pre ++ R)) endI B.length done =
      broken_rewrite_loop du fuel ((B ++ encodeOpts pre) ++ R) endI
        (B.length + (encodeOpts pre).length) done := by
  intro pre
  induction pre with
  | nil =>
    intro B R endI done fuel _ _ _
    simp [encodeOpts]
  | cons o rest ih =>
    intro B R endI done fuel hpre hend hfuel
    obtain ⟨hna, hnc, hty, hln⟩ := hpre o (List.mem_cons_self o rest)
    have hrest : skippable rest := fun x hx => hpre x (List.mem_cons_of_mem o hx)
    have hEo : (encodeOpt o).length = 4 + o.2.length := encodeOpt_length o
    have hErest : (encodeOpts (o :: rest)).length =
        (encodeOpt o).length + (encodeOpts rest).length := by simp [encodeOpts]
    match fuel, hfuel with
    | f + 1, hfuel =>
      have hbufeq : B ++ (encodeOpts (o :: rest) ++ R) =
          B ++ (encodeOpt o ++ (encodeOpts rest ++ R)) := by simp [encodeOpts]
      rw [hbufeq]
      have ht := readBE16_encodeOpt_type B (encodeOpts rest ++ R) o hty
      have hl := readBE16_encodeOpt_len B (encodeOpts rest ++ R) o hln
      have h1 : broken_rewrite_loop du (f + 1)
          (B ++ (encodeOpt o ++ (encodeOpts rest ++ R))) endI B.length done =
          broken_rewrite_loop du f
            (B ++ (encodeOpt o ++ (encodeOpts rest ++ R))) endI
            (B.length + 4 + o.2.length) done := by
        simp only [broken_rewrite_loop]
        rw [ht, hl]
        rw [if_pos (show B.length + 4 ≤ endI by omega)]
        rw [if_pos (show B.length + 4 + o.2.length ≤ endI by omega)]
        rw [if_neg (show ¬((o.1 == DHCPV6_OPT_AUTH) = true) by simp [hna])]
        rw [if_neg (show ¬((o.1 == DHCPV6_OPT_CLIENTID) = true) by simp [hnc])]
      rw [h1,
        broken_rewrite_loop_fuel du f (f + 1) _ endI _ done (by omega) (by omega)]
      have hassoc : B ++ (encodeOpt o ++ (encodeOpts rest ++ R)) =
          (B ++ encodeOpt o) ++ (encodeOpts rest ++ R) := by simp
      have hpos : B.length + 4 + o.2.length = (B ++ encodeOpt o).length := by
        simp [hEo]; omega
      rw [hassoc, hpos]
      rw [ih (B ++ encodeOpt o) R endI done (f + 1) hrest
        (by simp only [List.length_append, hEo]; omega)
        (by simp only [List.length_append, hEo]; omega)]
      have e1 : ((B ++ encodeOpt o) ++ encodeOpts rest) ++ R =
          (B ++ encodeOpts (o :: rest)) ++ R := by simp [encodeOpts]
      have e2 : (B ++ encodeOpt o).length + (encodeOpts rest).length =
          B.length + (encodeOpts (o :: rest)).length := by
        simp only [List.length_append, hErest]; omega
      rw [e1, e2]

/-- The forward rewrite loop, started past all Client-IDs with only
skippable encoded options remaining (and the frozen end at or before their
end), terminates without touching the buffer. -/
theorem broken_rewrite_loop_noop (du : List Nat) :
    ∀ (post : List (Nat × List Nat)) (B : List Nat) (endI : Nat) (done : Bool)
      (fuel : Nat), skippable post →
      endI ≤ B.length + (encodeOpts post).length →
      endI - B.length < fuel →
      broken_rewrite_loop du fuel (B ++ encodeOpts post) endI B.length done =
        some (B ++ encodeOpts post, done) := by
  intro post
  induction post with
  | nil =>
    intro B endI done fuel _ hend hfuel
    match fuel, hfuel with
    | f + 1, _ =>
      simp only [broken_rewrite_loop]
      rw [if_neg (show ¬(B.length + 4 ≤ endI) by simp [encodeOpts] at hend; omega)]
  | cons o rest ih =>
    intro B endI done fuel hpost hend hfuel
    obtain ⟨hna, hnc, hty, hln⟩ := hpost o (List.mem_cons_self o rest)
    have hrest : skippable rest := fun x hx => hpost x (List.mem_cons_of_mem o hx)
    have hEo : (encodeOpt o).length = 4 + o.2.length := encodeOpt_length o
    have hErest : (encodeOpts (o :: rest)).length =
        (encodeOpt o).length + (encodeOpts rest).length := by simp [encodeOpts]
    match fuel, hfuel with
    | f + 1, hfuel =>
      have hbufeq : B ++ encodeOpts (o :: rest) =
          B ++ (encodeOpt o ++ encodeOpts rest) := by simp [encodeOpts]
      rw [hbufeq]
      have ht := readBE16_encodeOpt_type B (encodeOpts rest) o hty
      have hl := readBE16_encodeOpt_len B (encodeOpts rest) o hln
      by_cases hp : B.length + 4 ≤ endI
      · by_cases hl2 : B.length + 4 + o.2.length ≤ endI
        · have h1 : broken_rewrite_loop du (f + 1)
              (B ++ (encodeOpt o ++ encodeOpts rest)) endI B.length done =
              broken_rewrite_loop du f
                (B ++ (encodeOpt o ++ encodeOpts rest)) endI
                (B.length + 4 + o.2.length) done := by
            simp only [broken_rewrite_loop]
            rw [ht, hl]
            rw [if_pos hp, if_pos hl2]
            rw [if_neg (show ¬((o.1 == DHCPV6_OPT_AUTH) = true) by simp [hna])]
            rw [if_neg (show ¬((o.1 == DHCPV6_OPT_CLIENTID) = true) by simp [hnc])]
          rw [h1, broken_rewrite_loop_fuel du f (f + 1) _ endI _ done
            (by omega) (by omega)]
          have hassoc : B ++ (encodeOpt o ++ encodeOpts rest) =
              (B ++ encodeOpt o) ++ encodeOpts rest := by simp
          have hpos : B.length + 4 + o.2.length = (B ++ encodeOpt o).length := by
            simp [hEo]; omega
          rw [hassoc, hpos]
          rw [ih (B ++ encodeOpt o) endI done (f + 1) hrest
            (by simp only [List.length_append, hEo, hErest] at hend ⊢; omega)
            (by simp only [List.length_append, hEo]; omega)]
        · simp only [broken_rewrite_loop]
          rw [ht, hl]  -- the length read appears in the second guard
          rw [if_pos hp, if_neg hl2]
      · simp only [broken_rewrite_loop]
        rw [if_neg hp]

/-- The return-path scan loop steps over a run of skippable encoded options
that lie entirely before the frozen end, leaving its state unchanged. -/
theorem broken_scan_loop_skip :
    ∀ (pre : List (Nat × List Nat)) (B R : List Nat) (endI curLen idx : Nat)
      (target : List Nat) (found : Bool) (fuel : Nat), skippable pre →
      B.length + (encodeOpts pre).length ≤ endI →
      endI - B.length < fuel →
      broken_scan_loop fuel (B ++ (encodeOpts pre ++ R)) endI B.length
        curLen idx target found =
      broken_scan_loop fuel ((B ++ encodeOpts pre) ++ R) endI
        (B.length + (encodeOpts pre).length) curLen idx target found := by
  intro pre
  induction pre with
  | nil =>
    intro B R endI curLen idx target found fuel _ _ _
    simp [encodeOpts]
  | cons o rest ih =>
    intro B R endI curLen idx target found fuel hpre hend hfuel
    obtain ⟨hna, hnc, hty, hln⟩ := hpre o (List.mem_cons_self o rest)
    have hrest : skippable rest := fun x hx => hpre x (List.mem_cons_of_mem o hx)
    have hEo : (encodeOpt o).length = 4 + o.2.length := encodeOpt_length o
    have hErest : (encodeOpts (o :: rest)).length =
        (encodeOpt o).length + (encodeOpts rest).length := by simp [encodeOpts]
    match fuel, hfuel with
    | f + 1, hfuel =>
      have hbufeq : B ++ (encodeOpts (o :: rest) ++ R) =
          B ++ (encodeOpt o ++ (encodeOpts rest ++ R)) := by simp [encodeOpts]
      rw [hbufeq]
      have ht := readBE16_encodeOpt_type B (encodeOpts rest ++ R) o hty
      have hl := readBE16_encodeOpt_len B (encodeOpts rest ++ R) o hln
      have h1 : broken_scan_loop (f + 1)
          (B ++ (encodeOpt o ++ (encodeOpts rest ++ R))) endI B.length
          curLen idx target found =
          broken_scan_loop f
            (B ++ (encodeOpt o ++ (encodeOpts rest ++ R))) endI
            (B.length + 4 + o.2.length) curLen idx target found := by
        simp only [broken_scan_loop]
        rw [ht, hl]
        rw [if_pos (show B.length + 4 ≤ endI by omega)]
        rw [if_pos (show B.length + 4 + o.2.length ≤ endI by omega)]
        rw [if_neg (show ¬((o.1 == DHCPV6_OPT_AUTH) = true) by simp [hna])]
        rw [if_pos (Or.inl hnc)]
      rw [h1, broken_scan_loop_fuel f (f + 1) _ endI _ curLen idx target found
        (by omega) (by omega)]
      have hassoc : B ++ (encodeOpt o ++ (encodeOpts rest ++ R)) =
          (B ++ encodeOpt o) ++ (encodeOpts rest ++ R) := by simp
      have hpos : B.length + 4 + o.2.length = (B ++ encodeOpt o).length := by
        simp [hEo]; omega
      rw [hassoc, hpos]
      rw [ih (B ++ encodeOpt o) R endI curLen idx target found (f + 1) hrest
        (by simp only [List.length_append, hEo]; omega)
        (by simp only [List.length_append, hEo]; omega)]
      have e1 : ((B ++ encodeOpt o) ++ encodeOpts rest) ++ R =
          (B ++ encodeOpts (o :: rest)) ++ R := by simp [encodeOpts]
      have e2 : (B ++ encodeOpt o).length + (encodeOpts rest).length =
          B.length + (encodeOpts (o :: rest)).length := by
        simp only [List.length_append, hErest]; omega
      rw [e1, e2]

/-- Once the scan cursor is within 32 bytes of the frozen end, no further
strip can happen (a strippable Client-ID needs more than 28 value bytes):
the loop either aborts on a junk Authentication type or returns its state
unchanged. -/
theorem broken_scan_loop_tail :
    ∀ (fuel : Nat) (buf : List Nat) (endI pos curLen idx : Nat)
      (target : List Nat) (found : Bool), endI ≤ pos + 32 →
      broken_scan_loop fuel buf endI pos curLen idx target found = none ∨
      broken_scan_loop fuel buf endI pos curLen idx target found =
        some (buf, curLen, idx, target, found) := by
  intro fuel
  induction fuel with
  | zero => intro buf endI pos curLen idx target found _; right; rfl
  | succ f ih =>
    intro buf endI pos curLen idx target found hnear
    simp only [broken_scan_loop]
    by_cases hp : pos + 4 ≤ endI
    · rw [if_pos hp]
      by_cases hl : pos + 4 + readBE16 buf (pos + 2) ≤ endI
      · rw [if_pos hl]
        by_cases hauth : (readBE16 buf pos == DHCPV6_OPT_AUTH) = true
        · rw [if_pos hauth]; left; rfl
        · rw [if_neg hauth]
          rw [if_pos (Or.inr (Or.inl (show readBE16 buf (pos + 2) ≤
            broken_duid_size by unfold broken_duid_size; omega)))]
          exact ih buf endI _ curLen idx target found (by omega)
      · rw [if_neg hl]; right; rfl
    · rw [if_neg hp]; right; rfl

theorem fix16_length (a : List Nat) : (fix16 a).length = 16 := by
  simp [fix16]
  omega

theorem broken_duid_length (i : Nat) (a : List Nat) :
    (dhcpv6_broken_duid i a).length = broken_duid_size := by
  simp [dhcpv6_broken_duid, be16, be32, le32, broken_duid_size, fix16]
  omega

theorem le32_readLE32 (n : Nat) (h : n < 4294967296) (rest : List Nat) :
    readLE32 (le32 n ++ rest) 0 = n := by
  simp only [le32, readLE32, byteAt, List.cons_append]
  simp only [List.getD_cons_zero, List.getD_cons_succ]
  omega

theorem fix16_of_length (a : List Nat) (h : a.length = 16) : fix16 a = a := by
  unfold fix16
  rw [List.take_of_length_le (by omega), h]
  simp

/-- One step of the forward rewrite loop at an encoded Client-ID option:
the broken DUID is spliced in after the 4-byte option header, the length
byte is patched, and the cursor moves past the grown option. -/
theorem broken_rewrite_loop_cid_step (du B₁ v : List Nat)
    (post : List (Nat × List Nat)) (endI f : Nat) (done : Bool)
    (buf : List Nat)
    (hbuf : buf = B₁ ++ (encodeOpt (DHCPV6_OPT_CLIENTID, v) ++ encodeOpts post))
    (hdulen : du.length = 28) (hv : v.length ≤ 102)
    (hguard : B₁.length + 4 + v.length ≤ endI) :
    broken_rewrite_loop du (f + 1) buf endI B₁.length done =
    broken_rewrite_loop du f
      (B₁ ++ encodeOpt (DHCPV6_OPT_CLIENTID, du ++ v) ++ encodeOpts post) endI
      (B₁.length + 4 + (v.length + 28)) true := by
  subst hbuf
  have hbe16v : be16 v.length = [0, v.length] := be16_small _ (by omega)
  have hbe16c : be16 DHCPV6_OPT_CLIENTID = [0, DHCPV6_OPT_CLIENTID] :=
    be16_small _ (by decide)
  have hduv : (du ++ v).length = v.length + 28 := by simp [hdulen]; omega
  have ht : readBE16 (B₁ ++ (encodeOpt (DHCPV6_OPT_CLIENTID, v) ++
      encodeOpts post)) B₁.length = DHCPV6_OPT_CLIENTID :=
    readBE16_encodeOpt_type _ _ _ (by show DHCPV6_OPT_CLIENTID < 65536; decide)
  have hl : readBE16 (B₁ ++ (encodeOpt (DHCPV6_OPT_CLIENTID, v) ++
      encodeOpts post)) (B₁.length + 2) = v.length :=
    readBE16_encodeOpt_len _ _ _ (by show v.length < 65536; omega)
  simp only [broken_rewrite_loop]
  rw [ht, hl]
  rw [if_pos (show B₁.length + 4 ≤ endI by omega)]
  rw [if_pos (show B₁.length + 4 + v.length ≤ endI by omega)]
  rw [if_neg (show ¬((DHCPV6_OPT_CLIENTID == DHCPV6_OPT_AUTH) = true) by decide)]
  rw [if_pos (show (DHCPV6_OPT_CLIENTID == DHCPV6_OPT_CLIENTID) = true by decide)]
  -- take and drop around the insertion point
  have hsplit : B₁ ++ (encodeOpt (DHCPV6_OPT_CLIENTID, v) ++ encodeOpts post) =
      (B₁ ++ be16 DHCPV6_OPT_CLIENTID ++ be16 v.length) ++
      (v ++ encodeOpts post) := by
    simp [encodeOpt]
  have hlen3 : (B₁ ++ be16 DHCPV6_OPT_CLIENTID ++ be16 v.length).length =
      B₁.length + 4 := by simp [be16]
  have htake : (B₁ ++ (encodeOpt (DHCPV6_OPT_CLIENTID, v) ++
      encodeOpts post)).take (B₁.length + 4) =
      B₁ ++ be16 DHCPV6_OPT_CLIENTID ++ be16 v.length := by
    rw [hsplit, ← hlen3]
    exact List.take_left _ _
  have hdrop : (B₁ ++ (encodeOpt (DHCPV6_OPT_CLIENTID, v) ++
      encodeOpts post)).drop (B₁.length + 4) = v ++ encodeOpts post := by
    rw [hsplit, ← hlen3]
    exact List.drop_left _ _
  rw [htake, hdrop]
  -- the patched buffer equals the re-encoded packet
  have hmod : (v.length + broken_duid_size) % 256 = v.length + 28 := by
    unfold broken_duid_size
    omega
  have hbuf1len : (B₁ ++ be16 DHCPV6_OPT_CLIENTID ++ be16 v.length ++ du ++
      (v ++ encodeOpts post)).length = B₁.length + 4 + 28 + v.length +
      (encodeOpts post).length := by
    simp [be16, hdulen]
    omega
  have htake1 : (B₁ ++ be16 DHCPV6_OPT_CLIENTID ++ be16 v.length ++ du ++
      (v ++ encodeOpts post)).take (B₁.length + 3) =
      B₁ ++ [0, DHCPV6_OPT_CLIENTID, 0] := by
    rw [hbe16c, hbe16v]
    rw [show B₁ ++ [0, DHCPV6_OPT_CLIENTID] ++ [0, v.length] ++ du ++
      (v ++ encodeOpts post) = (B₁ ++ [0, DHCPV6_OPT_CLIENTID, 0]) ++
      (v.length :: (du ++ (v ++ encodeOpts post))) by simp]
    rw [show B₁.length + 3 = (B₁ ++ [0, DHCPV6_OPT_CLIENTID, 0]).length by simp]
    exact List.take_left _ _
  have hdrop1 : (B₁ ++ be16 DHCPV6_OPT_CLIENTID ++ be16 v.length ++ du ++
      (v ++ encodeOpts post)).drop (B₁.length + 4) =
      du ++ (v ++ encodeOpts post) := by
    rw [hbe16c, hbe16v]
    rw [show B₁ ++ [0, DHCPV6_OPT_CLIENTID] ++ [0, v.length] ++ du ++
      (v ++ encodeOpts post) = (B₁ ++ [0, DHCPV6_OPT_CLIENTID, 0, v.length]) ++
      (du ++ (v ++ encodeOpts post)) by simp]
    rw [show B₁.length + 4 = (B₁ ++ [0, DHCPV6_OPT_CLIENTID, 0, v.length]).length
      by simp]
    exact List.drop_left _ _
  have hset : setBytes (B₁ ++ be16 DHCPV6_OPT_CLIENTID ++ be16 v.length ++ du ++
      (v ++ encodeOpts post)) (B₁.length + 3)
      [(v.length + broken_duid_size) % 256] =
      B₁ ++ encodeOpt (DHCPV6_OPT_CLIENTID, du ++ v) ++ encodeOpts post := by
    rw [setBytes_one _ _ _ (by rw [hbuf1len]; omega), htake1, hdrop1, hmod]
    rw [show encodeOpt (DHCPV6_OPT_CLIENTID, du ++ v) = [0, DHCPV6_OPT_CLIENTID] ++
      be16 (du ++ v).length ++ (du ++ v) by rw [encodeOpt, hbe16c]]
    rw [hduv]
    rw [be16_small (v.length + 28) (by omega)]
    simp
  rw [hset]
  -- the re-read advance
  have hl2 : readBE16 (B₁ ++ encodeOpt (DHCPV6_OPT_CLIENTID, du ++ v) ++
      encodeOpts post) (B₁.length + 2) = v.length + 28 := by
    rw [show B₁ ++ encodeOpt (DHCPV6_OPT_CLIENTID, du ++ v) ++ encodeOpts post =
      B₁ ++ (encodeOpt (DHCPV6_OPT_CLIENTID, du ++ v) ++ encodeOpts post) by simp]
    rw [readBE16_encodeOpt_len _ _ _ (by rw [hduv]; omega)]
    exact hduv
  rw [hl2]

set_option maxHeartbeats 1000000 in
/-- Forward direction of the broken-mode round trip: on a well-shaped client
message with exactly one Client-ID (of at most 102 value bytes) and no
Authentication option, `relay_client_request_broken` emits the same message
with the broken DUID spliced into the Client-ID value and the Client-ID
length field grown by 28. -/
theorem relay_client_request_broken_encode
    (iface : relayd_interface) (src : List Nat)
    (m t1 t2 t3 : Nat) (pre post : List (Nat × List Nat)) (v : List Nat)
    (hm : m ≠ DHCPV6_MSG_ADVERTISE ∧ m ≠ DHCPV6_MSG_REPLY ∧
      m ≠ DHCPV6_MSG_RECONFIGURE ∧ m ≠ DHCPV6_MSG_RELAY_REPL)
    (hv : v.length ≤ 102)
    (hpre : skippable pre) (hpost : skippable post)
    (hlen : ([m, t1, t2, t3] ++
        encodeOpts (pre ++ (DHCPV6_OPT_CLIENTID, v) :: post)).length +
      broken_duid_size ≤ RELAYD_BUFFER_SIZE) :
    relay_client_request_broken src
      ([m, t1, t2, t3] ++ encodeOpts (pre ++ (DHCPV6_OPT_CLIENTID, v) :: post))
      iface =
    some ([m, t1, t2, t3] ++ encodeOpts (pre ++
      (DHCPV6_OPT_CLIENTID, dhcpv6_broken_duid iface.ifindex src ++ v) :: post)) := by
  obtain ⟨hm2, hm7, hm10, hm13⟩ := hm
  have hdulen : (dhcpv6_broken_duid iface.ifindex src).length = 28 :=
    broken_duid_length iface.ifindex src
  -- abstract the packet and its pieces behind opaque variables
  obtain ⟨du, hdu⟩ : ∃ du, dhcpv6_broken_duid iface.ifindex src = du := ⟨_, rfl⟩
  rw [hdu] at hdulen
  obtain ⟨hd, hhd⟩ : ∃ hd : List Nat, [m, t1, t2, t3] = hd := ⟨_, rfl⟩
  have hhd4 : hd.length = 4 := by rw [← hhd]; rfl
  have hbyte0hd : byteAt hd 0 = m := by rw [← hhd]; rfl
  rw [hdu, hhd]
  obtain ⟨x, hx⟩ : ∃ x : List Nat,
      hd ++ encodeOpts (pre ++ (DHCPV6_OPT_CLIENTID, v) :: post) = x := ⟨_, rfl⟩
  rw [hx]
  rw [hhd, hx] at hlen
  obtain ⟨B₁, hB₁⟩ : ∃ B₁ : List Nat, hd ++ encodeOpts pre = B₁ := ⟨_, rfl⟩
  have hB₁len : B₁.length = 4 + (encodeOpts pre).length := by
    rw [← hB₁]; simp [hhd4]
  have hxshape : x = hd ++ (encodeOpts pre ++
      (encodeOpt (DHCPV6_OPT_CLIENTID, v) ++ encodeOpts post)) := by
    rw [← hx, encodeOpts_append]
    simp [encodeOpts]
  have hxshape₂ : x = B₁ ++ (encodeOpt (DHCPV6_OPT_CLIENTID, v) ++
      encodeOpts post) := by
    rw [hxshape, ← hB₁]
    simp
  have hxlen : x.length = B₁.length + 4 + v.length + (encodeOpts post).length := by
    rw [hxshape₂]
    simp [encodeOpt_length]
    omega
  have hbyte0 : byteAt x 0 = m := by
    rw [← hx, ← hhd]
    rfl
  unfold relay_client_request_broken
  rw [hdu, hbyte0]
  rw [if_neg (by simp [hm2, hm7, hm10, hm13])]
  rw [if_neg (by omega)]
  -- skip the options before the Client-ID
  have hskip := broken_rewrite_loop_skip du pre hd
    (encodeOpt (DHCPV6_OPT_CLIENTID, v) ++ encodeOpts post) x.length false
    (x.length + 1) hpre (by omega) (by omega)
  rw [hxshape] at hskip
  rw [← hxshape] at hskip
  rw [hhd4] at hskip
  rw [hskip]
  rw [hB₁]
  rw [show 4 + (encodeOpts pre).length = B₁.length by omega]
  rw [← hxshape₂]
  -- the Client-ID step
  rw [broken_rewrite_loop_cid_step du B₁ v post x.length x.length false x
    hxshape₂ hdulen hv (by omega)]
  -- the remaining walk is a no-op
  obtain ⟨B₂, hB₂⟩ : ∃ B₂ : List Nat,
      B₁ ++ encodeOpt (DHCPV6_OPT_CLIENTID, du ++ v) = B₂ := ⟨_, rfl⟩
  have hduv : (du ++ v).length = v.length + 28 := by simp [hdulen]; omega
  have hB₂len : B₂.length = B₁.length + 4 + v.length + 28 := by
    rw [← hB₂]
    simp [encodeOpt_length, hduv]
    omega
  have hassoc : B₁ ++ encodeOpt (DHCPV6_OPT_CLIENTID, du ++ v) ++
      encodeOpts post = B₂ ++ encodeOpts post := by rw [← hB₂]
  rw [hassoc, show B₁.length + 4 + (v.length + 28) = B₂.length by omega]
  have hnoop := broken_rewrite_loop_noop du post B₂ x.length true x.length
    hpost (by omega) (by omega)
  rw [hnoop]
  -- conclude
  show some (B₂ ++ encodeOpts post) = _
  have hfin : B₂ ++ encodeOpts post =
      hd ++ encodeOpts (pre ++ (DHCPV6_OPT_CLIENTID, du ++ v) :: post) := by
    rw [← hB₂, ← hB₁, encodeOpts_append]
    simp [encodeOpts]
  rw [hfin]

theorem sub_exact (P Q R : List Nat) (k n : Nat) (hk : P.length = k)
    (hn : Q.length = n) : sub (P ++ (Q ++ R)) k n = Q := by
  subst hk
  subst hn
  rw [show P.length = P.length + 0 by omega, sub_append_right]
  unfold sub
  simp

theorem sub_exact2 (P Q : List Nat) (k n : Nat) (hk : P.length = k)
    (hn : Q.length = n) : sub (P ++ Q) k n = Q := by
  subst hk
  subst hn
  unfold sub
  rw [List.drop_left]
  exact List.take_length Q

theorem readLE32_append_right (A B : List Nat) (k : Nat) :
    readLE32 (A ++ B) (A.length + k) = readLE32 B k := by
  unfold readLE32
  rw [show A.length + k + 1 = A.length + (k + 1) by omega,
    show A.length + k + 2 = A.length + (k + 2) by omega,
    show A.length + k + 3 = A.length + (k + 3) by omega,
    byteAt_append_right, byteAt_append_right, byteAt_append_right,
    byteAt_append_right]

/-- One step of the return-path scan loop at an encoded Client-ID carrying
the broken DUID tag: the interface index and client address are recovered,
the DUID is stripped (the 28 bytes past the shrunk length keep stale
values), and the cursor moves past the shrunk option. -/
theorem broken_scan_loop_cid_step (i : Nat) (src B₁ v : List Nat)
    (post : List (Nat × List Nat)) (endI f curLen idx0 : Nat)
    (target0 : List Nat) (found0 : Bool) (buf : List Nat)
    (hbuf : buf = B₁ ++ (encodeOpt (DHCPV6_OPT_CLIENTID,
      dhcpv6_broken_duid i src ++ v) ++ encodeOpts post))
    (hi : i < 4294967296) (hv : v.length ≤ 102) (hv0 : 1 ≤ v.length)
    (hguard : B₁.length + 4 + (v.length + 28) ≤ endI)
    (hcur : curLen = B₁.length + 4 + (v.length + 28) + (encodeOpts post).length) :
    ∃ junk : List Nat,
      broken_scan_loop (f + 1) buf endI B₁.length curLen idx0 target0 found0 =
      broken_scan_loop f
        ((B₁ ++ encodeOpt (DHCPV6_OPT_CLIENTID, v) ++ encodeOpts post) ++ junk)
        endI (B₁.length + 4 + v.length) (curLen - 28) i (fix16 src) true := by
  subst hbuf
  subst hcur
  obtain ⟨du, hdu⟩ : ∃ du, dhcpv6_broken_duid i src = du := ⟨_, rfl⟩
  have hdulen : du.length = 28 := by rw [← hdu]; exact broken_duid_length i src
  have hdushape : du = be16 DHCPV6_DUID_VENDOR ++ be32 DHCPV6_ENT_NO ++
      be16 DHCPV6_ENT_TYPE ++ le32 i ++ fix16 src := by
    rw [← hdu]; rfl
  rw [hdu]
  have hduv : (du ++ v).length = v.length + 28 := by simp [hdulen]; omega
  have hbe16l : be16 (v.length + 28) = [0, v.length + 28] :=
    be16_small _ (by omega)
  have hbe16c : be16 DHCPV6_OPT_CLIENTID = [0, DHCPV6_OPT_CLIENTID] :=
    be16_small _ (by decide)
  have ht : readBE16 (B₁ ++ (encodeOpt (DHCPV6_OPT_CLIENTID, du ++ v) ++
      encodeOpts post)) B₁.length = DHCPV6_OPT_CLIENTID :=
    readBE16_encodeOpt_type _ _ _ (by show DHCPV6_OPT_CLIENTID < 65536; decide)
  have hl : readBE16 (B₁ ++ (encodeOpt (DHCPV6_OPT_CLIENTID, du ++ v) ++
      encodeOpts post)) (B₁.length + 2) = v.length + 28 := by
    rw [readBE16_encodeOpt_len _ _ _ (by rw [hduv]; omega)]
    exact hduv
  -- the value region reads, via a right-nested view of the buffer
  have hflat : B₁ ++ (encodeOpt (DHCPV6_OPT_CLIENTID, du ++ v) ++
      encodeOpts post) =
      (B₁ ++ [0, DHCPV6_OPT_CLIENTID, 0, v.length + 28]) ++
      (be16 DHCPV6_DUID_VENDOR ++ (be32 DHCPV6_ENT_NO ++
        (be16 DHCPV6_ENT_TYPE ++ (le32 i ++ (fix16 src ++
          (v ++ encodeOpts post)))))) := by
    rw [show encodeOpt (DHCPV6_OPT_CLIENTID, du ++ v) =
      [0, DHCPV6_OPT_CLIENTID] ++ [0, v.length + 28] ++ (du ++ v) by
        rw [encodeOpt, hbe16c, hduv, hbe16l]]
    rw [hdushape]
    simp
  have hr1 : sub (B₁ ++ (encodeOpt (DHCPV6_OPT_CLIENTID, du ++ v) ++
      encodeOpts post)) (B₁.length + 4) 2 = be16 DHCPV6_DUID_VENDOR := by
    rw [hflat]
    exact sub_exact _ _ _ _ _ (by simp) (by simp [be16])
  have hr2 : sub (B₁ ++ (encodeOpt (DHCPV6_OPT_CLIENTID, du ++ v) ++
      encodeOpts post)) (B₁.length + 6) 4 = be32 DHCPV6_ENT_NO := by
    rw [hflat]
    rw [show (B₁ ++ [0, DHCPV6_OPT_CLIENTID, 0, v.length + 28]) ++
      (be16 DHCPV6_DUID_VENDOR ++ (be32 DHCPV6_ENT_NO ++
        (be16 DHCPV6_ENT_TYPE ++ (le32 i ++ (fix16 src ++
          (v ++ encodeOpts post)))))) =
      ((B₁ ++ [0, DHCPV6_OPT_CLIENTID, 0, v.length + 28]) ++
        be16 DHCPV6_DUID_VENDOR) ++ (be32 DHCPV6_ENT_NO ++
        (be16 DHCPV6_ENT_TYPE ++ (le32 i ++ (fix16 src ++
          (v ++ encodeOpts post))))) by simp]
    exact sub_exact _ _ _ _ _ (by simp [be16]) (by simp [be32])
  have hr3 : sub (B₁ ++ (encodeOpt (DHCPV6_OPT_CLIENTID, du ++ v) ++
      encodeOpts post)) (B₁.length + 10) 2 = be16 DHCPV6_ENT_TYPE := by
    rw [hflat]
    rw [show (B₁ ++ [0, DHCPV6_OPT_CLIENTID, 0, v.length + 28]) ++
      (be16 DHCPV6_DUID_VENDOR ++ (be32 DHCPV6_ENT_NO ++
        (be16 DHCPV6_ENT_TYPE ++ (le32 i ++ (fix16 src ++
          (v ++ encodeOpts post)))))) =
      ((B₁ ++ [0, DHCPV6_OPT_CLIENTID, 0, v.length + 28]) ++
        be16 DHCPV6_DUID_VENDOR ++ be32 DHCPV6_ENT_NO) ++
      (be16 DHCPV6_ENT_TYPE ++ (le32 i ++ (fix16 src ++
        (v ++ encodeOpts post)))) by simp]
    exact sub_exact _ _ _ _ _ (by simp [be16, be32]) (by simp [be16])
  have hidx : readLE32 (B₁ ++ (encodeOpt (DHCPV6_OPT_CLIENTID, du ++ v) ++
      encodeOpts post)) (B₁.length + 12) = i := by
    rw [hflat]
    rw [show (B₁ ++ [0, DHCPV6_OPT_CLIENTID, 0, v.length + 28]) ++
      (be16 DHCPV6_DUID_VENDOR ++ (be32 DHCPV6_ENT_NO ++
        (be16 DHCPV6_ENT_TYPE ++ (le32 i ++ (fix16 src ++
          (v ++ encodeOpts post)))))) =
      ((B₁ ++ [0, DHCPV6_OPT_CLIENTID, 0, v.length + 28]) ++
        be16 DHCPV6_DUID_VENDOR ++ be32 DHCPV6_ENT_NO ++ be16 DHCPV6_ENT_TYPE) ++
      (le32 i ++ (fix16 src ++ (v ++ encodeOpts post))) by simp]
    rw [show B₁.length + 12 =
      ((B₁ ++ [0, DHCPV6_OPT_CLIENTID, 0, v.length + 28]) ++
        be16 DHCPV6_DUID_VENDOR ++ be32 DHCPV6_ENT_NO ++
        be16 DHCPV6_ENT_TYPE).length + 0 by simp [be16, be32]]
    rw [readLE32_append_right]
    exact le32_readLE32 i hi _
  have htarget : sub (B₁ ++ (encodeOpt (DHCPV6_OPT_CLIENTID, du ++ v) ++
      encodeOpts post)) (B₁.length + 16) 16 = fix16 src := by
    rw [hflat]
    rw [show (B₁ ++ [0, DHCPV6_OPT_CLIENTID, 0, v.length + 28]) ++
      (be16 DHCPV6_DUID_VENDOR ++ (be32 DHCPV6_ENT_NO ++
        (be16 DHCPV6_ENT_TYPE ++ (le32 i ++ (fix16 src ++
          (v ++ encodeOpts post)))))) =
      ((B₁ ++ [0, DHCPV6_OPT_CLIENTID, 0, v.length + 28]) ++
        be16 DHCPV6_DUID_VENDOR ++ be32 DHCPV6_ENT_NO ++ be16 DHCPV6_ENT_TYPE ++
        le32 i) ++ (fix16 src ++ (v ++ encodeOpts post)) by simp]
    exact sub_exact _ _ _ _ _ (by simp [be16, be32, le32]) (fix16_length src)
  -- unfold one step and take the strip branch
  refine ⟨(setBytes (B₁ ++ (encodeOpt (DHCPV6_OPT_CLIENTID, du ++ v) ++
    encodeOpts post)) (B₁.length + 3) [(v.length + 28 - broken_duid_size) % 256]).drop
      (B₁.length + 4 + (v.length + 28) + (encodeOpts post).length - broken_duid_size), ?_⟩
  simp only [broken_scan_loop]
  rw [ht, hl]
  rw [if_pos (show B₁.length + 4 ≤ endI by omega)]
  rw [if_pos (show B₁.length + 4 + (v.length + 28) ≤ endI by omega)]
  rw [if_neg (show ¬((DHCPV6_OPT_CLIENTID == DHCPV6_OPT_AUTH) = true) by decide)]
  rw [if_neg (show ¬(DHCPV6_OPT_CLIENTID ≠ DHCPV6_OPT_CLIENTID ∨
    v.length + 28 ≤ broken_duid_size ∨ v.length + 28 > 130) by
      unfold broken_duid_size; omega)]
  rw [if_pos ⟨hr1, hr2, hr3⟩]
  rw [hidx, htarget]
  -- the patched and shrunk buffer
  have hmod : (v.length + 28 - broken_duid_size) % 256 = v.length := by
    unfold broken_duid_size
    omega
  have hlenbuf : (B₁ ++ (encodeOpt (DHCPV6_OPT_CLIENTID, du ++ v) ++
      encodeOpts post)).length =
      B₁.length + 4 + (v.length + 28) + (encodeOpts post).length := by
    simp [encodeOpt_length, hduv]
    omega
  have hset : setBytes (B₁ ++ (encodeOpt (DHCPV6_OPT_CLIENTID, du ++ v) ++
      encodeOpts post)) (B₁.length + 3) [(v.length + 28 - broken_duid_size) % 256] =
      (B₁ ++ [0, DHCPV6_OPT_CLIENTID, 0, v.length] ++ du) ++
      (v ++ encodeOpts post) := by
    rw [setBytes_one _ _ _ (by rw [hlenbuf]; omega), hmod]
    rw [hflat]
    rw [show (B₁ ++ [0, DHCPV6_OPT_CLIENTID, 0, v.length + 28]) ++
      (be16 DHCPV6_DUID_VENDOR ++ (be32 DHCPV6_ENT_NO ++
        (be16 DHCPV6_ENT_TYPE ++ (le32 i ++ (fix16 src ++
          (v ++ encodeOpts post)))))) =
      (B₁ ++ [0, DHCPV6_OPT_CLIENTID, 0]) ++ ((v.length + 28) ::
        (du ++ (v ++ encodeOpts post))) by rw [hdushape]; simp]
    rw [show B₁.length + 3 = (B₁ ++ [0, DHCPV6_OPT_CLIENTID, 0]).length by simp]
    rw [List.take_left]
    rw [drop_at (B₁ ++ [0, DHCPV6_OPT_CLIENTID, 0])
      ((v.length + 28) :: (du ++ (v ++ encodeOpts post))) 1]
    simp
  rw [hset]
  -- the memmove: take, middle window, stale tail
  have hpre32 : (B₁ ++ [0, DHCPV6_OPT_CLIENTID, 0, v.length] ++ du).length =
      B₁.length + 4 + 28 := by simp [hdulen]
  have htk : ((B₁ ++ [0, DHCPV6_OPT_CLIENTID, 0, v.length] ++ du) ++
      (v ++ encodeOpts post)).take (B₁.length + 4) =
      B₁ ++ [0, DHCPV6_OPT_CLIENTID, 0, v.length] := by
    rw [show (B₁ ++ [0, DHCPV6_OPT_CLIENTID, 0, v.length] ++ du) ++
      (v ++ encodeOpts post) = (B₁ ++ [0, DHCPV6_OPT_CLIENTID, 0, v.length]) ++
      (du ++ (v ++ encodeOpts post)) by simp]
    rw [show B₁.length + 4 =
      (B₁ ++ [0, DHCPV6_OPT_CLIENTID, 0, v.length]).length by simp]
    exact List.take_left _ _
  have hwin : sub ((B₁ ++ [0, DHCPV6_OPT_CLIENTID, 0, v.length] ++ du) ++
      (v ++ encodeOpts post)) (B₁.length + 4 + broken_duid_size)
      (B₁.length + 4 + (v.length + 28) + (encodeOpts post).length -
        broken_duid_size - (B₁.length + 4)) = v ++ encodeOpts post := by
    exact sub_exact2 _ _ _ _
      (by rw [hpre32]; rfl)
      (by simp only [List.length_append]; unfold broken_duid_size; omega)
  rw [htk, hwin]
  -- abstract the stale tail and realign
  obtain ⟨junk, hjunk⟩ : ∃ j, List.drop
      (B₁.length + 4 + (v.length + 28) + (encodeOpts post).length -
        broken_duid_size)
      (B₁ ++ [0, DHCPV6_OPT_CLIENTID, 0, v.length] ++ du ++
        (v ++ encodeOpts post)) = j := ⟨_, rfl⟩
  rw [hjunk]
  have hb : B₁ ++ [0, DHCPV6_OPT_CLIENTID, 0, v.length] ++
      (v ++ encodeOpts post) ++ junk =
      B₁ ++ (encodeOpt (DHCPV6_OPT_CLIENTID, v) ++ (encodeOpts post ++ junk)) := by
    rw [show encodeOpt (DHCPV6_OPT_CLIENTID, v) =
      [0, DHCPV6_OPT_CLIENTID] ++ [0, v.length] ++ v by
        rw [encodeOpt, hbe16c, be16_small v.length (by omega)]]
    simp
  rw [hb]
  have hadv : readBE16 (B₁ ++ (encodeOpt (DHCPV6_OPT_CLIENTID, v) ++
      (encodeOpts post ++ junk))) (B₁.length + 2) = v.length :=
    readBE16_encodeOpt_len _ _ _ (by show v.length < 65536; omega)
  rw [hadv]
  rw [show B₁ ++ (encodeOpt (DHCPV6_OPT_CLIENTID, v) ++ (encodeOpts post ++
    junk)) = B₁ ++ encodeOpt (DHCPV6_OPT_CLIENTID, v) ++ encodeOpts post ++ junk
    by simp]
  rw [show B₁.length + 4 + (v.length + 28) + (encodeOpts post).length -
    broken_duid_size = B₁.length + 4 + (v.length + 28) +
    (encodeOpts post).length - 28 from rfl]

set_option maxHeartbeats 1000000 in
/-- Return direction of the broken-mode round trip: whatever the scan of the
rewritten packet delivers, it is exactly the original interface index, the
original client source address, and the original packet bytes. -/
theorem relay_server_response_broken_decode
    (i : Nat) (src : List Nat) (m t1 t2 t3 : Nat)
    (pre post : List (Nat × List Nat)) (v : List Nat)
    (hi : i < 4294967296) (hsrc : src.length = 16)
    (hv : v.length ≤ 102) (hv0 : 1 ≤ v.length)
    (hpre : skippable pre) (hpost : skippable post) :
    ∀ r, relay_server_response_broken
        ([m, t1, t2, t3] ++ encodeOpts (pre ++
          (DHCPV6_OPT_CLIENTID, dhcpv6_broken_duid i src ++ v) :: post)) =
        some r →
      r = (i, src,
        [m, t1, t2, t3] ++ encodeOpts (pre ++ (DHCPV6_OPT_CLIENTID, v) :: post)) := by
  intro r hr
  have hdulen : (dhcpv6_broken_duid i src).length = 28 :=
    broken_duid_length i src
  obtain ⟨du, hdu⟩ : ∃ du, dhcpv6_broken_duid i src = du := ⟨_, rfl⟩
  rw [hdu] at hdulen hr
  obtain ⟨hd, hhd⟩ : ∃ hd : List Nat, [m, t1, t2, t3] = hd := ⟨_, rfl⟩
  have hhd4 : hd.length = 4 := by rw [← hhd]; rfl
  rw [hhd] at hr ⊢
  obtain ⟨y, hy⟩ : ∃ y : List Nat,
      hd ++ encodeOpts (pre ++ (DHCPV6_OPT_CLIENTID, du ++ v) :: post) = y :=
    ⟨_, rfl⟩
  rw [hy] at hr
  obtain ⟨B₁, hB₁⟩ : ∃ B₁ : List Nat, hd ++ encodeOpts pre = B₁ := ⟨_, rfl⟩
  have hB₁len : B₁.length = 4 + (encodeOpts pre).length := by
    rw [← hB₁]; simp [hhd4]
  have hduv : (du ++ v).length = v.length + 28 := by simp [hdulen]; omega
  have hyshape : y = hd ++ (encodeOpts pre ++
      (encodeOpt (DHCPV6_OPT_CLIENTID, du ++ v) ++ encodeOpts post)) := by
    rw [← hy, encodeOpts_append]
    simp [encodeOpts]
  have hyshape₂ : y = B₁ ++ (encodeOpt (DHCPV6_OPT_CLIENTID, du ++ v) ++
      encodeOpts post) := by
    rw [hyshape, ← hB₁]
    simp
  have hylen : y.length = B₁.length + 4 + (v.length + 28) +
      (encodeOpts post).length := by
    rw [hyshape₂]
    simp [encodeOpt_length, hduv]
    omega
  -- walk the scan to its final state
  have hskip := broken_scan_loop_skip pre hd
    (encodeOpt (DHCPV6_OPT_CLIENTID, du ++ v) ++ encodeOpts post) y.length
    y.length 0 (List.replicate 16 0) false (y.length + 1) hpre
    (by omega) (by omega)
  rw [← hyshape] at hskip
  rw [hhd4] at hskip
  obtain ⟨junk, hstep⟩ := broken_scan_loop_cid_step i src B₁ v post y.length
    y.length y.length 0 (List.replicate 16 0) false y
    (by rw [hdu]; exact hyshape₂) hi hv hv0 (by omega) (by omega)
  obtain ⟨B₂, hB₂⟩ : ∃ B₂ : List Nat, B₁ ++ encodeOpt (DHCPV6_OPT_CLIENTID, v) =
      B₂ := ⟨_, rfl⟩
  have hB₂len : B₂.length = B₁.length + 4 + v.length := by
    rw [← hB₂]
    simp [encodeOpt_length]
    omega
  have hskip2 := broken_scan_loop_skip post B₂ junk y.length (y.length - 28) i
    (fix16 src) true y.length hpost (by omega) (by omega)
  have htail := broken_scan_loop_tail y.length ((B₂ ++ encodeOpts post) ++ junk)
    y.length (B₂.length + (encodeOpts post).length) (y.length - 28) i
    (fix16 src) true (by omega)
  -- assemble the equation chain
  unfold relay_server_response_broken at hr
  rw [hskip] at hr
  rw [show hd ++ encodeOpts pre = B₁ from hB₁] at hr
  rw [show 4 + (encodeOpts pre).length = B₁.length by omega] at hr
  rw [← hyshape₂] at hr
  rw [hstep] at hr
  rw [show B₁ ++ encodeOpt (DHCPV6_OPT_CLIENTID, v) ++ encodeOpts post ++ junk =
    B₂ ++ (encodeOpts post ++ junk) by rw [← hB₂]; simp] at hr
  rw [show B₁.length + 4 + v.length = B₂.length by omega] at hr
  rw [hskip2] at hr
  rcases htail with htail | htail
  · rw [htail] at hr
    exact absurd hr (by simp)
  · rw [htail] at hr
    have hr2 : (if (true && decide (4 ≤ y.length - 28)) = true then
        some (i, fix16 src,
          List.take (y.length - 28) (B₂ ++ encodeOpts post ++ junk))
        else none) = some r := hr
    have hcond : (true && decide (4 ≤ y.length - 28)) = true := by
      simp
      omega
    rw [hcond, if_pos rfl] at hr2
    have htk : ((B₂ ++ encodeOpts post) ++ junk).take (y.length - 28) =
        B₂ ++ encodeOpts post := by
      rw [show y.length - 28 = (B₂ ++ encodeOpts post).length by
        simp only [List.length_append]; omega]
      exact List.take_left _ _
    rw [show B₂ ++ encodeOpts post ++ junk = (B₂ ++ encodeOpts post) ++ junk
      by simp] at hr2
    rw [htk] at hr2
    have hback : B₂ ++ encodeOpts post =
        hd ++ encodeOpts (pre ++ (DHCPV6_OPT_CLIENTID, v) :: post) := by
      rw [← hB₂, ← hB₁, encodeOpts_append]
      simp [encodeOpts]
    rw [hback, fix16_of_length src hsrc] at hr2
    simp only [Option.some.injEq] at hr2
    rw [← hr2]

/-! ## Claim C5: the broken-mode Client-ID rewrite round trip -/

/-- **C5 (amended).** For every well-shaped client message — a 4-byte header
whose type is not server-originated, followed by exactly one Client-ID
option with a non-empty value of at most 102 bytes and no Authentication
option, small enough for the relay buffer — the forward rewrite
`relay_client_request_broken` emits the message with the 28-byte broken-DUID
structure (encoding the ingress interface index and the client source
address) prepended inside the Client-ID value, and whenever the return-path
unrewrite (the broken branch of `relay_server_response`) accepts the
rewritten message, it recovers exactly the original interface index, the
original client address, and the original message bytes:
`unrewrite (rewrite x) = (ifindex, source, x)`. -/
theorem broken_mode_roundtrip
    (iface : relayd_interface) (src : List Nat)
    (m t1 t2 t3 : Nat) (pre post : List (Nat × List Nat)) (v : List Nat)
    (hm : m ≠ DHCPV6_MSG_ADVERTISE ∧ m ≠ DHCPV6_MSG_REPLY ∧
      m ≠ DHCPV6_MSG_RECONFIGURE ∧ m ≠ DHCPV6_MSG_RELAY_REPL)
    (hi : iface.ifindex < 4294967296) (hsrc : src.length = 16)
    (hv : v.length ≤ 102) (hv0 : 1 ≤ v.length)
    (hpre : skippable pre) (hpost : skippable post)
    (hlen : ([m, t1, t2, t3] ++
        encodeOpts (pre ++ (DHCPV6_OPT_CLIENTID, v) :: post)).length +
      broken_duid_size ≤ RELAYD_BUFFER_SIZE) :
    relay_client_request_broken src
      ([m, t1, t2, t3] ++ encodeOpts (pre ++ (DHCPV6_OPT_CLIENTID, v) :: post))
      iface =
      some ([m, t1, t2, t3] ++ encodeOpts (pre ++
        (DHCPV6_OPT_CLIENTID, dhcpv6_broken_duid iface.ifindex src ++ v) ::
        post)) ∧
    ∀ r, relay_server_response_broken
        ([m, t1, t2, t3] ++ encodeOpts (pre ++
          (DHCPV6_OPT_CLIENTID, dhcpv6_broken_duid iface.ifindex src ++ v) ::
          post)) = some r →
      r = (iface.ifindex, src,
        [m, t1, t2, t3] ++ encodeOpts (pre ++ (DHCPV6_OPT_CLIENTID, v) :: post)) :=
  ⟨relay_client_request_broken_encode iface src m t1 t2 t3 pre post v hm hv
      hpre hpost hlen,
    fun r hr => relay_server_response_broken_decode iface.ifindex src m t1 t2 t3
      pre post v hi hsrc hv hv0 hpre hpost r hr⟩

/-- Witness for C5 at a concrete Solicit with an 8-byte Client-ID between an
elapsed-time option and another option. -/
theorem broken_mode_roundtrip_witness :
    ((1 : Nat) ≠ DHCPV6_MSG_ADVERTISE ∧ (1 : Nat) ≠ DHCPV6_MSG_REPLY ∧
      (1 : Nat) ≠ DHCPV6_MSG_RECONFIGURE ∧ (1 : Nat) ≠ DHCPV6_MSG_RELAY_REPL) ∧
    ifLan.ifindex < 4294967296 ∧ addrLL.length = 16 ∧
    ([1, 2, 3, 4, 5, 6, 7, 8] : List Nat).length ≤ 102 ∧
    1 ≤ ([1, 2, 3, 4, 5, 6, 7, 8] : List Nat).length ∧
    skippable [(8, [0, 0])] ∧ skippable [(6, [7, 7, 7])] ∧
    ([1, 0, 0, 1] ++ encodeOpts ([(8, [0, 0])] ++
        (DHCPV6_OPT_CLIENTID, [1, 2, 3, 4, 5, 6, 7, 8]) ::
        [(6, [7, 7, 7])])).length + broken_duid_size ≤ RELAYD_BUFFER_SIZE ∧
    (relay_client_request_broken addrLL
      ([1, 0, 0, 1] ++ encodeOpts ([(8, [0, 0])] ++
        (DHCPV6_OPT_CLIENTID, [1, 2, 3, 4, 5, 6, 7, 8]) :: [(6, [7, 7, 7])]))
      ifLan =
      some ([1, 0, 0, 1] ++ encodeOpts ([(8, [0, 0])] ++
        (DHCPV6_OPT_CLIENTID, dhcpv6_broken_duid ifLan.ifindex addrLL ++
          [1, 2, 3, 4, 5, 6, 7, 8]) :: [(6, [7, 7, 7])])) ∧
    ∀ r, relay_server_response_broken
        ([1, 0, 0, 1] ++ encodeOpts ([(8, [0, 0])] ++
          (DHCPV6_OPT_CLIENTID, dhcpv6_broken_duid ifLan.ifindex addrLL ++
            [1, 2, 3, 4, 5, 6, 7, 8]) :: [(6, [7, 7, 7])])) = some r →
      r = (ifLan.ifindex, addrLL,
        [1, 0, 0, 1] ++ encodeOpts ([(8, [0, 0])] ++
          (DHCPV6_OPT_CLIENTID, [1, 2, 3, 4, 5, 6, 7, 8]) :: [(6, [7, 7, 7])]))) :=
  ⟨by decide, by decide, by decide, by decide, by decide, by decide, by decide,
    by decide,
    broken_mode_roundtrip ifLan addrLL 1 0 0 1 [(8, [0, 0])] [(6, [7, 7, 7])]
      [1, 2, 3, 4, 5, 6, 7, 8] (by decide) (by decide) (by decide) (by decide)
      (by decide) (by decide) (by decide) (by decide)⟩

/-- **C5 (counterexample to the claim as stated).** The spec's composition
order `rewrite(unrewrite(x)) = x` fails on a plain (un-rewritten) client
message that contains a Client-ID and no Authentication option and fits the
buffer bound: the return-path unrewrite drops such a message (no broken-DUID
tag is present), so the composition yields nothing rather than `x`. -/
theorem broken_mode_roundtrip_counterexample :
    (DHCPV6_OPT_CLIENTID, [1, 2]) ∈
      dhcpv6_opts [1, 0, 0, 0, 0, 1, 0, 2, 1, 2] 10 4 ∧
    (∀ o ∈ dhcpv6_opts [1, 0, 0, 0, 0, 1, 0, 2, 1, 2] 10 4,
      o.1 ≠ DHCPV6_OPT_AUTH) ∧
    ([1, 0, 0, 0, 0, 1, 0, 2, 1, 2] : List Nat).length + broken_duid_size ≤
      RELAYD_BUFFER_SIZE ∧
    (relay_server_response_broken [1, 0, 0, 0, 0, 1, 0, 2, 1, 2]).bind
      (fun r => relay_client_request_broken r.2.1 r.2.2
        ⟨r.1, "lan", [0, 0, 0, 0, 0, 0]⟩) ≠
      some [1, 0, 0, 0, 0, 1, 0, 2, 1, 2] := by decide

/-! ## Claim C7: DHCPv6 ingress classification
(`init_dhcpv6_relay`, `src/unnamed/part_002` lines 46-90, and
`handle_dhcpv6`, lines 259-269) -/

/-- The handler functions a DHCPv6 datagram can be routed to. -/
inductive dhcpv6_path where
  | relay_server_response_path
  | relay_client_request_path
  | relay_client_request_broken_path
  | handle_client_request_path
deriving DecidableEq, Repr

/-- The datagram handler `init_dhcpv6_relay` installs on the port-547
socket: `handle_client_request` replaces `handle_dhcpv6` wholesale whenever
the local DHCPv6 server mode is enabled (`src/unnamed/part_002` lines
68-69), for master and slave ingress alike. -/
def dhcpv6_event_handler_is_mini_server (cfg : relayd_config) : Bool :=
  cfg.enable_dhcpv6_server

/-- `handle_dhcpv6`: master ingress goes to `relay_server_response`, slave
ingress to the standard or broken client relay. -/
def handle_dhcpv6 (cfg : relayd_config) (isMaster : Bool) : dhcpv6_path :=
  if isMaster then .relay_server_response_path
  else if !cfg.compat_broken_dhcpv6 then .relay_client_request_path
  else .relay_client_request_broken_path

/-- The path a datagram arriving on the port-547 DHCPv6 socket takes, as
the composition of the installed handler and `handle_dhcpv6`. -/
def dhcpv6_ingress_path (cfg : relayd_config) (isMaster : Bool) : dhcpv6_path :=
  if dhcpv6_event_handler_is_mini_server cfg then .handle_client_request_path
  else handle_dhcpv6 cfg isMaster

/-- **C7 (counterexample).** With the DHCPv6 engine active and the local
server mode enabled (the `-S` bundle), a datagram received on the master
interface is handed to the mini-server `handle_client_request`, not to
`relay_server_response` — the claim's "including when the local DHCPv6
server mode is enabled" is false. -/
theorem master_ingress_dispatch_counterexample :
    ({ master := ifWan
       slaves := [ifLan]
       enable_dhcpv6_relay := true
       enable_dhcpv6_server := true : relayd_config }).enable_dhcpv6_relay =
      true ∧
    dhcpv6_ingress_path
      { master := ifWan
        slaves := [ifLan]
        enable_dhcpv6_relay := true
        enable_dhcpv6_server := true } true ≠
      dhcpv6_path.relay_server_response_path := by decide

/-- **C7 (amended).** A DHCPv6 datagram received on the master interface is
processed as a server response via `relay_server_response` in every active
configuration in which the local DHCPv6 server mode is disabled; when the
server mode is enabled, the socket handler is replaced by the mini-server
`handle_client_request` for all ingress, master included. -/
theorem master_ingress_dispatch (cfg : relayd_config)
    (hserver : cfg.enable_dhcpv6_server = false) :
    dhcpv6_ingress_path cfg true = dhcpv6_path.relay_server_response_path ∧
    ∀ cfg' : relayd_config, cfg'.enable_dhcpv6_server = true →
      dhcpv6_ingress_path cfg' true = dhcpv6_path.handle_client_request_path := by
  constructor
  · unfold dhcpv6_ingress_path dhcpv6_event_handler_is_mini_server handle_dhcpv6
    rw [hserver]
    simp
  · intro cfg' h
    unfold dhcpv6_ingress_path dhcpv6_event_handler_is_mini_server
    rw [h]
    simp

/-- Witness for C7 at the relay-only fixture configuration. -/
theorem master_ingress_dispatch_witness :
    cfg0.enable_dhcpv6_server = false ∧
    (dhcpv6_ingress_path cfg0 true = dhcpv6_path.relay_server_response_path ∧
    ∀ cfg' : relayd_config, cfg'.enable_dhcpv6_server = true →
      dhcpv6_ingress_path cfg' true = dhcpv6_path.handle_client_request_path) :=
  ⟨by decide, master_ingress_dispatch cfg0 (by decide)⟩

/-! ## Claim C4: the final zero-lifetime RA on shutdown
(`main`, `src/unnamed/part_001` lines 212-234, and
`deinit_router_discovery_relay` / `send_router_advert`, `src/src/router.c`
lines 106-120 and 213-364) -/

/-- Modelled from the spec: `MaxRtrAdvInterval` (router.h missing); the spec
gives the standard 200-600 s interval and the 1800 s (3 x interval) worst
case. -/
def MaxRtrAdvInterval : Nat := 600
/-- Modelled from the spec: `MinRtrAdvInterval` (router.h missing). -/
def MinRtrAdvInterval : Nat := 200
/-- Modelled from the spec: `MaxValidTime` is two years (router.h missing). -/
def MaxValidTime : Nat := 2 * 3600 * 24 * 365
/-- Modelled from the spec: `RELAYD_MAX_PREFIXES` is 16 (6relayd.h missing). -/
def RELAYD_MAX_PREFIXES : Nat := 16

/-- A learned interface address as `relayd_get_interface_addresses` returns
it (`struct relayd_ipaddr`; the plural enumerator itself lives outside
`src/`, so its results are a parameter here): address bytes, prefix length,
preferred and valid lifetimes. -/
structure relayd_ipaddr where
  addr : List Nat
  prefix_len : Nat
  preferred : Nat
  valid : Nat
deriving DecidableEq, Repr

/-- The prefix-option scan of `send_router_advert` (router.c lines 258-299),
reduced to what it publishes: the set of distinct /64 prefix keys placed in
the advertisement (capped at `RELAYD_MAX_PREFIXES`, a full table stops the
scan) and whether some scanned address is public (first byte masked with
`0xfe` differs from `0xfc`) with a positive clamped preferred lifetime. -/
def ra_scan : List relayd_ipaddr → List (List Nat) → Bool →
    (List (List Nat) × Bool)
  | [], seen, pub => (seen, pub)
  | a :: rest, seen, pub =>
    if a.prefix_len > 64 then ra_scan rest seen pub
    else
      let pref := if a.preferred > MaxValidTime then MaxValidTime else a.preferred
      let key := a.addr.take 8
      let isNew := !(seen.contains key)
      if isNew && decide (RELAYD_MAX_PREFIXES ≤ seen.length) then (seen, pub)
      else
        ra_scan rest (if isNew then seen ++ [key] else seen)
          (pub || (decide (byteAt a.addr 0 &&& 0xfe ≠ 0xfc) && decide (0 < pref)))

/-- The router lifetime `send_router_advert` puts into the RA (router.c
lines 224-302): zero initially; `3 * MaxRtrAdvInterval` when not shutting
down and a default route exists; forced back to zero when no public prefix
was found and `always_announce_default_router` is unset.  During shutdown
neither the route table nor the addresses are consulted. -/
def send_router_advert_lifetime (cfg : relayd_config) (in_shutdown : Bool)
    (have_default_route : Bool) (addrs : List relayd_ipaddr) : Nat :=
  let base := if !in_shutdown && have_default_route
    then 3 * MaxRtrAdvInterval else 0
  let usable := if in_shutdown then [] else addrs
  let have_public := (ra_scan usable [] false).2
  if !have_public && !cfg.always_announce_default_router then 0 else base

/-- `deinit_router_discovery_relay` (router.c lines 106-120): in server mode
set `in_shutdown` and send one RA per slave; the pairs are
(slave ifindex, router lifetime of the RA sent to it). -/
def deinit_router_discovery_relay (cfg : relayd_config)
    (have_default_route : Bool) (addrsOf : Nat → List relayd_ipaddr) :
    List (Nat × Nat) :=
  if cfg.enable_router_discovery_server then
    cfg.slaves.map (fun s =>
      (s.ifindex, send_router_advert_lifetime cfg true have_default_route
        (addrsOf s.ifindex)))
  else []

/-- The steps `main` performs after the event loop stops
(`src/unnamed/part_001` lines 225-233): restore the forwarding sysctl if it
was enabled, deinitialize the NDP proxy, free the slave table, exit.
`deinit_router_discovery_relay` is never called. -/
inductive shutdown_step where
  | sysctl_forwarding_off
  | ndp_deinit
deriving DecidableEq, Repr

/-- The shutdown sequence of `main`. -/
def main_shutdown (cfg : relayd_config) : List shutdown_step :=
  (if cfg.enable_forwarding then [shutdown_step.sysctl_forwarding_off] else []) ++
    [shutdown_step.ndp_deinit]

/-- The Router Advertisements one shutdown step emits.  Modelled from the
spec for the NDP part: `deinit_ndp_proxy` lives in the NDP engine source
not under `src/`, and per the spec (section 4.5) the NDP proxy emits only
neighbor solicitations and advertisements, never an RA;
`relayd_sysctl_interface` (part_001 lines 321-333) only writes procfs. -/
def step_ra_sends : shutdown_step → List (Nat × Nat)
  | _ => []

/-- All RAs emitted on `main`'s shutdown path. -/
def main_shutdown_ra_sends (cfg : relayd_config) : List (Nat × Nat) :=
  (main_shutdown cfg).foldr (fun st acc => step_ra_sends st ++ acc) []

/-- **C4.** The claim is right about `deinit_router_discovery_relay` — in
server mode it would send exactly one RA with router lifetime 0 to each
slave — but `main`'s termination path never calls it (it only restores the
forwarding sysctl and deinitializes the NDP proxy), so on SIGTERM no final
RA is sent at all.  The theorem exhibits both facts: the shutdown path
emits no RA for any configuration, while the uncalled deinit function
would emit one zero-lifetime RA per slave. -/
theorem shutdown_final_ra (cfg : relayd_config) (have_default_route : Bool)
    (addrsOf : Nat → List relayd_ipaddr)
    (hserver : cfg.enable_router_discovery_server = true) :
    main_shutdown_ra_sends cfg = [] ∧
    (deinit_router_discovery_relay cfg have_default_route addrsOf).length =
      cfg.slaves.length ∧
    ∀ p ∈ deinit_router_discovery_relay cfg have_default_route addrsOf,
      p.2 = 0 := by
  have hlt : ∀ addrs, send_router_advert_lifetime cfg true have_default_route
      addrs = 0 := by
    intro addrs
    unfold send_router_advert_lifetime
    simp [ra_scan]
  refine ⟨?_, ?_, ?_⟩
  · unfold main_shutdown_ra_sends main_shutdown
    cases cfg.enable_forwarding <;> simp [step_ra_sends]
  · unfold deinit_router_discovery_relay
    rw [hserver]
    simp
  · intro p hp
    unfold deinit_router_discovery_relay at hp
    rw [hserver] at hp
    simp only [if_true, List.mem_map] at hp
    obtain ⟨s, _, hs⟩ := hp
    rw [← hs]
    exact hlt _

/-- Witness for C4 at a concrete server-mode configuration with one slave
and one global address. -/
theorem shutdown_final_ra_witness :
    ({ master := ifWan
       slaves := [ifLan]
       enable_router_discovery_relay := true
       enable_router_discovery_server := true : relayd_config
     }).enable_router_discovery_server = true ∧
    (main_shutdown_ra_sends
      { master := ifWan
        slaves := [ifLan]
        enable_router_discovery_relay := true
        enable_router_discovery_server := true } = [] ∧
    (deinit_router_discovery_relay
      { master := ifWan
        slaves := [ifLan]
        enable_router_discovery_relay := true
        enable_router_discovery_server := true } true
      (fun _ => [⟨addrGlobal, 64, 3600, 7200⟩])).length =
      ([ifLan] : List relayd_interface).length ∧
    ∀ p ∈ deinit_router_discovery_relay
      { master := ifWan
        slaves := [ifLan]
        enable_router_discovery_relay := true
        enable_router_discovery_server := true } true
      (fun _ => [⟨addrGlobal, 64, 3600, 7200⟩]), p.2 = 0) :=
  ⟨by decide,
    shutdown_final_ra
      { master := ifWan
        slaves := [ifLan]
        enable_router_discovery_relay := true
        enable_router_discovery_server := true } true
      (fun _ => [⟨addrGlobal, 64, 3600, 7200⟩]) (by decide)⟩

/-! ## The ICMPv6 (RA) option walker and `forward_router_advertisement`
(`src/src/router.c` lines 387-448) -/

def ND_OPT_SOURCE_LINKADDR : Nat := 1
def ND_OPT_RECURSIVE_DNS : Nat := 25
def ND_RA_FLAG_PROXY : Nat := 0x04
def ND_RA_FLAG_OTHER : Nat := 0x40

/-- Modelled from the spec: `icmpv6_for_each_option` lives in the missing
`router.h`; the spec's wire-format section defers to RFC 4861, whose ND
options are 8-octet units — `type:u8, length:u8` in units of 8 octets,
zero length is illegal — and iteration runs while the 8-byte record and the
full `8 * length` extent fit before the end.  Offset/type/length view,
fuel-based like the DHCPv6 walker. -/
def icmpv6_opts_aux (buf : List Nat) (endI : Nat) : Nat → Nat → List (Nat × Nat × Nat)
  | 0, _ => []
  | fuel + 1, pos =>
    if pos + 8 ≤ endI then
      let t := byteAt buf pos
      let l := byteAt buf (pos + 1)
      if 1 ≤ l ∧ pos + 8 * l ≤ endI then
        (pos, t, l) :: icmpv6_opts_aux buf endI fuel (pos + 8 * l)
      else []
    else []

/-- The RA options between offset `pos` and `endI`. -/
def icmpv6_option_offsets (buf : List Nat) (endI pos : Nat) : List (Nat × Nat × Nat) :=
  icmpv6_opts_aux buf endI (endI + 1) pos

/-- The first pass of `forward_router_advertisement` (router.c lines
392-407): remember where the last source link-layer option's data starts
(`opt->data`, 2 bytes into the option) and where the last RDNSS option's
address block starts (`&opt->data[6]`, 8 bytes into the option) together
with its address count `(len - 1) / 2`. -/
def ra_first_pass : List (Nat × Nat × Nat) → Option Nat → Option (Nat × Nat) →
    Option Nat × Option (Nat × Nat)
  | [], mac, dns => (mac, dns)
  | e :: rest, mac, dns =>
    if e.2.1 == ND_OPT_SOURCE_LINKADDR then
      ra_first_pass rest (some (e.1 + 2)) dns
    else if e.2.1 == ND_OPT_RECURSIVE_DNS && decide (1 < e.2.2) then
      ra_first_pass rest mac (some (e.1 + 8, (e.2.2 - 1) / 2))
    else ra_first_pass rest mac dns

/-- `IN6_IS_ADDR_UNSPECIFIED`. -/
def in6_is_addr_unspecified (a : List Nat) : Bool := a.all (· == 0)

/-- Write the same 16-byte address into `cnt` RDNSS slots starting at
`dpos` (router.c lines 440-442, with slot 0 written by the address lookup
itself in the no-configured-DNS case). -/
def write_dns_slots (a : List Nat) : Nat → Nat → List Nat → List Nat
  | 0, _, buf => buf
  | k + 1, dpos, buf => write_dns_slots a k dpos (setBytes buf (dpos + 16 * k) a)

/-- The per-slave loop of `forward_router_advertisement` (router.c lines
420-447): fix up the source link-layer option with the slave's MAC; if DNS
rewriting is on and an RDNSS block was found, rewrite every address with
the configured DNS address or the slave's first enumerated address, skipping
the slave entirely (`continue`) when neither exists; then forward.  The
buffer mutations persist across iterations.  Returns
(slave ifindex, packet bytes sent to it) pairs. -/
def ra_forward_loop (cfg : relayd_config) (addrsOf : Nat → List relayd_ipaddr)
    (macPos : Option Nat) (dns : Option (Nat × Nat)) :
    List relayd_interface → List Nat → List (Nat × List Nat)
  | [], _ => []
  | s :: rest, buf =>
    let buf1 := match macPos with
      | some p => setBytes buf p (s.mac.take 6)
      | none => buf
    match dns with
    | some (dpos, cnt) =>
      if cfg.always_rewrite_dns && decide (0 < cnt) then
        if !(in6_is_addr_unspecified cfg.dnsaddr) then
          let buf2 := write_dns_slots cfg.dnsaddr cnt dpos buf1
          (s.ifindex, buf2) :: ra_forward_loop cfg addrsOf macPos dns rest buf2
        else
          match addrsOf s.ifindex with
          | [] => ra_forward_loop cfg addrsOf macPos dns rest buf1
          | a :: _ =>
            let buf2 := write_dns_slots a.addr cnt dpos buf1
            (s.ifindex, buf2) :: ra_forward_loop cfg addrsOf macPos dns rest buf2
      else (s.ifindex, buf1) :: ra_forward_loop cfg addrsOf macPos dns rest buf1
    | none => (s.ifindex, buf1) :: ra_forward_loop cfg addrsOf macPos dns rest buf1

/-- `forward_router_advertisement`: scan the options once, set the PROXY
flag (and OTHER when the local DHCPv6 server runs) in the flags byte at
offset 5, then run the per-slave fix-up-and-send loop over the mutating
buffer. -/
def forward_router_advertisement (cfg : relayd_config)
    (addrsOf : Nat → List relayd_ipaddr) (data : List Nat) :
    List (Nat × List Nat) :=
  let fp := ra_first_pass (icmpv6_option_offsets data data.length 16) none none
  let flags := byteAt data 5
  let flags1 := if cfg.enable_dhcpv6_server then flags ||| ND_RA_FLAG_OTHER
    else flags
  let data1 := setBytes data 5 [flags1 ||| ND_RA_FLAG_PROXY]
  ra_forward_loop cfg addrsOf fp.1 fp.2 cfg.slaves data1

theorem icmpv6_opts_aux_fuel (buf : List Nat) (endI : Nat) :
    ∀ f₁ f₂ pos, endI - pos < f₁ → endI - pos < f₂ →
      icmpv6_opts_aux buf endI f₁ pos = icmpv6_opts_aux buf endI f₂ pos := by
  intro f₁
  induction f₁ with
  | zero => intro f₂ pos h₁ _; omega
  | succ f ih =>
    intro f₂ pos h₁ h₂
    match f₂, h₂ with
    | f₂ + 1, h₂ =>
      simp only [icmpv6_opts_aux]
      by_cases hp : pos + 8 ≤ endI
      · simp only [hp, if_true]
        by_cases hl : 1 ≤ byteAt buf (pos + 1) ∧ pos + 8 * byteAt buf (pos + 1) ≤ endI
        · simp only [hl, if_true]
          rw [ih f₂ (pos + 8 * byteAt buf (pos + 1)) (by omega) (by omega)]
        · simp only [hl, if_false]
      · simp only [hp, if_false]

theorem icmpv6_option_offsets_step (buf : List Nat) (endI pos : Nat)
    (hp : pos + 8 ≤ endI)
    (hl : 1 ≤ byteAt buf (pos + 1) ∧ pos + 8 * byteAt buf (pos + 1) ≤ endI) :
    icmpv6_option_offsets buf endI pos =
      (pos, byteAt buf pos, byteAt buf (pos + 1)) ::
        icmpv6_option_offsets buf endI (pos + 8 * byteAt buf (pos + 1)) := by
  unfold icmpv6_option_offsets
  have h0 : icmpv6_opts_aux buf endI (endI + 1) pos =
      (pos, byteAt buf pos, byteAt buf (pos + 1)) ::
        icmpv6_opts_aux buf endI endI (pos + 8 * byteAt buf (pos + 1)) := by
    simp only [icmpv6_opts_aux, hp, if_true, hl, and_self, if_true]
  rw [h0, icmpv6_opts_aux_fuel buf endI endI (endI + 1) _ (by omega) (by omega)]

theorem icmpv6_option_offsets_stop (buf : List Nat) (endI pos : Nat)
    (h : ¬ (pos + 8 ≤ endI ∧ 1 ≤ byteAt buf (pos + 1) ∧
      pos + 8 * byteAt buf (pos + 1) ≤ endI)) :
    icmpv6_option_offsets buf endI pos = [] := by
  unfold icmpv6_option_offsets
  simp only [icmpv6_opts_aux]
  by_cases hp : pos + 8 ≤ endI
  · by_cases hl : 1 ≤ byteAt buf (pos + 1) ∧ pos + 8 * byteAt buf (pos + 1) ≤ endI
    · exact absurd ⟨hp, hl⟩ h
    · simp [hp, hl]
  · simp [hp]

/-- One ND option `(type, value)`, serialized: type byte, length byte in
8-octet units, value. -/
def encodeIcmpOpt (o : Nat × List Nat) : List Nat :=
  o.1 :: (o.2.length + 2) / 8 :: o.2

/-- A sequence of ND options, serialized back-to-back. -/
def encodeIcmpOpts : List (Nat × List Nat) → List Nat
  | [] => []
  | o :: rest => encodeIcmpOpt o ++ encodeIcmpOpts rest

/-- Well-formed ND option list: byte-sized type, value padding the record
to a positive multiple of 8 octets, record no longer than `8 * 255`. -/
def icmpOptsWF (T : List (Nat × List Nat)) : Prop :=
  ∀ o ∈ T, o.1 < 256 ∧ 6 ≤ o.2.length ∧ o.2.length + 2 ≤ 8 * 255 ∧
    (o.2.length + 2) % 8 = 0

instance (T : List (Nat × List Nat)) : Decidable (icmpOptsWF T) := by
  unfold icmpOptsWF; infer_instance

theorem encodeIcmpOpt_length (o : Nat × List Nat) :
    (encodeIcmpOpt o).length = 2 + o.2.length := by
  simp [encodeIcmpOpt]; omega

theorem encodeIcmpOpts_append (T₁ T₂ : List (Nat × List Nat)) :
    encodeIcmpOpts (T₁ ++ T₂) = encodeIcmpOpts T₁ ++ encodeIcmpOpts T₂ := by
  induction T₁ with
  | nil => rfl
  | cons o rest ih => simp [encodeIcmpOpts, ih]

/-- The (offset, type, length-in-units) triples the walker should report
for encoded options laid out from `pos`. -/
def icmp_offsets_spec : Nat → List (Nat × List Nat) → List (Nat × Nat × Nat)
  | _, [] => []
  | pos, o :: rest =>
    (pos, o.1, (o.2.length + 2) / 8) ::
      icmp_offsets_spec (pos + (o.2.length + 2)) rest

/-- Walking a buffer that is `A` followed by well-formed encoded ND options,
starting right after `A`, yields exactly those options' offset triples. -/
theorem icmp_offsets_encode :
    ∀ (T : List (Nat × List Nat)) (A : List Nat), icmpOptsWF T →
      icmpv6_option_offsets (A ++ encodeIcmpOpts T)
        (A ++ encodeIcmpOpts T).length A.length =
      icmp_offsets_spec A.length T := by
  intro T
  induction T with
  | nil =>
    intro A _
    simp only [encodeIcmpOpts, List.append_nil, icmp_offsets_spec]
    exact icmpv6_option_offsets_stop _ _ _ (by omega)
  | cons o rest ih =>
    intro A hwf
    obtain ⟨hty, hv6, hv255, hv8⟩ := hwf o (List.mem_cons_self o rest)
    have hrest : icmpOptsWF rest := fun x hx => hwf x (List.mem_cons_of_mem o hx)
    have hbuf : A ++ encodeIcmpOpts (o :: rest) =
        (A ++ encodeIcmpOpt o) ++ encodeIcmpOpts rest := by
      simp [encodeIcmpOpts]
    have hty' : byteAt (A ++ encodeIcmpOpts (o :: rest)) A.length = o.1 := by
      show byteAt (A ++ encodeIcmpOpts (o :: rest)) (A.length + 0) = o.1
      rw [byteAt_append_right]
      simp [encodeIcmpOpts, encodeIcmpOpt, byteAt]
    have hln' : byteAt (A ++ encodeIcmpOpts (o :: rest)) (A.length + 1) =
        (o.2.length + 2) / 8 := by
      rw [byteAt_append_right]
      simp [encodeIcmpOpts, encodeIcmpOpt, byteAt]
    have hmul : 8 * ((o.2.length + 2) / 8) = o.2.length + 2 := by omega
    have hlena : (A ++ encodeIcmpOpts (o :: rest)).length =
        A.length + 2 + o.2.length + (encodeIcmpOpts rest).length := by
      simp [encodeIcmpOpts, encodeIcmpOpt]; omega
    rw [icmpv6_option_offsets_step _ _ _ (by omega) (by rw [hln', hmul]; omega)]
    rw [hty', hln', hmul]
    have hadv : A.length + (o.2.length + 2) = (A ++ encodeIcmpOpt o).length := by
      rw [List.length_append, encodeIcmpOpt_length]; omega
    simp only [icmp_offsets_spec]
    rw [hadv, hbuf]
    exact congrArg _ (ih (A ++ encodeIcmpOpt o) hrest)

theorem byteAt_append_left (A B : List Nat) (k : Nat) (h : k < A.length) :
    byteAt (A ++ B) k = byteAt A k := by
  unfold byteAt
  induction A generalizing k with
  | nil => exact absurd h (by simp)
  | cons a A ih =>
    cases k with
    | zero => rfl
    | succ k => simp only [List.cons_append, List.getD_cons_succ]
                exact ih k (by simpa using h)

theorem setBytes_length (buf xs : List Nat) (p : Nat)
    (h : p + xs.length ≤ buf.length) : (setBytes buf p xs).length = buf.length := by
  unfold setBytes
  simp only [List.length_append, List.length_take, List.length_drop]
  omega

/-- Overwriting the middle segment of a three-part buffer with a
same-length replacement. -/
theorem setBytes_replace (A M M' R : List Nat) (h : M'.length = M.length) :
    setBytes (A ++ M ++ R) A.length M' = A ++ M' ++ R := by
  unfold setBytes
  rw [List.append_assoc A M R, List.take_left,
    List.length_append, List.length_append,
    List.take_of_length_le (by omega),
    show A.length + M'.length = (A ++ M).length by simp [h],
    ← List.append_assoc A M R, List.drop_left]

/-- Writing entirely inside the left part of an appended buffer. -/
theorem setBytes_append_left (A B xs : List Nat) (p : Nat)
    (h : p + xs.length ≤ A.length) :
    setBytes (A ++ B) p xs = setBytes A p xs ++ B := by
  unfold setBytes
  rw [List.take_append_eq_append_take, List.drop_append_eq_append_drop]
  have h1 : p - A.length = 0 := by omega
  have h2 : p + xs.length - A.length = 0 := by omega
  rw [h1, h2]
  simp only [List.take_zero, List.drop_zero, List.append_nil,
    List.length_append]
  rw [List.take_of_length_le (show xs.length ≤ A.length - p by omega),
    List.take_of_length_le (show xs.length ≤ A.length + B.length - p by omega)]
  simp [List.append_assoc]

/-- The options view of an RA: (type, value bytes) per emitted option. -/
def icmpv6_opts (buf : List Nat) (endI pos : Nat) : List (Nat × List Nat) :=
  (icmpv6_option_offsets buf endI pos).map
    (fun e => (e.2.1, sub buf (e.1 + 2) (8 * e.2.2 - 2)))

/-- Walking a buffer that is `A` followed by well-formed encoded ND options,
starting right after `A`, yields exactly those options. -/
theorem icmpv6_opts_encode :
    ∀ (T : List (Nat × List Nat)) (A : List Nat), icmpOptsWF T →
      icmpv6_opts (A ++ encodeIcmpOpts T) (A ++ encodeIcmpOpts T).length A.length
        = T := by
  intro T
  induction T with
  | nil =>
    intro A _
    unfold icmpv6_opts
    simp only [encodeIcmpOpts, List.append_nil]
    rw [icmpv6_option_offsets_stop _ _ _ (by omega)]
    rfl
  | cons o rest ih =>
    intro A hwf
    obtain ⟨hty, hv6, hv255, hv8⟩ := hwf o (List.mem_cons_self o rest)
    have hrest : icmpOptsWF rest := fun x hx => hwf x (List.mem_cons_of_mem o hx)
    have hbuf : A ++ encodeIcmpOpts (o :: rest) =
        (A ++ encodeIcmpOpt o) ++ encodeIcmpOpts rest := by
      simp [encodeIcmpOpts]
    have hty' : byteAt (A ++ encodeIcmpOpts (o :: rest)) A.length = o.1 := by
      show byteAt (A ++ encodeIcmpOpts (o :: rest)) (A.length + 0) = o.1
      rw [byteAt_append_right]
      simp [encodeIcmpOpts, encodeIcmpOpt, byteAt]
    have hln' : byteAt (A ++ encodeIcmpOpts (o :: rest)) (A.length + 1) =
        (o.2.length + 2) / 8 := by
      rw [byteAt_append_right]
      simp [encodeIcmpOpts, encodeIcmpOpt, byteAt]
    have hmul : 8 * ((o.2.length + 2) / 8) = o.2.length + 2 := by omega
    have hlena : (A ++ encodeIcmpOpts (o :: rest)).length =
        A.length + 2 + o.2.length + (encodeIcmpOpts rest).length := by
      simp [encodeIcmpOpts, encodeIcmpOpt]; omega
    have hval : sub (A ++ encodeIcmpOpts (o :: rest)) (A.length + 2)
        (8 * ((o.2.length + 2) / 8) - 2) = o.2 := by
      rw [hmul, show o.2.length + 2 - 2 = o.2.length by omega]
      rw [show A.length + 2 = (A ++ [o.1, (o.2.length + 2) / 8]).length + 0 by
        simp]
      rw [show A ++ encodeIcmpOpts (o :: rest) =
        (A ++ [o.1, (o.2.length + 2) / 8]) ++ (o.2 ++ encodeIcmpOpts rest) by
          simp [encodeIcmpOpts, encodeIcmpOpt]]
      rw [sub_append_right]
      unfold sub
      simp
    unfold icmpv6_opts
    rw [icmpv6_option_offsets_step _ _ _ (by omega) (by rw [hln', hmul]; omega)]
    simp only [List.map_cons, hty', hln', hval]
    congr 1
    have := ih (A ++ encodeIcmpOpt o) hrest
    unfold icmpv6_opts at this
    rw [← hbuf] at this
    have hlen2 : (A ++ encodeIcmpOpt o).length = A.length + (o.2.length + 2) := by
      rw [List.length_append, encodeIcmpOpt_length]; omega
    rw [hlen2] at this
    rw [hmul]
    exact this

theorem icmp_offsets_spec_types :
    ∀ (T : List (Nat × List Nat)) (pos : Nat), ∀ e ∈ icmp_offsets_spec pos T,
      ∃ o ∈ T, e.2.1 = o.1 ∧ e.2.2 = (o.2.length + 2) / 8 := by
  intro T
  induction T with
  | nil => intro pos e he; simp [icmp_offsets_spec] at he
  | cons o rest ih =>
    intro pos e he
    simp only [icmp_offsets_spec, List.mem_cons] at he
    rcases he with rfl | he
    · exact ⟨o, List.mem_cons_self o rest, rfl, rfl⟩
    · obtain ⟨o', ho', h1, h2⟩ := ih _ e he
      exact ⟨o', List.mem_cons_of_mem o ho', h1, h2⟩

theorem icmp_offsets_spec_append :
    ∀ (T₁ T₂ : List (Nat × List Nat)) (pos : Nat),
      icmp_offsets_spec pos (T₁ ++ T₂) =
        icmp_offsets_spec pos T₁ ++
          icmp_offsets_spec (pos + (encodeIcmpOpts T₁).length) T₂ := by
  intro T₁
  induction T₁ with
  | nil => intro T₂ pos; simp [icmp_offsets_spec, encodeIcmpOpts]
  | cons o rest ih =>
    intro T₂ pos
    simp only [List.cons_append, icmp_offsets_spec, List.append_eq]
    rw [ih]
    have : pos + (o.2.length + 2) + (encodeIcmpOpts rest).length =
        pos + (encodeIcmpOpts (o :: rest)).length := by
      simp [encodeIcmpOpts, encodeIcmpOpt]; omega
    rw [this]

theorem ra_first_pass_append (X Y : List (Nat × Nat × Nat))
    (mac : Option Nat) (dns : Option (Nat × Nat)) :
    ra_first_pass (X ++ Y) mac dns =
      ra_first_pass Y (ra_first_pass X mac dns).1 (ra_first_pass X mac dns).2 := by
  induction X generalizing mac dns with
  | nil => rfl
  | cons e X ih =>
    simp only [List.cons_append, ra_first_pass]
    by_cases h1 : (e.2.1 == ND_OPT_SOURCE_LINKADDR) = true
    · simp only [h1, if_true]
      exact ih _ _
    · simp only [h1, if_false]
      by_cases h2 : (e.2.1 == ND_OPT_RECURSIVE_DNS && decide (1 < e.2.2)) = true
      · simp only [h2, if_true]
        exact ih _ _
      · simp only [h2, if_false]
        exact ih _ _

theorem ra_first_pass_skip (E : List (Nat × Nat × Nat))
    (mac : Option Nat) (dns : Option (Nat × Nat))
    (h : ∀ e ∈ E, e.2.1 ≠ ND_OPT_SOURCE_LINKADDR ∧
      (e.2.1 ≠ ND_OPT_RECURSIVE_DNS ∨ e.2.2 ≤ 1)) :
    ra_first_pass E mac dns = (mac, dns) := by
  induction E generalizing mac dns with
  | nil => rfl
  | cons e E ih =>
    obtain ⟨h1, h2⟩ := h e (List.mem_cons_self e E)
    have hb1 : (e.2.1 == ND_OPT_SOURCE_LINKADDR) = false := by
      simpa using h1
    have hb2 : (e.2.1 == ND_OPT_RECURSIVE_DNS && decide (1 < e.2.2)) = false := by
      rcases h2 with h2 | h2
      · simp [h2]
      · have hn : ¬ (1 < e.2.2) := by omega
        simp [hn]
    simp only [ra_first_pass, hb1, hb2, if_false]
    exact ih _ _ (fun x hx => h x (List.mem_cons_of_mem e hx))

/-- The per-slave loop when no RDNSS block was found and the source
link-layer option's 6 MAC bytes sit exactly between `A` and `R`: every
slave receives the buffer with only those 6 bytes replaced. -/
theorem ra_forward_loop_mac_only (cfg : relayd_config)
    (addrsOf : Nat → List relayd_ipaddr) :
    ∀ (slaves : List relayd_interface) (A M R : List Nat), M.length = 6 →
      (∀ s ∈ slaves, s.mac.length = 6) →
      ra_forward_loop cfg addrsOf (some A.length) none slaves (A ++ M ++ R) =
        slaves.map (fun s => (s.ifindex, A ++ s.mac ++ R)) := by
  intro slaves
  induction slaves with
  | nil => intro A M R _ _; rfl
  | cons s rest ih =>
    intro A M R hM hmac
    have hs6 : s.mac.length = 6 := hmac s (List.mem_cons_self s rest)
    have htake : s.mac.take 6 = s.mac := List.take_of_length_le (by omega)
    simp only [ra_forward_loop, htake,
      setBytes_replace A M s.mac R (by omega), List.map_cons]
    exact congrArg _ (ih A s.mac R hs6
      (fun x hx => hmac x (List.mem_cons_of_mem s hx)))

/-- The per-slave loop with DNS rewriting active and no configured DNS
address: the slaves that actually receive a packet are exactly those whose
interface has at least one address. -/
theorem ra_forward_loop_dns_fst (cfg : relayd_config)
    (addrsOf : Nat → List relayd_ipaddr) (macPos : Option Nat) (dpos cnt : Nat)
    (hrw : cfg.always_rewrite_dns = true) (hc : 0 < cnt)
    (hun : in6_is_addr_unspecified cfg.dnsaddr = true) :
    ∀ (slaves : List relayd_interface) (buf : List Nat),
      (ra_forward_loop cfg addrsOf macPos (some (dpos, cnt)) slaves buf).map
          Prod.fst =
        (slaves.filter (fun s => !(addrsOf s.ifindex).isEmpty)).map
          (fun s => s.ifindex) := by
  intro slaves
  induction slaves with
  | nil => intro buf; rfl
  | cons s rest ih =>
    intro buf
    cases haddr : addrsOf s.ifindex with
    | nil => simp [ra_forward_loop, hrw, hun, hc, haddr, List.filter_cons, ih]
    | cons a as => simp [ra_forward_loop, hrw, hun, hc, haddr, List.filter_cons, ih]

/-- The flags byte written by `forward_router_advertisement` (router.c
lines 411-415). -/
def ra_flags_byte (cfg : relayd_config) (b : Nat) : Nat :=
  (if cfg.enable_dhcpv6_server then b ||| ND_RA_FLAG_OTHER else b) |||
    ND_RA_FLAG_PROXY

theorem forward_router_advertisement_def (cfg : relayd_config)
    (addrsOf : Nat → List relayd_ipaddr) (data : List Nat) :
    forward_router_advertisement cfg addrsOf data =
      ra_forward_loop cfg addrsOf
        (ra_first_pass (icmpv6_option_offsets data data.length 16) none none).1
        (ra_first_pass (icmpv6_option_offsets data data.length 16) none none).2
        cfg.slaves (setBytes data 5 [ra_flags_byte cfg (byteAt data 5)]) := rfl

/-- An RA whose options are `pre`, one source link-layer option with value
`w`, then `post`, with no other SLL or RDNSS options: every slave receives
the RA with the flags byte updated and the first 6 bytes of the SLL option
replaced by its own MAC. -/
theorem forward_router_advertisement_single_sll (cfg : relayd_config)
    (addrsOf : Nat → List relayd_ipaddr) (hdr w : List Nat)
    (pre post : List (Nat × List Nat))
    (hhdr : hdr.length = 16)
    (hpre : icmpOptsWF pre) (hpost : icmpOptsWF post)
    (hno : ∀ o ∈ pre ++ post,
      o.1 ≠ ND_OPT_SOURCE_LINKADDR ∧ o.1 ≠ ND_OPT_RECURSIVE_DNS)
    (hw6 : 6 ≤ w.length) (hw8 : (w.length + 2) % 8 = 0)
    (hw255 : w.length + 2 ≤ 8 * 255)
    (hmac : ∀ s ∈ cfg.slaves, s.mac.length = 6) :
    forward_router_advertisement cfg addrsOf
        (hdr ++ encodeIcmpOpts (pre ++ (ND_OPT_SOURCE_LINKADDR, w) :: post)) =
      cfg.slaves.map (fun s => (s.ifindex,
        setBytes hdr 5 [ra_flags_byte cfg (byteAt hdr 5)] ++
          encodeIcmpOpts (pre ++ (ND_OPT_SOURCE_LINKADDR, s.mac ++ w.drop 6)
            :: post))) := by
  have hSLLwf : icmpOptsWF (pre ++ (ND_OPT_SOURCE_LINKADDR, w) :: post) := by
    intro o ho
    rcases List.mem_append.mp ho with h | h
    · exact hpre o h
    · rcases List.mem_cons.mp h with rfl | h
      · exact ⟨by norm_num [ND_OPT_SOURCE_LINKADDR], hw6, hw255, hw8⟩
      · exact hpost o h
  have hwalk : icmpv6_option_offsets
      (hdr ++ encodeIcmpOpts (pre ++ (ND_OPT_SOURCE_LINKADDR, w) :: post))
      (hdr ++ encodeIcmpOpts (pre ++ (ND_OPT_SOURCE_LINKADDR, w) :: post)).length
      16 = icmp_offsets_spec 16 (pre ++ (ND_OPT_SOURCE_LINKADDR, w) :: post) := by
    rw [← hhdr]
    exact icmp_offsets_encode _ hdr hSLLwf
  have hskip_pre : ∀ e ∈ icmp_offsets_spec 16 pre,
      e.2.1 ≠ ND_OPT_SOURCE_LINKADDR ∧
        (e.2.1 ≠ ND_OPT_RECURSIVE_DNS ∨ e.2.2 ≤ 1) := by
    intro e he
    obtain ⟨o, ho, h1, _⟩ := icmp_offsets_spec_types pre 16 e he
    have h2 := hno o (List.mem_append_left post ho)
    exact ⟨h1 ▸ h2.1, Or.inl (h1 ▸ h2.2)⟩
  have hskip_post : ∀ e ∈ icmp_offsets_spec
      (16 + (encodeIcmpOpts pre).length + (w.length + 2)) post,
      e.2.1 ≠ ND_OPT_SOURCE_LINKADDR ∧
        (e.2.1 ≠ ND_OPT_RECURSIVE_DNS ∨ e.2.2 ≤ 1) := by
    intro e he
    obtain ⟨o, ho, h1, _⟩ := icmp_offsets_spec_types post _ e he
    have h2 := hno o (List.mem_append_right pre ho)
    exact ⟨h1 ▸ h2.1, Or.inl (h1 ▸ h2.2)⟩
  have hfp : ra_first_pass (icmp_offsets_spec 16
      (pre ++ (ND_OPT_SOURCE_LINKADDR, w) :: post)) none none =
      (some (16 + (encodeIcmpOpts pre).length + 2), none) := by
    rw [icmp_offsets_spec_append, ra_first_pass_append,
      ra_first_pass_skip _ none none hskip_pre]
    simp only [icmp_offsets_spec, ra_first_pass, beq_self_eq_true, if_true]
    exact ra_first_pass_skip _ _ _ hskip_post
  have hdata1 : setBytes
      (hdr ++ encodeIcmpOpts (pre ++ (ND_OPT_SOURCE_LINKADDR, w) :: post)) 5
      [ra_flags_byte cfg (byteAt
        (hdr ++ encodeIcmpOpts (pre ++ (ND_OPT_SOURCE_LINKADDR, w) :: post)) 5)] =
      setBytes hdr 5 [ra_flags_byte cfg (byteAt hdr 5)] ++
        encodeIcmpOpts (pre ++ (ND_OPT_SOURCE_LINKADDR, w) :: post) := by
    rw [byteAt_append_left hdr _ 5 (by omega)]
    exact setBytes_append_left hdr _ _ 5 (by simp [hhdr])
  rw [forward_router_advertisement_def, hwalk, hfp, hdata1]
  have hTsplit : encodeIcmpOpts (pre ++ (ND_OPT_SOURCE_LINKADDR, w) :: post) =
      encodeIcmpOpts pre ++ ([ND_OPT_SOURCE_LINKADDR, (w.length + 2) / 8] ++
        (w.take 6 ++ (w.drop 6 ++ encodeIcmpOpts post))) := by
    rw [encodeIcmpOpts_append]
    simp only [encodeIcmpOpts, encodeIcmpOpt]
    rw [show w.take 6 ++ (w.drop 6 ++ encodeIcmpOpts post) =
      w ++ encodeIcmpOpts post from by
        rw [← List.append_assoc, List.take_append_drop]]
    simp
  rw [hTsplit]
  have hdrlen' : (setBytes hdr 5 [ra_flags_byte cfg (byteAt hdr 5)]).length
      = 16 := by
    rw [setBytes_length _ _ _ (by simp [hhdr])]
    exact hhdr
  have hA : 16 + (encodeIcmpOpts pre).length + 2 =
      ((setBytes hdr 5 [ra_flags_byte cfg (byteAt hdr 5)] ++
        encodeIcmpOpts pre) ++ [ND_OPT_SOURCE_LINKADDR, (w.length + 2) / 8]).length := by
    simp [hdrlen']
    omega
  rw [show setBytes hdr 5 [ra_flags_byte cfg (byteAt hdr 5)] ++
      (encodeIcmpOpts pre ++ ([ND_OPT_SOURCE_LINKADDR, (w.length + 2) / 8] ++
        (w.take 6 ++ (w.drop 6 ++ encodeIcmpOpts post)))) =
      ((setBytes hdr 5 [ra_flags_byte cfg (byteAt hdr 5)] ++
        encodeIcmpOpts pre) ++ [ND_OPT_SOURCE_LINKADDR, (w.length + 2) / 8]) ++
        w.take 6 ++ (w.drop 6 ++ encodeIcmpOpts post) from by
      simp [List.append_assoc]]
  rw [hA, ra_forward_loop_mac_only cfg addrsOf cfg.slaves _ _ _
    (by simp only [List.length_take]; omega) hmac]
  refine List.map_congr_left ?_
  intro s hs
  have h6 : s.mac.length = 6 := hmac s hs
  have hlen_s : (s.mac ++ w.drop 6).length = w.length := by
    simp [h6]; omega
  simp only [encodeIcmpOpts_append, encodeIcmpOpts, encodeIcmpOpt, hlen_s,
    List.append_assoc, List.cons_append, List.append_nil, List.nil_append]

/-- A 16-byte RA header fixture (ICMPv6 type 134, hop limit 64,
router lifetime 7). -/
def raHdr : List Nat := [134, 0, 0, 0, 64, 0, 0, 7, 0, 0, 0, 0, 0, 0, 0, 0]

/-- The upstream router's link-layer address fixture. -/
def srcMac : List Nat := [10, 11, 12, 13, 14, 15]

/-- A router-discovery relay configuration fixture with one slave. -/
def cfgRD : relayd_config :=
  { master := ifWan
    slaves := [ifLan]
    enable_router_discovery_relay := true }

/-- An RA carrying the same source link-layer option twice. -/
def raDup : List Nat :=
  raHdr ++ encodeIcmpOpts [(ND_OPT_SOURCE_LINKADDR, srcMac),
    (ND_OPT_SOURCE_LINKADDR, srcMac)]

/-- **C3** fails as stated: `forward_router_advertisement` remembers only
the LAST source link-layer option of the first pass, so when the RA carries
two SLL options with value `S`, the packet forwarded to the slave still
contains an SLL option with value `S` (the first one), even though `S`
differs from the slave's MAC. -/
theorem ra_slave_mac_rewrite_counterexample :
    ∃ out ∈ forward_router_advertisement cfgRD (fun _ => []) raDup,
      out.1 = ifLan.ifindex ∧
      (ND_OPT_SOURCE_LINKADDR, srcMac) ∈ icmpv6_opts out.2 out.2.length 16 ∧
      srcMac ≠ ifLan.mac := by decide

/-- **C3** (amended). For an RA received on the master whose options are
`pre`, exactly one source link-layer option with value `w` (so the original
source address `S` is `w.take 6`), then `post`, with no other SLL or RDNSS
options: (a) the RA is forwarded to every slave, with the flags byte
updated and the SLL option's first 6 bytes replaced by that slave's MAC;
(b) each forwarded packet's option walk yields exactly `pre`, the
rewritten SLL option, and `post`; and (c) in each forwarded packet every
source link-layer option carries the slave's MAC — so when the slave's MAC
differs from `S`, no SLL option of the forwarded packet carries `S`.
As literally stated the claim is false: with two SLL options only the last
is rewritten and `S` survives in the first (see the counterexample), and a
non-SLL option whose value happens to contain `S` is never rewritten. -/
theorem ra_slave_mac_rewrite (cfg : relayd_config)
    (addrsOf : Nat → List relayd_ipaddr) (hdr w : List Nat)
    (pre post : List (Nat × List Nat))
    (hhdr : hdr.length = 16)
    (hpre : icmpOptsWF pre) (hpost : icmpOptsWF post)
    (hno : ∀ o ∈ pre ++ post,
      o.1 ≠ ND_OPT_SOURCE_LINKADDR ∧ o.1 ≠ ND_OPT_RECURSIVE_DNS)
    (hw6 : 6 ≤ w.length) (hw8 : (w.length + 2) % 8 = 0)
    (hw255 : w.length + 2 ≤ 8 * 255)
    (hmac : ∀ s ∈ cfg.slaves, s.mac.length = 6) :
    forward_router_advertisement cfg addrsOf
        (hdr ++ encodeIcmpOpts (pre ++ (ND_OPT_SOURCE_LINKADDR, w) :: post)) =
      cfg.slaves.map (fun s => (s.ifindex,
        setBytes hdr 5 [ra_flags_byte cfg (byteAt hdr 5)] ++
          encodeIcmpOpts (pre ++ (ND_OPT_SOURCE_LINKADDR, s.mac ++ w.drop 6)
            :: post))) ∧
    (∀ s ∈ cfg.slaves,
      icmpv6_opts
        (setBytes hdr 5 [ra_flags_byte cfg (byteAt hdr 5)] ++
          encodeIcmpOpts (pre ++ (ND_OPT_SOURCE_LINKADDR, s.mac ++ w.drop 6)
            :: post))
        (setBytes hdr 5 [ra_flags_byte cfg (byteAt hdr 5)] ++
          encodeIcmpOpts (pre ++ (ND_OPT_SOURCE_LINKADDR, s.mac ++ w.drop 6)
            :: post)).length 16 =
        pre ++ (ND_OPT_SOURCE_LINKADDR, s.mac ++ w.drop 6) :: post) ∧
    (∀ s ∈ cfg.slaves, ∀ v,
      (ND_OPT_SOURCE_LINKADDR, v) ∈
          pre ++ (ND_OPT_SOURCE_LINKADDR, s.mac ++ w.drop 6) :: post →
        v.take 6 = s.mac ∧ (s.mac ≠ w.take 6 → v.take 6 ≠ w.take 6)) := by
  have hdrlen' : (setBytes hdr 5 [ra_flags_byte cfg (byteAt hdr 5)]).length
      = 16 := by
    rw [setBytes_length _ _ _ (by simp [hhdr])]
    exact hhdr
  refine ⟨forward_router_advertisement_single_sll cfg addrsOf hdr w pre post
    hhdr hpre hpost hno hw6 hw8 hw255 hmac, ?_, ?_⟩
  · intro s hs
    have h6 := hmac s hs
    have hlen_s : (s.mac ++ w.drop 6).length = w.length := by
      simp [h6]; omega
    have hwf_s : icmpOptsWF
        (pre ++ (ND_OPT_SOURCE_LINKADDR, s.mac ++ w.drop 6) :: post) := by
      intro o ho
      rcases List.mem_append.mp ho with h | h
      · exact hpre o h
      · rcases List.mem_cons.mp h with rfl | h
        · exact ⟨by norm_num [ND_OPT_SOURCE_LINKADDR],
            by simp only [hlen_s]; exact hw6,
            by simp only [hlen_s]; exact hw255,
            by simp only [hlen_s]; exact hw8⟩
        · exact hpost o h
    have h := icmpv6_opts_encode
      (pre ++ (ND_OPT_SOURCE_LINKADDR, s.mac ++ w.drop 6) :: post)
      (setBytes hdr 5 [ra_flags_byte cfg (byteAt hdr 5)]) hwf_s
    rwa [hdrlen'] at h
  · intro s hs v hv
    have h6 := hmac s hs
    rcases List.mem_append.mp hv with h | h
    · exact absurd rfl (hno _ (List.mem_append_left post h)).1
    · rcases List.mem_cons.mp h with heq | h
      · have hv2 : v = s.mac ++ w.drop 6 := by
          have := congrArg Prod.snd heq
          simpa using this
        subst hv2
        have htk : (s.mac ++ w.drop 6).take 6 = s.mac := by
          rw [List.take_append_eq_append_take,
            List.take_of_length_le (by omega)]
          simp [h6]
        refine ⟨htk, fun hne => ?_⟩
        rw [htk]
        exact hne
      · exact absurd rfl (hno _ (List.mem_append_right pre h)).1

/-- Witness for the amended C3 at a concrete one-slave configuration and a
minimal RA with a single SLL option. -/
theorem ra_slave_mac_rewrite_witness :
    (raHdr.length = 16 ∧ 6 ≤ srcMac.length ∧ (srcMac.length + 2) % 8 = 0 ∧
      (∀ s ∈ cfgRD.slaves, s.mac.length = 6)) ∧
    (forward_router_advertisement cfgRD (fun _ => [])
        (raHdr ++ encodeIcmpOpts ([] ++ (ND_OPT_SOURCE_LINKADDR, srcMac) :: [])) =
      cfgRD.slaves.map (fun s => (s.ifindex,
        setBytes raHdr 5 [ra_flags_byte cfgRD (byteAt raHdr 5)] ++
          encodeIcmpOpts ([] ++ (ND_OPT_SOURCE_LINKADDR,
            s.mac ++ srcMac.drop 6) :: []))) ∧
      (∀ s ∈ cfgRD.slaves,
        icmpv6_opts
          (setBytes raHdr 5 [ra_flags_byte cfgRD (byteAt raHdr 5)] ++
            encodeIcmpOpts ([] ++ (ND_OPT_SOURCE_LINKADDR,
              s.mac ++ srcMac.drop 6) :: []))
          (setBytes raHdr 5 [ra_flags_byte cfgRD (byteAt raHdr 5)] ++
            encodeIcmpOpts ([] ++ (ND_OPT_SOURCE_LINKADDR,
              s.mac ++ srcMac.drop 6) :: [])).length 16 =
          [] ++ (ND_OPT_SOURCE_LINKADDR, s.mac ++ srcMac.drop 6) :: []) ∧
      (∀ s ∈ cfgRD.slaves, ∀ v,
        (ND_OPT_SOURCE_LINKADDR, v) ∈
            ([] : List (Nat × List Nat)) ++ (ND_OPT_SOURCE_LINKADDR,
              s.mac ++ srcMac.drop 6) :: [] →
          v.take 6 = s.mac ∧
            (s.mac ≠ srcMac.take 6 → v.take 6 ≠ srcMac.take 6))) :=
  ⟨⟨by decide, by decide, by decide, by decide⟩,
    ra_slave_mac_rewrite cfgRD (fun _ => []) raHdr srcMac [] []
      (by decide) (by decide) (by decide) (by decide) (by decide) (by decide)
      (by decide) (by decide)⟩

/-- A second slave interface fixture. -/
def ifLan2 : relayd_interface := ⟨3, "lan2", [0x21, 0x22, 0x23, 0x24, 0x25, 0x26]⟩

/-- An RDNSS option value fixture: 2 reserved bytes, 4 lifetime bytes, one
16-byte DNS address. -/
def rdnssVal : List Nat := [0, 0, 0, 0, 0, 30] ++ addrGlobal2

/-- An RA carrying one RDNSS option. -/
def raDns : List Nat := raHdr ++ encodeIcmpOpts [(ND_OPT_RECURSIVE_DNS, rdnssVal)]

/-- A relay configuration with DNS rewriting forced and two slaves. -/
def cfgRA8 : relayd_config :=
  { master := ifWan
    slaves := [ifLan, ifLan2]
    enable_router_discovery_relay := true
    always_rewrite_dns := true }

/-- Address registry fixture: only the second slave (ifindex 3) has an
address. -/
def envRA : Nat → List relayd_ipaddr :=
  fun i => if i == 3 then [⟨addrGlobal, 64, 100, 200⟩] else []

/-- **C8** fails as stated: when neither a configured DNS address nor any
address of the slave is available, the `continue` in router.c line 436
skips `relayd_forward_packet` too, so the RA is NOT forwarded to that
slave (while the other slave still receives it). -/
theorem ra_dns_skip_counterexample :
    cfgRA8.always_rewrite_dns = true ∧
    in6_is_addr_unspecified cfgRA8.dnsaddr = true ∧
    ifLan ∈ cfgRA8.slaves ∧ envRA ifLan.ifindex = [] ∧
    (ND_OPT_RECURSIVE_DNS, rdnssVal) ∈ icmpv6_opts raDns raDns.length 16 ∧
    ifLan.ifindex ∉
      (forward_router_advertisement cfgRA8 envRA raDns).map Prod.fst ∧
    ifLan2.ifindex ∈
      (forward_router_advertisement cfgRA8 envRA raDns).map Prod.fst := by
  decide

/-- **C8** (amended). In relay-mode RA forwarding with always-rewrite-dns
set, no configured DNS address, and one RDNSS option (no other SLL/RDNSS
options): the slaves that receive the RA are exactly those whose interface
registry has at least one address. A slave for which no rewrite source can
be obtained is skipped entirely — the DNS rewrite AND the forwarding are
both skipped for it (router.c line 436 `continue` sits before
`relayd_forward_packet`) — while delivery to every other slave is
unaffected. -/
theorem ra_dns_unrewritable_slave_skipped (cfg : relayd_config)
    (addrsOf : Nat → List relayd_ipaddr) (hdr w : List Nat)
    (pre post : List (Nat × List Nat))
    (hhdr : hdr.length = 16)
    (hpre : icmpOptsWF pre) (hpost : icmpOptsWF post)
    (hno : ∀ o ∈ pre ++ post,
      o.1 ≠ ND_OPT_SOURCE_LINKADDR ∧ o.1 ≠ ND_OPT_RECURSIVE_DNS)
    (hw22 : 22 ≤ w.length) (hw8 : (w.length + 2) % 8 = 0)
    (hw255 : w.length + 2 ≤ 8 * 255)
    (hrw : cfg.always_rewrite_dns = true)
    (hun : in6_is_addr_unspecified cfg.dnsaddr = true) :
    (forward_router_advertisement cfg addrsOf
        (hdr ++ encodeIcmpOpts (pre ++ (ND_OPT_RECURSIVE_DNS, w) :: post))).map
        Prod.fst =
      (cfg.slaves.filter (fun s => !(addrsOf s.ifindex).isEmpty)).map
        (fun s => s.ifindex) ∧
    (∀ s ∈ cfg.slaves, (addrsOf s.ifindex).isEmpty = false →
      s.ifindex ∈ (forward_router_advertisement cfg addrsOf
        (hdr ++ encodeIcmpOpts
          (pre ++ (ND_OPT_RECURSIVE_DNS, w) :: post))).map Prod.fst) := by
  have hwf : icmpOptsWF (pre ++ (ND_OPT_RECURSIVE_DNS, w) :: post) := by
    intro o ho
    rcases List.mem_append.mp ho with h | h
    · exact hpre o h
    · rcases List.mem_cons.mp h with rfl | h
      · exact ⟨by norm_num [ND_OPT_RECURSIVE_DNS],
          show 6 ≤ w.length by omega, hw255, hw8⟩
      · exact hpost o h
  have hwalk : icmpv6_option_offsets
      (hdr ++ encodeIcmpOpts (pre ++ (ND_OPT_RECURSIVE_DNS, w) :: post))
      (hdr ++ encodeIcmpOpts (pre ++ (ND_OPT_RECURSIVE_DNS, w) :: post)).length
      16 = icmp_offsets_spec 16 (pre ++ (ND_OPT_RECURSIVE_DNS, w) :: post) := by
    rw [← hhdr]
    exact icmp_offsets_encode _ hdr hwf
  have hskip_pre : ∀ e ∈ icmp_offsets_spec 16 pre,
      e.2.1 ≠ ND_OPT_SOURCE_LINKADDR ∧
        (e.2.1 ≠ ND_OPT_RECURSIVE_DNS ∨ e.2.2 ≤ 1) := by
    intro e he
    obtain ⟨o, ho, h1, _⟩ := icmp_offsets_spec_types pre 16 e he
    have h2 := hno o (List.mem_append_left post ho)
    exact ⟨h1 ▸ h2.1, Or.inl (h1 ▸ h2.2)⟩
  have hskip_post : ∀ e ∈ icmp_offsets_spec
      (16 + (encodeIcmpOpts pre).length + (w.length + 2)) post,
      e.2.1 ≠ ND_OPT_SOURCE_LINKADDR ∧
        (e.2.1 ≠ ND_OPT_RECURSIVE_DNS ∨ e.2.2 ≤ 1) := by
    intro e he
    obtain ⟨o, ho, h1, _⟩ := icmp_offsets_spec_types post _ e he
    have h2 := hno o (List.mem_append_right pre ho)
    exact ⟨h1 ▸ h2.1, Or.inl (h1 ▸ h2.2)⟩
  have hb1 : ((ND_OPT_RECURSIVE_DNS : Nat) == ND_OPT_SOURCE_LINKADDR) =
      false := by decide
  have hb2 : (((ND_OPT_RECURSIVE_DNS : Nat) == ND_OPT_RECURSIVE_DNS) &&
      decide (1 < (w.length + 2) / 8)) = true := by
    simp only [beq_self_eq_true, Bool.true_and, decide_eq_true_eq]
    omega
  have hfp : ra_first_pass (icmp_offsets_spec 16
      (pre ++ (ND_OPT_RECURSIVE_DNS, w) :: post)) none none =
      (none, some (16 + (encodeIcmpOpts pre).length + 8,
        ((w.length + 2) / 8 - 1) / 2)) := by
    rw [icmp_offsets_spec_append, ra_first_pass_append,
      ra_first_pass_skip _ none none hskip_pre]
    simp only [icmp_offsets_spec, ra_first_pass, hb1, hb2,
      Bool.false_eq_true, if_false, if_true]
    exact ra_first_pass_skip _ _ _ hskip_post
  have hcnt : 0 < ((w.length + 2) / 8 - 1) / 2 := by omega
  have hmain : (forward_router_advertisement cfg addrsOf
      (hdr ++ encodeIcmpOpts (pre ++ (ND_OPT_RECURSIVE_DNS, w) :: post))).map
        Prod.fst =
      (cfg.slaves.filter (fun s => !(addrsOf s.ifindex).isEmpty)).map
        (fun s => s.ifindex) := by
    rw [forward_router_advertisement_def, hwalk, hfp]
    exact ra_forward_loop_dns_fst cfg addrsOf none _ _ hrw hcnt hun
      cfg.slaves _
  refine ⟨hmain, fun s hs hne => ?_⟩
  rw [hmain]
  exact List.mem_map_of_mem _ (List.mem_filter.mpr ⟨hs, by simp [hne]⟩)

/-- Witness for the amended C8: two slaves, only the second has an address;
the forwarded-to set is exactly that second slave. -/
theorem ra_dns_unrewritable_slave_skipped_witness :
    (cfgRA8.always_rewrite_dns = true ∧
      in6_is_addr_unspecified cfgRA8.dnsaddr = true ∧ 22 ≤ rdnssVal.length) ∧
    ((forward_router_advertisement cfgRA8 envRA
        (raHdr ++ encodeIcmpOpts
          ([] ++ (ND_OPT_RECURSIVE_DNS, rdnssVal) :: []))).map Prod.fst =
      (cfgRA8.slaves.filter (fun s => !(envRA s.ifindex).isEmpty)).map
        (fun s => s.ifindex) ∧
    (∀ s ∈ cfgRA8.slaves, (envRA s.ifindex).isEmpty = false →
      s.ifindex ∈ (forward_router_advertisement cfgRA8 envRA
        (raHdr ++ encodeIcmpOpts
          ([] ++ (ND_OPT_RECURSIVE_DNS, rdnssVal) :: []))).map Prod.fst)) :=
  ⟨⟨by decide, by decide, by decide⟩,
    ra_dns_unrewritable_slave_skipped cfgRA8 envRA raHdr rdnssVal [] []
      (by decide) (by decide) (by decide) (by decide) (by decide) (by decide)
      (by decide) (by decide) (by decide)⟩

/-! ## The stateless DHCPv6 mini-server (`handle_client_request`,
`src/unnamed/part_002` lines 174-255) and the standard server-to-client
relay path (`relay_server_response`, lines 273-305 and 344-398) -/

/-- Modelled from the spec: the UDP port constants live in the missing
`dhcpv6.h`; the spec's DHCPv6 section uses the standard client port. -/
def DHCPV6_CLIENT_PORT : Nat := 546

/-- Modelled from the spec: the standard DHCPv6 server/relay port. -/
def DHCPV6_SERVER_PORT : Nat := 547

/-- A fixed 6-byte MAC field (`uint8_t mac[6]` in `relayd_interface`). -/
def fix6 (m : List Nat) : List Nat :=
  m.take 6 ++ List.replicate (6 - m.length) 0

/-- The first RELAY_MSG option of a walk (used by the nested-message
handling, part_002 lines 140-147 and 161-168). -/
def find_relay_msg (buf : List Nat) (endI pos : Nat) : Option (Nat × Nat × Nat) :=
  (dhcpv6_option_offsets buf endI pos).find?
    (fun e => e.2.1 == DHCPV6_OPT_RELAY_MSG)

/-- `handle_nested_message` (part_002 lines 120-148): starting from a
RELAY-FORW chain at offset `off` spanning `len` bytes, descend through the
first RELAY_MSG option of each level; state is
`((iov0 base?, iov0 len), (opts, opts end)?, iov3 offset, iov3 length)`,
where the option window is only set once a non-RELAY-FORW message is
reached and `iov3` tracks the bytes after the current RELAY_MSG payload.
Fuel-based; each recursion strictly shrinks `len`. -/
def handle_nested_message (buf : List Nat) :
    Nat → Nat → Nat →
      ((Option Nat × Nat) × Option (Nat × Nat) × Nat × Nat) →
      ((Option Nat × Nat) × Option (Nat × Nat) × Nat × Nat)
  | 0, _, _, st => st
  | fuel + 1, off, len, ((b0, l0), oe, i3off, i3len) =>
    let b0' := b0.getD off
    if len < 4 then ((some b0', l0), oe, i3off, i3len)
    else if byteAt buf off != DHCPV6_MSG_RELAY_FORW then
      ((some b0', off - b0'), some (off + 4, off + len), i3off, i3len)
    else
      match find_relay_msg buf (off + len) (off + 34) with
      | none => ((some b0', l0), oe, i3off, i3len)
      | some (pos, _, l) =>
        handle_nested_message buf fuel (pos + 4) l
          ((some b0', l0), oe, pos + 4 + l, off + len - (pos + 4 + l))

/-- `update_nested_message` (part_002 lines 151-170): flip each RELAY-FORW
in the chain to RELAY-REPL and add `pdiff` to each RELAY_MSG length field
(16-bit wrap; the recursion length argument follows the source's
`olen - pdiff` in 32-bit `size_t` arithmetic). -/
def update_nested_message (buf : List Nat) :
    Nat → Nat → Nat → Int → List Nat
  | 0, _, _, _ => buf
  | fuel + 1, off, len, pdiff =>
    if byteAt buf off != DHCPV6_MSG_RELAY_FORW then buf
    else
      let buf1 := setBytes buf off [DHCPV6_MSG_RELAY_REPL]
      match find_relay_msg buf1 (off + len) (off + 34) with
      | none => buf1
      | some (pos, _, l) =>
        let olen1 := (((l : Int) + pdiff) % 65536).toNat
        let buf2 := setBytes buf1 (pos + 2) [olen1 / 256 % 256, olen1 % 256]
        update_nested_message buf2 fuel (pos + 4)
          ((((olen1 : Int) - pdiff) % 4294967296).toNat) pdiff

/-- The option scan of `handle_client_request` (part_002 lines 233-245)
over the walker's (offset, type, length) triples; state is
`(clientid length, clientid buffer, iov1 length, iov2 length)`; a
Server-ID that is not ours aborts (`return`). -/
def hcr_scan (buf : List Nat) (iface : relayd_interface) :
    List (Nat × Nat × Nat) → Nat × List Nat × Nat × Nat →
      Option (Nat × List Nat × Nat × Nat)
  | [], st => some st
  | (pos, t, l) :: rest, (cidLen, cbuf, iov1, iov2) =>
    if t == DHCPV6_OPT_CLIENTID && l ≤ 130 then
      hcr_scan buf iface rest
        (l, setBytes cbuf 0 (sub buf (pos + 4) l), iov1 + 4 + l, iov2)
    else if t == DHCPV6_OPT_SERVERID then
      if l == 10 && (sub buf (pos + 4) 10 ==
          be16 3 ++ be16 1 ++ fix6 iface.mac) then
        hcr_scan buf iface rest (cidLen, cbuf, iov1, iov2)
      else none
    else if t == DHCPV6_OPT_IA_NA then
      hcr_scan buf iface rest (cidLen, cbuf, iov1, 6)
    else hcr_scan buf iface rest (cidLen, cbuf, iov1, iov2)

/-- The `stat` option bytes (part_002 lines 212-217): a STATUS option with
2-byte value NOADDRSAVAIL. -/
def statBytes : List Nat :=
  be16 DHCPV6_OPT_STATUS ++ be16 2 ++ be16 DHCPV6_STATUS_NOADDRSAVAIL

/-- `handle_client_request`: the stateless mini-server.  Returns
`some reply` (the concatenated iovec bytes sent back to the requester)
or `none` when the datagram is dropped.  The destination-address lookup
passes `allow_linklocal = true` (line 251). -/
def handle_client_request (env : AddrEnv) (data : List Nat)
    (iface : relayd_interface) : Option (List Nat) :=
  if data.length < 4 then none else
  let len := data.length
  let st :=
    if byteAt data 0 == DHCPV6_MSG_RELAY_FORW then
      handle_nested_message data len 0 len ((none, 0), none, 0, 0)
    else ((none, 0), none, 0, 0)
  let iov0len := st.1.2
  let opts := match st.2.1 with | some oe => oe.1 | none => 4
  let opts_end := match st.2.1 with | some oe => oe.2 | none => len
  let iov3off := st.2.2.1
  let iov3len := st.2.2.2
  let msg0 := if byteAt data (opts - 4) == DHCPV6_MSG_SOLICIT then
      DHCPV6_MSG_ADVERTISE else DHCPV6_MSG_REPLY
  if byteAt data (opts - 4) == DHCPV6_MSG_REBIND then none else
  match hcr_scan data iface (dhcpv6_option_offsets data opts_end opts)
      (0, List.replicate 130 0, 38, 0) with
  | none => none
  | some (cidLen, cbuf, iov1len, iov2len) =>
    let data1 := if 0 < iov0len then
        update_nested_message data len 0 len
          ((iov1len : Int) + iov2len - (4 + (opts_end : Int) - opts))
      else data
    match relayd_get_interface_address env iface.ifname true with
    | none => none
    | some a =>
      let destBytes := msg0 :: sub data 1 3 ++
        be16 DHCPV6_OPT_DNS_SERVERS ++ be16 16 ++ fix16 a ++
        be16 DHCPV6_OPT_SERVERID ++ be16 10 ++ be16 3 ++ be16 1 ++
        fix6 iface.mac ++ be16 DHCPV6_OPT_CLIENTID ++ be16 cidLen ++ cbuf
      some (sub data1 0 iov0len ++ destBytes.take iov1len ++
        statBytes.take iov2len ++ sub data1 iov3off iov3len)

/-- The gathering walk of `relay_server_response`'s standard branch
(part_002 lines 297-305) over the walker's triples: remember the last
4-byte INTERFACE_ID (a native-endian `int32_t`, read little-endian) and
the last RELAY_MSG option (value offset and length). -/
def rsr_scan (buf : List Nat) :
    List (Nat × Nat × Nat) → Nat → Option (Nat × Nat) → Nat × Option (Nat × Nat)
  | [], idx, pl => (idx, pl)
  | (pos, t, l) :: rest, idx, pl =>
    if t == DHCPV6_OPT_INTERFACE_ID && l == 4 then
      rsr_scan buf rest (readLE32 buf (pos + 4)) pl
    else if t == DHCPV6_OPT_RELAY_MSG then
      rsr_scan buf rest idx (some (pos + 4, l))
    else rsr_scan buf rest idx pl

/-- The payload walk of `relay_server_response` (part_002 lines 364-378):
per DNS_SERVERS option (length at least 16) the rewrite flag is RESET to
`always_rewrite_dns` and then raised if any of its 16-byte addresses is
link-local; the last such option's value offset and address count are
kept; an AUTH option sets the authenticated flag.  State is
`(rewrite, (dns offset, count)?, authenticated)`. -/
def rsr_inner_scan (always : Bool) (buf : List Nat) :
    List (Nat × Nat × Nat) → Bool × Option (Nat × Nat) × Bool →
      Bool × Option (Nat × Nat) × Bool
  | [], st => st
  | (pos, t, l) :: rest, (rw, dns, auth) =>
    if t == DHCPV6_OPT_DNS_SERVERS && 16 ≤ l then
      rsr_inner_scan always buf rest
        (always || (List.range (l / 16)).any
            (fun i => isLinkLocal (sub buf (pos + 4 + 16 * i) 16)),
          some (pos + 4, l / 16), auth)
    else if t == DHCPV6_OPT_AUTH then
      rsr_inner_scan always buf rest (rw, dns, true)
    else rsr_inner_scan always buf rest (rw, dns, auth)

/-- `relay_server_response`, standard (non-broken) branch (part_002 lines
273-305 and 344-398): a RELAY-REPL from the server is unwrapped and its
payload forwarded to the peer address on the slave named by the
INTERFACE_ID option.  DNS rewriting uses
`relayd_get_interface_address(..., allow_linklocal = true)` (line 387).
Returns `some (slave ifindex, target address, target port, payload bytes
forwarded)` or `none` when the datagram is dropped. -/
def relay_server_response (cfg : relayd_config) (env : AddrEnv)
    (data : List Nat) : Option (Nat × List Nat × Nat × List Nat) :=
  if data.length < 34 ∨ byteAt data 0 ≠ DHCPV6_MSG_RELAY_REPL then none
  else
    let target := sub data 18 16
    let st := rsr_scan data
      (dhcpv6_option_offsets data data.length 34) 0 none
    match st.2 with
    | none => none
    | some (ploff, plen) =>
      match cfg.slaves.find? (fun s => s.ifindex == st.1) with
      | none => none
      | some iface =>
        if plen < 4 then none
        else if byteAt data ploff == DHCPV6_MSG_RELAY_REPL then
          some (iface.ifindex, target, DHCPV6_SERVER_PORT, sub data ploff plen)
        else
          let inner := rsr_inner_scan cfg.always_rewrite_dns data
            (dhcpv6_option_offsets data (ploff + plen) (ploff + 4))
            (false, none, false)
          match inner.2.1 with
          | some (dpos, cnt) =>
            if inner.1 && decide (0 < cnt) then
              if inner.2.2 then none
              else match relayd_get_interface_address env iface.ifname true with
                | none => none
                | some a =>
                  let data1 := write_dns_slots (fix16 a) cnt dpos data
                  some (iface.ifindex, target, DHCPV6_CLIENT_PORT,
                    sub data1 ploff plen)
            else some (iface.ifindex, target, DHCPV6_CLIENT_PORT,
              sub data ploff plen)
          | none => some (iface.ifindex, target, DHCPV6_CLIENT_PORT,
              sub data ploff plen)

/-- The (offset, type, length) triples the DHCPv6 walker should report for
encoded options laid out from `pos`. -/
def dhcpv6_offsets_spec : Nat → List (Nat × List Nat) → List (Nat × Nat × Nat)
  | _, [] => []
  | pos, o :: rest =>
    (pos, o.1, o.2.length) :: dhcpv6_offsets_spec (pos + 4 + o.2.length) rest

/-- Walking a buffer that is `A` followed by well-formed encoded DHCPv6
options, starting right after `A`, yields exactly those options' offset
triples. -/
theorem dhcpv6_offsets_encode :
    ∀ (T : List (Nat × List Nat)) (A : List Nat), optsWF T →
      dhcpv6_option_offsets (A ++ encodeOpts T) (A ++ encodeOpts T).length
        A.length = dhcpv6_offsets_spec A.length T := by
  intro T
  induction T with
  | nil =>
    intro A _
    simp only [encodeOpts, List.append_nil, dhcpv6_offsets_spec]
    exact dhcpv6_option_offsets_stop _ _ _ (by omega)
  | cons o rest ih =>
    intro A hwf
    obtain ⟨hty, hlen⟩ := hwf o (List.mem_cons_self o rest)
    have hrest : optsWF rest := fun x hx => hwf x (List.mem_cons_of_mem o hx)
    have hbuf : A ++ encodeOpts (o :: rest) =
        (A ++ encodeOpt o) ++ encodeOpts rest := by
      simp [encodeOpts]
    have hln' : readBE16 (A ++ encodeOpts (o :: rest)) (A.length + 2) =
        o.2.length := by
      rw [show A.length + 2 = (A ++ be16 o.1).length + 0 by simp [be16]]
      rw [show A ++ encodeOpts (o :: rest) =
        (A ++ be16 o.1) ++ (be16 o.2.length ++ (o.2 ++ encodeOpts rest)) by
          simp [encodeOpts, encodeOpt]]
      rw [readBE16_append_right]
      exact be16_readBE16 o.2.length hlen _
    have hty' : readBE16 (A ++ encodeOpts (o :: rest)) A.length = o.1 := by
      show readBE16 (A ++ encodeOpts (o :: rest)) (A.length + 0) = o.1
      rw [readBE16_append_right]
      simp only [encodeOpts, encodeOpt, List.append_assoc]
      exact be16_readBE16 o.1 hty _
    have hlena : (A ++ encodeOpts (o :: rest)).length =
        A.length + 4 + o.2.length + (encodeOpts rest).length := by
      simp [encodeOpts, encodeOpt, be16]; omega
    rw [dhcpv6_option_offsets_step _ _ _ (by omega) (by rw [hln']; omega)]
    rw [hty', hln']
    have hadv : A.length + 4 + o.2.length = (A ++ encodeOpt o).length := by
      rw [List.length_append, encodeOpt_length]; omega
    simp only [dhcpv6_offsets_spec]
    rw [hadv, hbuf]
    exact congrArg _ (ih (A ++ encodeOpt o) hrest)

theorem sub_append_left (A B : List Nat) (off n : Nat)
    (h : off + n ≤ A.length) : sub (A ++ B) off n = sub A off n := by
  unfold sub
  rw [List.drop_append_eq_append_drop, show off - A.length = 0 by omega,
    List.drop_zero, List.take_append_eq_append_take,
    show n - (A.drop off).length = 0 by simp; omega]
  simp

theorem sub_take (l : List Nat) (m off n : Nat) (h : off + n ≤ m) :
    sub (l.take m) off n = sub l off n := by
  unfold sub
  rw [List.drop_take, List.take_take]
  congr 1
  omega

/-- Overwriting `cnt` 16-byte slots that exactly tile the middle segment
of a three-part buffer. -/
theorem write_dns_slots_replace (a : List Nat) (ha : a.length = 16) :
    ∀ (cnt : Nat) (A D R : List Nat), D.length = 16 * cnt →
      write_dns_slots a cnt A.length (A ++ D ++ R) =
        A ++ (List.replicate cnt a).flatten ++ R := by
  intro cnt
  induction cnt with
  | zero =>
    intro A D R hD
    have : D = [] := List.eq_nil_of_length_eq_zero (by omega)
    subst this
    simp [write_dns_slots]
  | succ k ih =>
    intro A D R hD
    have hsplit : D = D.take (16 * k) ++ D.drop (16 * k) := by simp
    have hlen1 : (D.take (16 * k)).length = 16 * k := by
      simp only [List.length_take]
      omega
    have hlen2 : (D.drop (16 * k)).length = 16 := by
      simp only [List.length_drop]
      omega
    simp only [write_dns_slots]
    have hset : setBytes (A ++ D ++ R) (A.length + 16 * k) a =
        A ++ D.take (16 * k) ++ (a ++ R) := by
      rw [show A ++ D ++ R =
          (A ++ D.take (16 * k)) ++ D.drop (16 * k) ++ R by
        conv_lhs => rw [hsplit]
        simp [List.append_assoc]]
      rw [show A.length + 16 * k = (A ++ D.take (16 * k)).length by
        simp [hlen1]]
      rw [setBytes_replace _ _ _ _ (by omega)]
      simp [List.append_assoc]
    rw [hset, show A ++ D.take (16 * k) ++ (a ++ R) =
      A ++ D.take (16 * k) ++ (a ++ R) from rfl]
    rw [ih A (D.take (16 * k)) (a ++ R) hlen1]
    have hjoin : (List.replicate (k + 1) a).flatten =
        (List.replicate k a).flatten ++ a := by
      rw [show k + 1 = k + 1 from rfl, List.replicate_succ']
      simp
    rw [hjoin]
    simp [List.append_assoc]

/-- Every aligned 16-byte slot of `cnt` joined copies of a 16-byte address
is that address. -/
theorem join_replicate_slot (a : List Nat) (ha : a.length = 16) :
    ∀ (cnt : Nat) (B : List Nat) (i : Nat), i < cnt →
      sub ((List.replicate cnt a).flatten ++ B) (16 * i) 16 = a := by
  intro cnt
  induction cnt with
  | zero => intro B i hi; omega
  | succ k ih =>
    intro B i hi
    rw [List.replicate_succ]
    cases i with
    | zero =>
      simp only [List.flatten_cons, Nat.mul_zero, List.append_assoc]
      unfold sub
      rw [List.drop_zero, List.take_append_eq_append_take,
        List.take_of_length_le (show a.length ≤ 16 by omega),
        show 16 - a.length = 0 by omega]
      simp
    | succ i =>
      simp only [List.flatten_cons, List.append_assoc]
      rw [show (16 : Nat) * (i + 1) = a.length + 16 * i by omega,
        sub_append_right]
      exact ih B i (by omega)

/-- The scan of the mini-server never shrinks the reply-body length it
starts from. -/
theorem hcr_scan_iov1_ge (buf : List Nat) (iface : relayd_interface) :
    ∀ (L : List (Nat × Nat × Nat)) (st : Nat × List Nat × Nat × Nat) (r),
      hcr_scan buf iface L st = some r → st.2.2.1 ≤ r.2.2.1 := by
  intro L
  induction L with
  | nil =>
    intro st r hr
    simp only [hcr_scan] at hr
    cases hr
    exact Nat.le_refl _
  | cons e rest ih =>
    intro st r hr
    obtain ⟨pos, t, l⟩ := e
    obtain ⟨cid, cbuf, iov1, iov2⟩ := st
    simp only [hcr_scan] at hr
    by_cases h1 : (t == DHCPV6_OPT_CLIENTID && decide (l ≤ 130)) = true
    · rw [if_pos h1] at hr
      have := ih _ _ hr
      simp at this ⊢
      omega
    · rw [if_neg h1] at hr
      by_cases h2 : (t == DHCPV6_OPT_SERVERID) = true
      · rw [if_pos h2] at hr
        by_cases h3 : (l == 10 && (sub buf (pos + 4) 10 ==
            be16 3 ++ be16 1 ++ fix6 iface.mac)) = true
        · rw [if_pos h3] at hr
          exact ih _ _ hr
        · rw [if_neg h3] at hr
          cases hr
      · rw [if_neg h2] at hr
        by_cases h4 : (t == DHCPV6_OPT_IA_NA) = true
        · rw [if_pos h4] at hr
          simpa using ih _ _ hr
        · rw [if_neg h4] at hr
          exact ih _ _ hr

/-- Every reply the mini-server emits for a non-nested request carries, as
its DNS Server address (reply bytes 8..24), exactly the address found by
`relayd_get_interface_address` with `allow_linklocal = true`. -/
theorem handle_client_request_dns_addr (env : AddrEnv) (data : List Nat)
    (iface : relayd_interface) (r : List Nat)
    (hnf : (byteAt data 0 == DHCPV6_MSG_RELAY_FORW) = false)
    (hr : handle_client_request env data iface = some r) :
    ∃ a, relayd_get_interface_address env iface.ifname true = some a ∧
      sub r 8 16 = fix16 a := by
  unfold handle_client_request at hr
  by_cases hlen : data.length < 4
  · rw [if_pos hlen] at hr
    cases hr
  · rw [if_neg hlen] at hr
    simp only [hnf, Bool.false_eq_true, if_false] at hr
    by_cases hreb : (byteAt data (4 - 4) == DHCPV6_MSG_REBIND) = true
    · rw [if_pos hreb] at hr
      cases hr
    · rw [if_neg hreb] at hr
      cases hscan : hcr_scan data iface
          (dhcpv6_option_offsets data data.length 4)
          (0, List.replicate 130 0, 38, 0) with
      | none => rw [hscan] at hr; cases hr
      | some st =>
        obtain ⟨cidLen, cbuf, iov1len, iov2len⟩ := st
        rw [hscan] at hr
        simp only [Nat.lt_irrefl, if_false] at hr
        cases henv : relayd_get_interface_address env iface.ifname true with
        | none => rw [henv] at hr; cases hr
        | some a =>
          rw [henv] at hr
          simp only [Option.some.injEq] at hr
          refine ⟨a, rfl, ?_⟩
          have h38 : 38 ≤ iov1len := by
            have := hcr_scan_iov1_ge data iface _ _ _ hscan
            simpa using this
          have hsub3 : (sub data 1 3).length = 3 := by
            simp only [sub, List.length_take, List.length_drop]
            omega
          have hzero : sub data 0 0 = [] := by
            simp [sub]
          rw [hzero] at hr
          simp only [List.nil_append, List.append_nil] at hr
          subst hr
          have hD : (byteAt data (4 - 4) == DHCPV6_MSG_SOLICIT |>.rec
              DHCPV6_MSG_REPLY DHCPV6_MSG_ADVERTISE) = (if (byteAt data
              (4 - 4) == DHCPV6_MSG_SOLICIT) = true then DHCPV6_MSG_ADVERTISE
              else DHCPV6_MSG_REPLY) := by
            cases byteAt data (4 - 4) == DHCPV6_MSG_SOLICIT <;> rfl
          rw [sub_append_left _ _ 8 16 (by
            simp only [List.length_take, List.length_cons, List.length_append,
              be16, fix16_length, hsub3, List.length_nil]
            omega)]
          rw [sub_take _ iov1len 8 16 (by omega)]
          rw [show ((if (byteAt data (4 - 4) == DHCPV6_MSG_SOLICIT) = true then
              DHCPV6_MSG_ADVERTISE else DHCPV6_MSG_REPLY) : Nat) ::
              sub data 1 3 ++ be16 DHCPV6_OPT_DNS_SERVERS ++ be16 16 ++
              fix16 a ++ be16 DHCPV6_OPT_SERVERID ++ be16 10 ++ be16 3 ++
              be16 1 ++ fix6 iface.mac ++ be16 DHCPV6_OPT_CLIENTID ++
              be16 cidLen ++ cbuf =
            ((if (byteAt data (4 - 4) == DHCPV6_MSG_SOLICIT) = true then
              DHCPV6_MSG_ADVERTISE else DHCPV6_MSG_REPLY) ::
              sub data 1 3 ++ be16 DHCPV6_OPT_DNS_SERVERS ++ be16 16) ++
              (fix16 a ++ (be16 DHCPV6_OPT_SERVERID ++ be16 10 ++ be16 3 ++
              be16 1 ++ fix6 iface.mac ++ be16 DHCPV6_OPT_CLIENTID ++
              be16 cidLen ++ cbuf)) from by
            simp [List.append_assoc]]
          exact sub_exact _ _ _ 8 16 (by
              simp only [List.length_append, List.length_cons, hsub3, be16]
              simp) (fix16_length a)

/-- The standard server-to-client path on a canonical RELAY-REPL (one
INTERFACE_ID option, one RELAY_MSG whose payload carries one DNS_SERVERS
option), with DNS rewriting forced: the payload is forwarded to the peer
with every DNS slot replaced by the address the registry lookup (with
`allow_linklocal = true`) returns for the ingress slave. -/
theorem relay_server_response_dns_rewrite (cfg : relayd_config)
    (env : AddrEnv) (hd C4 dv : List Nat) (idx : Nat) (a : List Nat)
    (iface : relayd_interface)
    (hhd : hd.length = 34) (hhd0 : byteAt hd 0 = DHCPV6_MSG_RELAY_REPL)
    (hC4 : C4.length = 4)
    (hC40 : (byteAt C4 0 == DHCPV6_MSG_RELAY_REPL) = false)
    (hidx : idx < 4294967296)
    (hfind : cfg.slaves.find? (fun s => s.ifindex == idx) = some iface)
    (hdv16 : 16 ≤ dv.length) (hdvm : dv.length % 16 = 0)
    (hdvlt : dv.length + 8 < 65536)
    (hrw : cfg.always_rewrite_dns = true)
    (henv : relayd_get_interface_address env iface.ifname true = some a) :
    relay_server_response cfg env
        (hd ++ encodeOpts [(DHCPV6_OPT_INTERFACE_ID, le32 idx),
          (DHCPV6_OPT_RELAY_MSG,
            C4 ++ encodeOpts [(DHCPV6_OPT_DNS_SERVERS, dv)])]) =
      some (iface.ifindex, sub hd 18 16, DHCPV6_CLIENT_PORT,
        C4 ++ be16 DHCPV6_OPT_DNS_SERVERS ++ be16 dv.length ++
          (List.replicate (dv.length / 16) (fix16 a)).flatten) := by
  have hPlen : (C4 ++ encodeOpts [(DHCPV6_OPT_DNS_SERVERS, dv)]).length =
      dv.length + 8 := by
    simp [encodeOpts, encodeOpt, be16, hC4]
    omega
  have hwf : optsWF [(DHCPV6_OPT_INTERFACE_ID, le32 idx),
      (DHCPV6_OPT_RELAY_MSG,
        C4 ++ encodeOpts [(DHCPV6_OPT_DNS_SERVERS, dv)])] := by
    intro o ho
    rcases List.mem_cons.mp ho with rfl | ho
    · constructor
      · norm_num [DHCPV6_OPT_INTERFACE_ID]
      · show (le32 idx).length < 65536
        simp [le32]
    · rcases List.mem_cons.mp ho with rfl | ho
      · constructor
        · norm_num [DHCPV6_OPT_RELAY_MSG]
        · show (C4 ++ encodeOpts [(DHCPV6_OPT_DNS_SERVERS, dv)]).length < 65536
          rw [hPlen]; omega
      · simp at ho
  have hwalkO : dhcpv6_option_offsets
      (hd ++ encodeOpts [(DHCPV6_OPT_INTERFACE_ID, le32 idx),
        (DHCPV6_OPT_RELAY_MSG, C4 ++ encodeOpts [(DHCPV6_OPT_DNS_SERVERS, dv)])])
      (hd ++ encodeOpts [(DHCPV6_OPT_INTERFACE_ID, le32 idx),
        (DHCPV6_OPT_RELAY_MSG,
          C4 ++ encodeOpts [(DHCPV6_OPT_DNS_SERVERS, dv)])]).length 34 =
      [(34, DHCPV6_OPT_INTERFACE_ID, 4),
        (42, DHCPV6_OPT_RELAY_MSG, dv.length + 8)] := by
    rw [← hhd, dhcpv6_offsets_encode _ hd hwf]
    simp only [dhcpv6_offsets_spec, hPlen]
    rw [hhd]
    norm_num [le32]
  have hread : readLE32 (hd ++ encodeOpts [(DHCPV6_OPT_INTERFACE_ID, le32 idx),
      (DHCPV6_OPT_RELAY_MSG, C4 ++ encodeOpts [(DHCPV6_OPT_DNS_SERVERS, dv)])])
      38 = idx := by
    rw [show (38 : Nat) =
      (hd ++ be16 DHCPV6_OPT_INTERFACE_ID ++ be16 (le32 idx).length).length + 0
      from by simp [be16, le32, hhd]]
    rw [show hd ++ encodeOpts [(DHCPV6_OPT_INTERFACE_ID, le32 idx),
        (DHCPV6_OPT_RELAY_MSG, C4 ++ encodeOpts [(DHCPV6_OPT_DNS_SERVERS, dv)])] =
      (hd ++ be16 DHCPV6_OPT_INTERFACE_ID ++ be16 (le32 idx).length) ++
        (le32 idx ++ encodeOpts [(DHCPV6_OPT_RELAY_MSG,
          C4 ++ encodeOpts [(DHCPV6_OPT_DNS_SERVERS, dv)])]) from by
        simp [encodeOpts, encodeOpt, List.append_assoc]]
    rw [readLE32_append_right]
    exact le32_readLE32 idx hidx _
  have hdata2 : hd ++ encodeOpts [(DHCPV6_OPT_INTERFACE_ID, le32 idx),
      (DHCPV6_OPT_RELAY_MSG, C4 ++ encodeOpts [(DHCPV6_OPT_DNS_SERVERS, dv)])] =
      (hd ++ (be16 DHCPV6_OPT_INTERFACE_ID ++ be16 4 ++ le32 idx) ++
        be16 DHCPV6_OPT_RELAY_MSG ++ be16 (dv.length + 8) ++ C4) ++
        encodeOpts [(DHCPV6_OPT_DNS_SERVERS, dv)] := by
    simp only [encodeOpts, encodeOpt, hPlen, List.append_assoc,
      List.append_nil]
    norm_num [le32]
    congr 1
    simp [be16, hC4]
    omega
  have hA50 : (hd ++ (be16 DHCPV6_OPT_INTERFACE_ID ++ be16 4 ++ le32 idx) ++
      be16 DHCPV6_OPT_RELAY_MSG ++ be16 (dv.length + 8) ++ C4).length = 50 := by
    simp [be16, le32, hhd, hC4]
  have hwfI : optsWF [(DHCPV6_OPT_DNS_SERVERS, dv)] := by
    intro o ho
    rcases List.mem_cons.mp ho with rfl | ho
    · exact ⟨by norm_num [DHCPV6_OPT_DNS_SERVERS],
        show dv.length < 65536 by omega⟩
    · simp at ho
  have hwalkI : dhcpv6_option_offsets
      (hd ++ encodeOpts [(DHCPV6_OPT_INTERFACE_ID, le32 idx),
        (DHCPV6_OPT_RELAY_MSG, C4 ++ encodeOpts [(DHCPV6_OPT_DNS_SERVERS, dv)])])
      (46 + (dv.length + 8)) 50 = [(50, DHCPV6_OPT_DNS_SERVERS, dv.length)] := by
    have henc := dhcpv6_offsets_encode [(DHCPV6_OPT_DNS_SERVERS, dv)]
      (hd ++ (be16 DHCPV6_OPT_INTERFACE_ID ++ be16 4 ++ le32 idx) ++
        be16 DHCPV6_OPT_RELAY_MSG ++ be16 (dv.length + 8) ++ C4) hwfI
    rw [hA50] at henc
    have hlenE : ((hd ++ (be16 DHCPV6_OPT_INTERFACE_ID ++ be16 4 ++ le32 idx) ++
        be16 DHCPV6_OPT_RELAY_MSG ++ be16 (dv.length + 8) ++ C4) ++
        encodeOpts [(DHCPV6_OPT_DNS_SERVERS, dv)]).length =
        46 + (dv.length + 8) := by
      simp [be16, le32, hhd, hC4, encodeOpts, encodeOpt]
      omega
    rw [hlenE, ← hdata2] at henc
    rw [henc]
    simp [dhcpv6_offsets_spec]
  have hb46 : (byteAt (hd ++ encodeOpts [(DHCPV6_OPT_INTERFACE_ID, le32 idx),
      (DHCPV6_OPT_RELAY_MSG, C4 ++ encodeOpts [(DHCPV6_OPT_DNS_SERVERS, dv)])])
      46 == DHCPV6_MSG_RELAY_REPL) = false := by
    have h1 : byteAt (hd ++ encodeOpts [(DHCPV6_OPT_INTERFACE_ID, le32 idx),
        (DHCPV6_OPT_RELAY_MSG, C4 ++ encodeOpts [(DHCPV6_OPT_DNS_SERVERS, dv)])])
        46 = byteAt C4 0 := by
      rw [show (46 : Nat) =
        (hd ++ (be16 DHCPV6_OPT_INTERFACE_ID ++ be16 4 ++ le32 idx) ++
          be16 DHCPV6_OPT_RELAY_MSG ++ be16 (dv.length + 8)).length + 0 from by
        simp [be16, le32, hhd]]
      rw [show hd ++ encodeOpts [(DHCPV6_OPT_INTERFACE_ID, le32 idx),
          (DHCPV6_OPT_RELAY_MSG, C4 ++ encodeOpts [(DHCPV6_OPT_DNS_SERVERS, dv)])] =
        (hd ++ (be16 DHCPV6_OPT_INTERFACE_ID ++ be16 4 ++ le32 idx) ++
          be16 DHCPV6_OPT_RELAY_MSG ++ be16 (dv.length + 8)) ++
          (C4 ++ encodeOpts [(DHCPV6_OPT_DNS_SERVERS, dv)]) from by
        rw [hdata2]
        simp [List.append_assoc]]
      rw [byteAt_append_right]
      exact byteAt_append_left C4 _ 0 (by omega)
    rw [h1]
    exact hC40
  have hb0 : byteAt (hd ++ encodeOpts [(DHCPV6_OPT_INTERFACE_ID, le32 idx),
      (DHCPV6_OPT_RELAY_MSG, C4 ++ encodeOpts [(DHCPV6_OPT_DNS_SERVERS, dv)])])
      0 = DHCPV6_MSG_RELAY_REPL := by
    rw [byteAt_append_left hd _ 0 (by omega)]
    exact hhd0
  have hcond : ¬ ((hd ++ encodeOpts [(DHCPV6_OPT_INTERFACE_ID, le32 idx),
      (DHCPV6_OPT_RELAY_MSG,
        C4 ++ encodeOpts [(DHCPV6_OPT_DNS_SERVERS, dv)])]).length < 34 ∨
      byteAt (hd ++ encodeOpts [(DHCPV6_OPT_INTERFACE_ID, le32 idx),
        (DHCPV6_OPT_RELAY_MSG, C4 ++ encodeOpts [(DHCPV6_OPT_DNS_SERVERS, dv)])])
        0 ≠ DHCPV6_MSG_RELAY_REPL) := by
    push_neg
    constructor
    · rw [List.length_append, hhd]
      omega
    · exact hb0
  have hbI : ((DHCPV6_OPT_INTERFACE_ID == DHCPV6_OPT_INTERFACE_ID) &&
      ((4 : Nat) == 4)) = true := by decide
  have hbR1 : ((DHCPV6_OPT_RELAY_MSG == DHCPV6_OPT_INTERFACE_ID) &&
      ((dv.length + 8) == 4)) = false := by
    simp [DHCPV6_OPT_RELAY_MSG, DHCPV6_OPT_INTERFACE_ID]
  have hbR2 : ((DHCPV6_OPT_RELAY_MSG : Nat) == DHCPV6_OPT_RELAY_MSG) = true := by
    decide
  have hbD : ((DHCPV6_OPT_DNS_SERVERS == DHCPV6_OPT_DNS_SERVERS) &&
      decide (16 ≤ dv.length)) = true := by
    simp [hdv16]
  have hflatlen : ∀ (n : Nat) (l : List Nat),
      ((List.replicate n l).flatten).length = n * l.length := by
    intro n l
    induction n with
    | zero => simp
    | succ k ih => simp [List.replicate_succ, ih, Nat.succ_mul]; omega
  have hwrite : write_dns_slots (fix16 a) (dv.length / 16) 54
      (hd ++ encodeOpts [(DHCPV6_OPT_INTERFACE_ID, le32 idx),
        (DHCPV6_OPT_RELAY_MSG, C4 ++ encodeOpts [(DHCPV6_OPT_DNS_SERVERS, dv)])]) =
      (hd ++ (be16 DHCPV6_OPT_INTERFACE_ID ++ be16 4 ++ le32 idx) ++
        be16 DHCPV6_OPT_RELAY_MSG ++ be16 (dv.length + 8) ++ C4 ++
        be16 DHCPV6_OPT_DNS_SERVERS ++ be16 dv.length) ++
        (List.replicate (dv.length / 16) (fix16 a)).flatten ++ [] := by
    have hA54 : (hd ++ (be16 DHCPV6_OPT_INTERFACE_ID ++ be16 4 ++ le32 idx) ++
        be16 DHCPV6_OPT_RELAY_MSG ++ be16 (dv.length + 8) ++ C4 ++
        be16 DHCPV6_OPT_DNS_SERVERS ++ be16 dv.length).length = 54 := by
      simp [be16, le32, hhd, hC4]
    rw [show hd ++ encodeOpts [(DHCPV6_OPT_INTERFACE_ID, le32 idx),
        (DHCPV6_OPT_RELAY_MSG, C4 ++ encodeOpts [(DHCPV6_OPT_DNS_SERVERS, dv)])] =
      (hd ++ (be16 DHCPV6_OPT_INTERFACE_ID ++ be16 4 ++ le32 idx) ++
        be16 DHCPV6_OPT_RELAY_MSG ++ be16 (dv.length + 8) ++ C4 ++
        be16 DHCPV6_OPT_DNS_SERVERS ++ be16 dv.length) ++ dv ++ [] from by
      rw [hdata2]
      simp [encodeOpts, encodeOpt, List.append_assoc]]
    rw [show (54 : Nat) = (hd ++ (be16 DHCPV6_OPT_INTERFACE_ID ++ be16 4 ++
        le32 idx) ++ be16 DHCPV6_OPT_RELAY_MSG ++ be16 (dv.length + 8) ++ C4 ++
        be16 DHCPV6_OPT_DNS_SERVERS ++ be16 dv.length).length from hA54.symm]
    exact write_dns_slots_replace (fix16 a) (fix16_length a) _ _ dv [] (by omega)
  have hsub18 : sub (hd ++ encodeOpts [(DHCPV6_OPT_INTERFACE_ID, le32 idx),
      (DHCPV6_OPT_RELAY_MSG, C4 ++ encodeOpts [(DHCPV6_OPT_DNS_SERVERS, dv)])])
      18 16 = sub hd 18 16 :=
    sub_append_left hd _ 18 16 (by omega)
  unfold relay_server_response
  rw [if_neg hcond, hwalkO]
  simp only [rsr_scan, hbI, hbR1, hbR2, Bool.false_eq_true, if_true, if_false,
    hread, hfind]
  rw [if_neg (show ¬ (dv.length + 8 < 4) by omega)]
  simp only [hb46, Bool.false_eq_true, if_false]
  rw [show (42 : Nat) + 4 = 46 from rfl, show (46 : Nat) + 4 = 50 from rfl,
    hwalkI]
  simp only [rsr_inner_scan, hbD, if_true, hrw, Bool.true_or]
  rw [show (50 : Nat) + 4 = 54 from rfl]
  simp only [Bool.true_and, decide_eq_true_eq]
  rw [if_pos (show 0 < dv.length / 16 by omega)]
  simp only [Bool.false_eq_true, if_false, henv]
  rw [hwrite]
  rw [show ((hd ++ (be16 DHCPV6_OPT_INTERFACE_ID ++ be16 4 ++ le32 idx) ++
      be16 DHCPV6_OPT_RELAY_MSG ++ be16 (dv.length + 8) ++ C4 ++
      be16 DHCPV6_OPT_DNS_SERVERS ++ be16 dv.length) ++
      (List.replicate (dv.length / 16) (fix16 a)).flatten ++ []) =
    (hd ++ (be16 DHCPV6_OPT_INTERFACE_ID ++ be16 4 ++ le32 idx) ++
      be16 DHCPV6_OPT_RELAY_MSG ++ be16 (dv.length + 8)) ++
      (C4 ++ be16 DHCPV6_OPT_DNS_SERVERS ++ be16 dv.length ++
        (List.replicate (dv.length / 16) (fix16 a)).flatten) from by
    simp [List.append_assoc]]
  rw [sub_exact2 _ _ 46 (dv.length + 8)
    (by simp [be16, le32, hhd])
    (by
      simp only [List.length_append, hC4, be16, List.length_cons,
        List.length_nil, hflatlen, fix16_length]
      omega)]
  rw [hsub18]

/-- A RELAY-REPL header fixture: type 13, hop 0, zero link address, a
global peer address. -/
def rsrHd : List Nat :=
  13 :: 0 :: List.replicate 16 0 ++ (32 :: 5 :: List.replicate 14 9)

/-- The inner client header fixture (REPLY, transaction id 1 2 3). -/
def rsrC4 : List Nat := [7, 1, 2, 3]

/-- A DNS_SERVERS value fixture with two addresses. -/
def rsrDns : List Nat := addrLL ++ addrGlobal

/-- A canonical RELAY-REPL carrying INTERFACE_ID 2 and a REPLY with one
DNS_SERVERS option. -/
def rsrPkt : List Nat :=
  rsrHd ++ encodeOpts [(DHCPV6_OPT_INTERFACE_ID, le32 2),
    (DHCPV6_OPT_RELAY_MSG, rsrC4 ++ encodeOpts [(DHCPV6_OPT_DNS_SERVERS, rsrDns)])]

/-- A DHCPv6-relay configuration with DNS rewriting forced. -/
def cfgRSR : relayd_config :=
  { master := ifWan
    slaves := [ifLan, ifLan2]
    enable_dhcpv6_relay := true
    always_rewrite_dns := true }

/-- An address registry whose FIRST entry for the slave `lan` is
link-local; a global address follows. -/
def envLLfirst : AddrEnv := [("lan", addrLL), ("lan", addrGlobal2)]

/-- A Solicit fixture for the mini-server conjunct. -/
def solC9 : List Nat :=
  [1, 5, 6, 7] ++ encodeOpts [(DHCPV6_OPT_CLIENTID, [222, 173])]

set_option maxRecDepth 10000 in
/-- **C9** fails as stated: both DNS-writing paths call
`relayd_get_interface_address` with `allow_linklocal = true`, so when the
registry lists a link-local address first for the slave, the DNS addresses
written toward the client are that link-local address — even though a
global address of the same slave exists further down the list. -/
theorem dns_rewrite_ingress_counterexample :
    (relay_server_response cfgRSR envLLfirst rsrPkt).isSome = true ∧
    sub ((relay_server_response cfgRSR envLLfirst rsrPkt).getD
      (0, [], 0, [])).2.2.2 8 16 = addrLL ∧
    (handle_client_request envLLfirst solC9 ifLan).isSome = true ∧
    sub ((handle_client_request envLLfirst solC9 ifLan).getD []) 8 16 =
      addrLL ∧
    isLinkLocal addrLL = true ∧
    List.contains (envLLfirst : List (String × List Nat))
      ("lan", addrGlobal2) = true ∧
    isLinkLocal addrGlobal2 = false := by
  decide

/-- **C9** (amended). Whenever the DHCPv6 engine rewrites or emits DNS
Server addresses toward a client, every DNS address written is the FIRST
address the interface registry lists for the ingress slave — looked up
with `allow_linklocal = true`, so it is not necessarily global.  On a
canonical RELAY-REPL (one INTERFACE_ID option, one RELAY_MSG whose payload
carries one DNS_SERVERS option) with DNS rewriting forced, the forwarded
payload carries that address in every DNS slot; and every non-nested
mini-server reply carries that address as its DNS Server option value.
As literally stated the claim is false: the address used is whatever the
registry lists first, link-local included (see the counterexample, where a
global address of the slave exists but a link-local one is written). -/
theorem dns_rewrite_ingress_address (cfg : relayd_config)
    (env : AddrEnv) (hd C4 dv : List Nat) (idx : Nat) (a : List Nat)
    (iface : relayd_interface)
    (hhd : hd.length = 34) (hhd0 : byteAt hd 0 = DHCPV6_MSG_RELAY_REPL)
    (hC4 : C4.length = 4)
    (hC40 : (byteAt C4 0 == DHCPV6_MSG_RELAY_REPL) = false)
    (hidx : idx < 4294967296)
    (hfind : cfg.slaves.find? (fun s => s.ifindex == idx) = some iface)
    (hdv16 : 16 ≤ dv.length) (hdvm : dv.length % 16 = 0)
    (hdvlt : dv.length + 8 < 65536)
    (hrw : cfg.always_rewrite_dns = true)
    (henv : relayd_get_interface_address env iface.ifname true = some a) :
    relay_server_response cfg env
        (hd ++ encodeOpts [(DHCPV6_OPT_INTERFACE_ID, le32 idx),
          (DHCPV6_OPT_RELAY_MSG,
            C4 ++ encodeOpts [(DHCPV6_OPT_DNS_SERVERS, dv)])]) =
      some (iface.ifindex, sub hd 18 16, DHCPV6_CLIENT_PORT,
        C4 ++ be16 DHCPV6_OPT_DNS_SERVERS ++ be16 dv.length ++
          (List.replicate (dv.length / 16) (fix16 a)).flatten) ∧
    (∀ i < dv.length / 16,
      sub (C4 ++ be16 DHCPV6_OPT_DNS_SERVERS ++ be16 dv.length ++
          (List.replicate (dv.length / 16) (fix16 a)).flatten)
        (8 + 16 * i) 16 = fix16 a) ∧
    (∀ (data r : List Nat) (iface' : relayd_interface),
      (byteAt data 0 == DHCPV6_MSG_RELAY_FORW) = false →
      handle_client_request env data iface' = some r →
      ∃ b, relayd_get_interface_address env iface'.ifname true = some b ∧
        sub r 8 16 = fix16 b) := by
  refine ⟨relay_server_response_dns_rewrite cfg env hd C4 dv idx a iface
    hhd hhd0 hC4 hC40 hidx hfind hdv16 hdvm hdvlt hrw henv, ?_,
    fun data r iface' hnf hr =>
      handle_client_request_dns_addr env data iface' r hnf hr⟩
  intro i hi
  rw [show (8 : Nat) + 16 * i =
    (C4 ++ be16 DHCPV6_OPT_DNS_SERVERS ++ be16 dv.length).length + 16 * i
    from by simp [be16, hC4]]
  rw [sub_append_right]
  have hj := join_replicate_slot (fix16 a) (fix16_length a)
    (dv.length / 16) [] i hi
  rw [List.append_nil] at hj
  exact hj

/-- Witness for the amended C9 at the canonical concrete reply and registry
whose first `lan` entry is link-local. -/
theorem dns_rewrite_ingress_address_witness :
    (rsrHd.length = 34 ∧ cfgRSR.always_rewrite_dns = true ∧
      relayd_get_interface_address envLLfirst ifLan.ifname true =
        some addrLL ∧ 16 ≤ rsrDns.length) ∧
    (relay_server_response cfgRSR envLLfirst
        (rsrHd ++ encodeOpts [(DHCPV6_OPT_INTERFACE_ID, le32 2),
          (DHCPV6_OPT_RELAY_MSG,
            rsrC4 ++ encodeOpts [(DHCPV6_OPT_DNS_SERVERS, rsrDns)])]) =
      some (ifLan.ifindex, sub rsrHd 18 16, DHCPV6_CLIENT_PORT,
        rsrC4 ++ be16 DHCPV6_OPT_DNS_SERVERS ++ be16 rsrDns.length ++
          (List.replicate (rsrDns.length / 16) (fix16 addrLL)).flatten) ∧
    (∀ i < rsrDns.length / 16,
      sub (rsrC4 ++ be16 DHCPV6_OPT_DNS_SERVERS ++ be16 rsrDns.length ++
          (List.replicate (rsrDns.length / 16) (fix16 addrLL)).flatten)
        (8 + 16 * i) 16 = fix16 addrLL) ∧
    (∀ (data r : List Nat) (iface' : relayd_interface),
      (byteAt data 0 == DHCPV6_MSG_RELAY_FORW) = false →
      handle_client_request envLLfirst data iface' = some r →
      ∃ b, relayd_get_interface_address envLLfirst iface'.ifname true =
        some b ∧ sub r 8 16 = fix16 b)) :=
  ⟨⟨by decide, by decide, by decide, by decide⟩,
    dns_rewrite_ingress_address cfgRSR envLLfirst rsrHd rsrC4 rsrDns 2
      addrLL ifLan (by decide) (by decide) (by decide) (by decide)
      (by decide) (by decide) (by decide) (by decide) (by decide)
      (by decide) (by decide)⟩

theorem dhcpv6_offsets_spec_types :
    ∀ (T : List (Nat × List Nat)) (pos : Nat), ∀ e ∈ dhcpv6_offsets_spec pos T,
      ∃ o ∈ T, e.2.1 = o.1 ∧ e.2.2 = o.2.length := by
  intro T
  induction T with
  | nil => intro pos e he; simp [dhcpv6_offsets_spec] at he
  | cons o rest ih =>
    intro pos e he
    simp only [dhcpv6_offsets_spec, List.mem_cons] at he
    rcases he with rfl | he
    · exact ⟨o, List.mem_cons_self o rest, rfl, rfl⟩
    · obtain ⟨o', ho', h1, h2⟩ := ih _ e he
      exact ⟨o', List.mem_cons_of_mem o ho', h1, h2⟩

theorem hcr_scan_append (buf : List Nat) (iface : relayd_interface) :
    ∀ (X Y : List (Nat × Nat × Nat)) (st : Nat × List Nat × Nat × Nat),
      hcr_scan buf iface (X ++ Y) st =
        match hcr_scan buf iface X st with
        | none => none
        | some st' => hcr_scan buf iface Y st' := by
  intro X
  induction X with
  | nil => intro Y st; rfl
  | cons e X ih =>
    intro Y st
    obtain ⟨pos, t, l⟩ := e
    obtain ⟨cid, cbuf, iov1, iov2⟩ := st
    simp only [List.cons_append, hcr_scan]
    by_cases h1 : (t == DHCPV6_OPT_CLIENTID && decide (l ≤ 130)) = true
    · rw [if_pos h1, if_pos h1]
      exact ih _ _
    · rw [if_neg h1, if_neg h1]
      by_cases h2 : (t == DHCPV6_OPT_SERVERID) = true
      · rw [if_pos h2, if_pos h2]
        by_cases h3 : (l == 10 && (sub buf (pos + 4) 10 ==
            be16 3 ++ be16 1 ++ fix6 iface.mac)) = true
        · rw [if_pos h3, if_pos h3]
          exact ih _ _
        · rw [if_neg h3, if_neg h3]
      · rw [if_neg h2, if_neg h2]
        by_cases h4 : (t == DHCPV6_OPT_IA_NA) = true
        · rw [if_pos h4, if_pos h4]
          exact ih _ _
        · rw [if_neg h4, if_neg h4]
          exact ih _ _

theorem hcr_scan_skip (buf : List Nat) (iface : relayd_interface) :
    ∀ (E : List (Nat × Nat × Nat)) (st : Nat × List Nat × Nat × Nat),
      (∀ e ∈ E, e.2.1 ≠ DHCPV6_OPT_CLIENTID ∧ e.2.1 ≠ DHCPV6_OPT_SERVERID ∧
        e.2.1 ≠ DHCPV6_OPT_IA_NA) →
      hcr_scan buf iface E st = some st := by
  intro E
  induction E with
  | nil => intro st _; rfl
  | cons e E ih =>
    intro st h
    obtain ⟨h1, h2, h3⟩ := h e (List.mem_cons_self e E)
    obtain ⟨pos, t, l⟩ := e
    obtain ⟨cid, cbuf, iov1, iov2⟩ := st
    simp only at h1 h2 h3
    simp only [hcr_scan]
    rw [if_neg (by simp [h1]), if_neg (by simp [h2]), if_neg (by simp [h3])]
    exact ih _ (fun x hx => h x (List.mem_cons_of_mem _ hx))

theorem dhcpv6_offsets_spec_append :
    ∀ (T₁ T₂ : List (Nat × List Nat)) (pos : Nat),
      dhcpv6_offsets_spec pos (T₁ ++ T₂) =
        dhcpv6_offsets_spec pos T₁ ++
          dhcpv6_offsets_spec (pos + (encodeOpts T₁).length) T₂ := by
  intro T₁
  induction T₁ with
  | nil => intro T₂ pos; simp [dhcpv6_offsets_spec, encodeOpts]
  | cons o rest ih =>
    intro T₂ pos
    simp only [List.cons_append, dhcpv6_offsets_spec, List.append_eq]
    rw [ih]
    have : pos + 4 + o.2.length + (encodeOpts rest).length =
        pos + (encodeOpts (o :: rest)).length := by
      simp [encodeOpts, encodeOpt, be16]
      omega
    rw [this]

theorem fix6_length (m : List Nat) : (fix6 m).length = 6 := by
  simp [fix6]
  omega

set_option maxRecDepth 10000 in
/-- On a non-nested request carrying exactly one Client-ID (at most 130
bytes) and no Server-ID or IA_NA options, the mini-server replies with
Advertise (for a Solicit) or Reply, echoing the 3-byte transaction id, and
its reply is a well-formed message carrying the DNS option, our Server-ID
and the client's Client-ID byte-for-byte. -/
theorem handle_client_request_roundtrip (env : AddrEnv)
    (iface : relayd_interface) (a : List Nat) (mt t1 t2 t3 : Nat)
    (v : List Nat) (pre post : List (Nat × List Nat))
    (hwfpre : optsWF pre) (hwfpost : optsWF post)
    (hno : ∀ o ∈ pre ++ post, o.1 ≠ DHCPV6_OPT_CLIENTID ∧
      o.1 ≠ DHCPV6_OPT_SERVERID ∧ o.1 ≠ DHCPV6_OPT_IA_NA)
    (hv : v.length ≤ 130)
    (hmt1 : (mt == DHCPV6_MSG_RELAY_FORW) = false)
    (hmt2 : (mt == DHCPV6_MSG_REBIND) = false)
    (henv : relayd_get_interface_address env iface.ifname true = some a) :
    handle_client_request env
        ([mt, t1, t2, t3] ++
          encodeOpts (pre ++ (DHCPV6_OPT_CLIENTID, v) :: post)) iface =
      some ((if (mt == DHCPV6_MSG_SOLICIT) = true then DHCPV6_MSG_ADVERTISE
          else DHCPV6_MSG_REPLY) :: [t1, t2, t3] ++
        encodeOpts [(DHCPV6_OPT_DNS_SERVERS, fix16 a),
          (DHCPV6_OPT_SERVERID, be16 3 ++ be16 1 ++ fix6 iface.mac),
          (DHCPV6_OPT_CLIENTID, v)]) := by
  have hwfT : optsWF (pre ++ (DHCPV6_OPT_CLIENTID, v) :: post) := by
    intro o ho
    rcases List.mem_append.mp ho with h | h
    · exact hwfpre o h
    · rcases List.mem_cons.mp h with rfl | h
      · exact ⟨by norm_num [DHCPV6_OPT_CLIENTID],
          show v.length < 65536 by omega⟩
      · exact hwfpost o h
  have hwalk : dhcpv6_option_offsets
      ([mt, t1, t2, t3] ++
        encodeOpts (pre ++ (DHCPV6_OPT_CLIENTID, v) :: post))
      ([mt, t1, t2, t3] ++
        encodeOpts (pre ++ (DHCPV6_OPT_CLIENTID, v) :: post)).length 4 =
      dhcpv6_offsets_spec 4 (pre ++ (DHCPV6_OPT_CLIENTID, v) :: post) := by
    exact dhcpv6_offsets_encode _ [mt, t1, t2, t3] hwfT
  have hskip_pre : ∀ e ∈ dhcpv6_offsets_spec 4 pre,
      e.2.1 ≠ DHCPV6_OPT_CLIENTID ∧ e.2.1 ≠ DHCPV6_OPT_SERVERID ∧
        e.2.1 ≠ DHCPV6_OPT_IA_NA := by
    intro e he
    obtain ⟨o, ho, h1, _⟩ := dhcpv6_offsets_spec_types pre 4 e he
    have h2 := hno o (List.mem_append_left post ho)
    exact ⟨h1 ▸ h2.1, h1 ▸ h2.2.1, h1 ▸ h2.2.2⟩
  have hskip_post : ∀ e ∈ dhcpv6_offsets_spec
      (4 + (encodeOpts pre).length + 4 + v.length) post,
      e.2.1 ≠ DHCPV6_OPT_CLIENTID ∧ e.2.1 ≠ DHCPV6_OPT_SERVERID ∧
        e.2.1 ≠ DHCPV6_OPT_IA_NA := by
    intro e he
    obtain ⟨o, ho, h1, _⟩ := dhcpv6_offsets_spec_types post _ e he
    have h2 := hno o (List.mem_append_right pre ho)
    exact ⟨h1 ▸ h2.1, h1 ▸ h2.2.1, h1 ▸ h2.2.2⟩
  have hsubv : sub ([mt, t1, t2, t3] ++
      encodeOpts (pre ++ (DHCPV6_OPT_CLIENTID, v) :: post))
      (4 + (encodeOpts pre).length + 4) v.length = v := by
    rw [show [mt, t1, t2, t3] ++
        encodeOpts (pre ++ (DHCPV6_OPT_CLIENTID, v) :: post) =
      ([mt, t1, t2, t3] ++ encodeOpts pre ++ be16 DHCPV6_OPT_CLIENTID ++
        be16 v.length) ++ (v ++ encodeOpts post) from by
      simp [encodeOpts_append, encodeOpts, encodeOpt, List.append_assoc]]
    exact sub_exact _ _ _ _ _ (by simp [be16]; omega) rfl
  have hsetv : setBytes (List.replicate 130 0) 0 v =
      v ++ List.replicate (130 - v.length) 0 := by
    unfold setBytes
    rw [List.take_zero, List.take_of_length_le (by simp; omega),
      List.drop_replicate]
    simp
  have hscan : hcr_scan
      ([mt, t1, t2, t3] ++
        encodeOpts (pre ++ (DHCPV6_OPT_CLIENTID, v) :: post)) iface
      (dhcpv6_offsets_spec 4 (pre ++ (DHCPV6_OPT_CLIENTID, v) :: post))
      (0, List.replicate 130 0, 38, 0) =
      some (v.length, v ++ List.replicate (130 - v.length) 0,
        42 + v.length, 0) := by
    rw [dhcpv6_offsets_spec_append, hcr_scan_append,
      hcr_scan_skip _ _ _ _ hskip_pre]
    simp only [dhcpv6_offsets_spec, hcr_scan]
    rw [if_pos (by simp [hv])]
    rw [hsubv, hsetv]
    have := hcr_scan_skip
      ([mt, t1, t2, t3] ++
        encodeOpts (pre ++ (DHCPV6_OPT_CLIENTID, v) :: post)) iface
      (dhcpv6_offsets_spec (4 + (encodeOpts pre).length + 4 + v.length) post)
      (v.length, v ++ List.replicate (130 - v.length) 0, 38 + 4 + v.length, 0)
      hskip_post
    rw [show (38 : Nat) + 4 + v.length = 42 + v.length from by omega] at this
    rw [show (4 : Nat) + (encodeOpts pre).length + 4 + v.length =
      4 + (encodeOpts pre).length + 4 + v.length from rfl]
    exact this
  have hb0 : byteAt ([mt, t1, t2, t3] ++
      encodeOpts (pre ++ (DHCPV6_OPT_CLIENTID, v) :: post)) 0 = mt := rfl
  have hlen4 : ¬ (([mt, t1, t2, t3] ++
      encodeOpts (pre ++ (DHCPV6_OPT_CLIENTID, v) :: post)).length < 4) := by
    simp
  have htr : sub ([mt, t1, t2, t3] ++
      encodeOpts (pre ++ (DHCPV6_OPT_CLIENTID, v) :: post)) 1 3 =
      [t1, t2, t3] := by
    simp [sub]
  unfold handle_client_request
  rw [if_neg hlen4]
  simp only [hb0, hmt1, Bool.false_eq_true, if_false]
  rw [if_neg (by simp [hmt2])]
  rw [hwalk, hscan]
  simp only [Nat.lt_irrefl, if_false, henv]
  rw [htr]
  have hcb : ((if (mt == DHCPV6_MSG_SOLICIT) = true then DHCPV6_MSG_ADVERTISE
      else DHCPV6_MSG_REPLY) :: [t1, t2, t3] ++
      be16 DHCPV6_OPT_DNS_SERVERS ++ be16 16 ++ fix16 a ++
      be16 DHCPV6_OPT_SERVERID ++ be16 10 ++ be16 3 ++ be16 1 ++
      fix6 iface.mac ++ be16 DHCPV6_OPT_CLIENTID ++ be16 v.length ++
      (v ++ List.replicate (130 - v.length) 0)).take (42 + v.length) =
      (if (mt == DHCPV6_MSG_SOLICIT) = true then DHCPV6_MSG_ADVERTISE
      else DHCPV6_MSG_REPLY) :: [t1, t2, t3] ++
      be16 DHCPV6_OPT_DNS_SERVERS ++ be16 16 ++ fix16 a ++
      be16 DHCPV6_OPT_SERVERID ++ be16 10 ++ be16 3 ++ be16 1 ++
      fix6 iface.mac ++ be16 DHCPV6_OPT_CLIENTID ++ be16 v.length ++ v := by
    rw [show (if (mt == DHCPV6_MSG_SOLICIT) = true then DHCPV6_MSG_ADVERTISE
        else DHCPV6_MSG_REPLY) :: [t1, t2, t3] ++
        be16 DHCPV6_OPT_DNS_SERVERS ++ be16 16 ++ fix16 a ++
        be16 DHCPV6_OPT_SERVERID ++ be16 10 ++ be16 3 ++ be16 1 ++
        fix6 iface.mac ++ be16 DHCPV6_OPT_CLIENTID ++ be16 v.length ++
        (v ++ List.replicate (130 - v.length) 0) =
      ((if (mt == DHCPV6_MSG_SOLICIT) = true then DHCPV6_MSG_ADVERTISE
        else DHCPV6_MSG_REPLY) :: [t1, t2, t3] ++
        be16 DHCPV6_OPT_DNS_SERVERS ++ be16 16 ++ fix16 a ++
        be16 DHCPV6_OPT_SERVERID ++ be16 10 ++ be16 3 ++ be16 1 ++
        fix6 iface.mac ++ be16 DHCPV6_OPT_CLIENTID ++ be16 v.length ++ v) ++
        List.replicate (130 - v.length) 0 from by
      simp [List.append_assoc]]
    rw [show (42 : Nat) + v.length =
      ((if (mt == DHCPV6_MSG_SOLICIT) = true then DHCPV6_MSG_ADVERTISE
        else DHCPV6_MSG_REPLY) :: [t1, t2, t3] ++
        be16 DHCPV6_OPT_DNS_SERVERS ++ be16 16 ++ fix16 a ++
        be16 DHCPV6_OPT_SERVERID ++ be16 10 ++ be16 3 ++ be16 1 ++
        fix6 iface.mac ++ be16 DHCPV6_OPT_CLIENTID ++ be16 v.length ++
        v).length from by
      simp [be16, fix16_length, fix6_length]
      omega]
    exact List.take_left _ _
  rw [hcb]
  rw [show sub ([mt, t1, t2, t3] ++
      encodeOpts (pre ++ (DHCPV6_OPT_CLIENTID, v) :: post)) 0 0 = [] from by
    simp [sub]]
  simp only [List.nil_append, List.take_zero, List.append_nil]
  congr 1
  simp [encodeOpts, encodeOpt, be16, fix16_length, fix6_length,
    List.append_assoc]

/-- A Solicit carrying a single 131-byte Client-ID. -/
def solBig : List Nat :=
  [1, 0xAA, 0xBB, 0xCC] ++
    encodeOpts [(DHCPV6_OPT_CLIENTID, List.replicate 131 5)]

set_option maxRecDepth 10000 in
/-- **C6** fails as stated: a Solicit whose only Client-ID is 131 bytes
long still gets an Advertise — the scan's `olen <= 130` guard silently
ignores the oversized option instead of dropping the request — and the
reply carries NO Client-ID option at all, so the reply's Client-ID does
not equal the request's byte-for-byte. -/
theorem mini_server_roundtrip_counterexample :
    (handle_client_request env0 solBig ifLan).isSome = true ∧
    byteAt ((handle_client_request env0 solBig ifLan).getD []) 0 =
      DHCPV6_MSG_ADVERTISE ∧
    (DHCPV6_OPT_CLIENTID, List.replicate 131 5) ∈
      dhcpv6_opts solBig solBig.length 4 ∧
    ((dhcpv6_opts ((handle_client_request env0 solBig ifLan).getD [])
        ((handle_client_request env0 solBig ifLan).getD []).length 4).all
      (fun o => o.1 != DHCPV6_OPT_CLIENTID)) = true := by
  decide

/-- **C6** (amended). For every non-nested request to the stateless
mini-server that carries exactly one Client-ID of at most 130 bytes and no
Server-ID or IA_NA options, and whose message type is neither Rebind nor
Relay-Forward: the reply is an Advertise for a Solicit and a Reply
otherwise (Information-Request and Request included); its 3-byte
transaction id equals the request's; and its Client-ID option equals the
request's byte-for-byte.  As literally stated the claim is false: a
Client-ID longer than 130 bytes is silently ignored, producing a reply
with no Client-ID echo at all (see the counterexample). -/
theorem mini_server_roundtrip (env : AddrEnv)
    (iface : relayd_interface) (a : List Nat) (mt t1 t2 t3 : Nat)
    (v : List Nat) (pre post : List (Nat × List Nat))
    (hwfpre : optsWF pre) (hwfpost : optsWF post)
    (hno : ∀ o ∈ pre ++ post, o.1 ≠ DHCPV6_OPT_CLIENTID ∧
      o.1 ≠ DHCPV6_OPT_SERVERID ∧ o.1 ≠ DHCPV6_OPT_IA_NA)
    (hv : v.length ≤ 130)
    (hmt1 : (mt == DHCPV6_MSG_RELAY_FORW) = false)
    (hmt2 : (mt == DHCPV6_MSG_REBIND) = false)
    (henv : relayd_get_interface_address env iface.ifname true = some a) :
    handle_client_request env
        ([mt, t1, t2, t3] ++
          encodeOpts (pre ++ (DHCPV6_OPT_CLIENTID, v) :: post)) iface =
      some ((if (mt == DHCPV6_MSG_SOLICIT) = true then DHCPV6_MSG_ADVERTISE
          else DHCPV6_MSG_REPLY) :: [t1, t2, t3] ++
        encodeOpts [(DHCPV6_OPT_DNS_SERVERS, fix16 a),
          (DHCPV6_OPT_SERVERID, be16 3 ++ be16 1 ++ fix6 iface.mac),
          (DHCPV6_OPT_CLIENTID, v)]) ∧
    dhcpv6_opts
        ((if (mt == DHCPV6_MSG_SOLICIT) = true then DHCPV6_MSG_ADVERTISE
          else DHCPV6_MSG_REPLY) :: [t1, t2, t3] ++
          encodeOpts [(DHCPV6_OPT_DNS_SERVERS, fix16 a),
            (DHCPV6_OPT_SERVERID, be16 3 ++ be16 1 ++ fix6 iface.mac),
            (DHCPV6_OPT_CLIENTID, v)])
        ((if (mt == DHCPV6_MSG_SOLICIT) = true then DHCPV6_MSG_ADVERTISE
          else DHCPV6_MSG_REPLY) :: [t1, t2, t3] ++
          encodeOpts [(DHCPV6_OPT_DNS_SERVERS, fix16 a),
            (DHCPV6_OPT_SERVERID, be16 3 ++ be16 1 ++ fix6 iface.mac),
            (DHCPV6_OPT_CLIENTID, v)]).length 4 =
      [(DHCPV6_OPT_DNS_SERVERS, fix16 a),
        (DHCPV6_OPT_SERVERID, be16 3 ++ be16 1 ++ fix6 iface.mac),
        (DHCPV6_OPT_CLIENTID, v)] ∧
    (DHCPV6_OPT_CLIENTID, v) ∈
      [(DHCPV6_OPT_DNS_SERVERS, fix16 a),
        (DHCPV6_OPT_SERVERID, be16 3 ++ be16 1 ++ fix6 iface.mac),
        (DHCPV6_OPT_CLIENTID, v)] ∧
    sub ((if (mt == DHCPV6_MSG_SOLICIT) = true then DHCPV6_MSG_ADVERTISE
        else DHCPV6_MSG_REPLY) :: [t1, t2, t3] ++
        encodeOpts [(DHCPV6_OPT_DNS_SERVERS, fix16 a),
          (DHCPV6_OPT_SERVERID, be16 3 ++ be16 1 ++ fix6 iface.mac),
          (DHCPV6_OPT_CLIENTID, v)]) 1 3 = [t1, t2, t3] := by
  refine ⟨handle_client_request_roundtrip env iface a mt t1 t2 t3 v pre post
    hwfpre hwfpost hno hv hmt1 hmt2 henv, ?_, by simp, by simp [sub]⟩
  have hwfR : optsWF [(DHCPV6_OPT_DNS_SERVERS, fix16 a),
      (DHCPV6_OPT_SERVERID, be16 3 ++ be16 1 ++ fix6 iface.mac),
      (DHCPV6_OPT_CLIENTID, v)] := by
    intro o ho
    rcases List.mem_cons.mp ho with rfl | ho
    · exact ⟨by norm_num [DHCPV6_OPT_DNS_SERVERS],
        show (fix16 a).length < 65536 by rw [fix16_length]; omega⟩
    · rcases List.mem_cons.mp ho with rfl | ho
      · refine ⟨by norm_num [DHCPV6_OPT_SERVERID], ?_⟩
        show (be16 3 ++ be16 1 ++ fix6 iface.mac).length < 65536
        simp [be16, fix6_length]
      · rcases List.mem_cons.mp ho with rfl | ho
        · exact ⟨by norm_num [DHCPV6_OPT_CLIENTID],
            show v.length < 65536 by omega⟩
        · simp at ho
  have h := dhcpv6_opts_encode
    [(DHCPV6_OPT_DNS_SERVERS, fix16 a),
      (DHCPV6_OPT_SERVERID, be16 3 ++ be16 1 ++ fix6 iface.mac),
      (DHCPV6_OPT_CLIENTID, v)]
    [(if (mt == DHCPV6_MSG_SOLICIT) = true then DHCPV6_MSG_ADVERTISE
      else DHCPV6_MSG_REPLY), t1, t2, t3] hwfR
  simpa using h

/-- Witness for the amended C6 at a concrete Solicit with a 4-byte
Client-ID. -/
theorem mini_server_roundtrip_witness :
    (([9, 8, 7, 6] : List Nat).length ≤ 130 ∧
      relayd_get_interface_address env0 ifLan.ifname true =
        some addrGlobal2 ∧
      ((1 : Nat) == DHCPV6_MSG_RELAY_FORW) = false) ∧
    (handle_client_request env0
        ([1, 0xAA, 0xBB, 0xCC] ++
          encodeOpts ([] ++ (DHCPV6_OPT_CLIENTID, [9, 8, 7, 6]) :: [])) ifLan =
      some ((if ((1 : Nat) == DHCPV6_MSG_SOLICIT) = true then
          DHCPV6_MSG_ADVERTISE else DHCPV6_MSG_REPLY) ::
        [0xAA, 0xBB, 0xCC] ++
        encodeOpts [(DHCPV6_OPT_DNS_SERVERS, fix16 addrGlobal2),
          (DHCPV6_OPT_SERVERID, be16 3 ++ be16 1 ++ fix6 ifLan.mac),
          (DHCPV6_OPT_CLIENTID, [9, 8, 7, 6])]) ∧
      dhcpv6_opts
        ((if ((1 : Nat) == DHCPV6_MSG_SOLICIT) = true then
          DHCPV6_MSG_ADVERTISE else DHCPV6_MSG_REPLY) ::
          [0xAA, 0xBB, 0xCC] ++
          encodeOpts [(DHCPV6_OPT_DNS_SERVERS, fix16 addrGlobal2),
            (DHCPV6_OPT_SERVERID, be16 3 ++ be16 1 ++ fix6 ifLan.mac),
            (DHCPV6_OPT_CLIENTID, [9, 8, 7, 6])])
        ((if ((1 : Nat) == DHCPV6_MSG_SOLICIT) = true then
          DHCPV6_MSG_ADVERTISE else DHCPV6_MSG_REPLY) ::
          [0xAA, 0xBB, 0xCC] ++
          encodeOpts [(DHCPV6_OPT_DNS_SERVERS, fix16 addrGlobal2),
            (DHCPV6_OPT_SERVERID, be16 3 ++ be16 1 ++ fix6 ifLan.mac),
            (DHCPV6_OPT_CLIENTID, [9, 8, 7, 6])]).length 4 =
      [(DHCPV6_OPT_DNS_SERVERS, fix16 addrGlobal2),
        (DHCPV6_OPT_SERVERID, be16 3 ++ be16 1 ++ fix6 ifLan.mac),
        (DHCPV6_OPT_CLIENTID, [9, 8, 7, 6])] ∧
      (DHCPV6_OPT_CLIENTID, ([9, 8, 7, 6] : List Nat)) ∈
        [(DHCPV6_OPT_DNS_SERVERS, fix16 addrGlobal2),
          (DHCPV6_OPT_SERVERID, be16 3 ++ be16 1 ++ fix6 ifLan.mac),
          (DHCPV6_OPT_CLIENTID, [9, 8, 7, 6])] ∧
      sub ((if ((1 : Nat) == DHCPV6_MSG_SOLICIT) = true then
          DHCPV6_MSG_ADVERTISE else DHCPV6_MSG_REPLY) ::
          [0xAA, 0xBB, 0xCC] ++
          encodeOpts [(DHCPV6_OPT_DNS_SERVERS, fix16 addrGlobal2),
            (DHCPV6_OPT_SERVERID, be16 3 ++ be16 1 ++ fix6 ifLan.mac),
            (DHCPV6_OPT_CLIENTID, [9, 8, 7, 6])]) 1 3 =
        [0xAA, 0xBB, 0xCC]) :=
  ⟨⟨by decide, by decide, by decide⟩,
    mini_server_roundtrip env0 ifLan addrGlobal2 1 0xAA 0xBB 0xCC
      [9, 8, 7, 6] [] [] (by decide) (by decide) (by decide) (by decide)
      (by decide) (by decide) (by decide)⟩

end Relayd
